import Mathlib

/-!
Verification development for the miro terminal emulator core:
the escape-sequence parser (`src/core/escape/parser/mod.rs`),
the terminal state engine (`src/term/terminalstate.rs`) and the
terminal wrapper (`src/term/terminal.rs`), shallowly embedded in Lean.

Supporting types that the repository uses but whose sources are not part
of the provided tree (the `Screen`/`Line`/`Cell` grid model, the
`SelectionRange` helpers, the `vtparse` byte lexer, the CSI/ESC/OSC
decoders and the unicode width/segmentation helpers) are modelled from
the specification; each such definition carries a doc comment starting
with `Modelled from the spec:`.

Rust integer semantics: `usize`/`u32` become `Nat`, `i64`/`i32` become
`Int`; wrapping casts and wrapping arithmetic are written with explicit
`% 2 ^ w`.
-/

namespace Miro

/-! ## Generic list helpers -/

/-- Update the element at index `i` (no-op when out of range),
mirroring in-place mutation of a `Vec` element. -/
def listModify (l : List α) (i : Nat) (f : α → α) : List α :=
  match l[i]? with
  | some a => l.set i (f a)
  | none => l

@[simp] theorem listModify_length (l : List α) (i : Nat) (f : α → α) :
    (listModify l i f).length = l.length := by
  unfold listModify
  cases h : l[i]? with
  | none => rfl
  | some a => simp

theorem listModify_getElem?_ne (l : List α) (i j : Nat) (f : α → α) (h : i ≠ j) :
    (listModify l i f)[j]? = l[j]? := by
  unfold listModify
  cases hx : l[i]? with
  | none => rfl
  | some a => simp [List.getElem?_set_ne h]

theorem listModify_getElem?_eq (l : List α) (i : Nat) (f : α → α) (a : α)
    (h : l[i]? = some a) : (listModify l i f)[i]? = some (f a) := by
  unfold listModify
  rw [h]
  have hi : i < l.length := by
    by_contra hn
    rw [List.getElem?_eq_none (by omega)] at h
    exact Option.noConfusion h
  simp [List.getElem?_set_self, hi]

/-- Apply `g i a` to each element, where `i` counts from `k`. -/
def idxMapFrom (g : Nat → α → α) (k : Nat) : List α → List α
  | [] => []
  | a :: as => g k a :: idxMapFrom g (k + 1) as

@[simp] theorem idxMapFrom_length (g : Nat → α → α) (k : Nat) (l : List α) :
    (idxMapFrom g k l).length = l.length := by
  induction l generalizing k with
  | nil => rfl
  | cons a as ih => simp [idxMapFrom, ih]

theorem idxMapFrom_getElem? (g : Nat → α → α) (k : Nat) (l : List α) (i : Nat) :
    (idxMapFrom g k l)[i]? = (l[i]?).map (g (k + i)) := by
  induction l generalizing k i with
  | nil => simp [idxMapFrom]
  | cons a as ih =>
    cases i with
    | zero => simp [idxMapFrom]
    | succ j =>
      simp only [idxMapFrom, List.getElem?_cons_succ]
      rw [ih]
      have h : k + 1 + j = k + (j + 1) := by omega
      rw [h]

theorem idxMapFrom_map (f : α → β) (g : Nat → α → α) (k : Nat) (l : List α)
    (h : ∀ i a, f (g i a) = f a) :
    (idxMapFrom g k l).map f = l.map f := by
  induction l generalizing k with
  | nil => rfl
  | cons a as ih => simp [idxMapFrom, h, ih]

theorem mem_idxMapFrom (g : Nat → α → α) (k : Nat) (l : List α) (x : α)
    (h : x ∈ idxMapFrom g k l) : ∃ i a, a ∈ l ∧ x = g i a := by
  induction l generalizing k with
  | nil => simp [idxMapFrom] at h
  | cons a as ih =>
    simp only [idxMapFrom, List.mem_cons] at h
    rcases h with h | h
    · exact ⟨k, a, List.mem_cons_self a as, h⟩
    · rcases ih (k + 1) h with ⟨i, b, hb, rfl⟩
      exact ⟨i, b, List.mem_cons_of_mem a hb, rfl⟩

/-- The list of integers `[a, a+1, ..., b-1]` (a Rust `a..b` range over `i64`). -/
def intRange (a b : Int) : List Int :=
  (List.range (b - a).toNat).map (fun i => a + Int.ofNat i)

@[simp] theorem intRange_self (a : Int) : intRange a a = [] := by
  simp [intRange]

theorem mem_intRange {a b y : Int} : y ∈ intRange a b ↔ a ≤ y ∧ y < b := by
  simp only [intRange, List.mem_map, List.mem_range, Int.ofNat_eq_natCast]
  constructor
  · rintro ⟨i, hi, rfl⟩
    omega
  · intro h
    exact ⟨(y - a).toNat, by omega, by omega⟩

/-- Rust `as usize` cast of an `i64` value (two's complement wrap). -/
def usizeCast (v : Int) : Nat := (v % (2 : Int) ^ 64).toNat

theorem usizeCast_of_nonneg {v : Int} (h0 : 0 ≤ v) (h1 : v < 2 ^ 64) :
    usizeCast v = v.toNat := by
  unfold usizeCast
  rw [Int.emod_eq_of_lt h0 h1]

/-- Rust `usize::max_value()`. -/
def usizeMax : Nat := 2 ^ 64 - 1

/-! ## Colors, attributes, cells -/

/-- Modelled from the spec: a color attribute is either the default
color, an indexed palette color, or a direct true color. -/
inductive ColorAttribute
  | Default
  | PaletteIndex (idx : Nat)
  | TrueColor (r g b : Nat)
deriving DecidableEq, Repr

/-- Modelled from the spec: text intensity attribute. -/
inductive Intensity
  | Normal
  | Bold
  | Half
deriving DecidableEq, Repr

/-- Modelled from the spec: underline kind attribute. -/
inductive Underline
  | NoUnderline
  | Single
  | Double
deriving DecidableEq, Repr

/-- Modelled from the spec: blink attribute. -/
inductive Blink
  | NoBlink
  | Slow
  | Rapid
deriving DecidableEq, Repr

/-- Modelled from the spec: an immutable hyperlink record (uri plus optional id). -/
structure Hyperlink where
  uri : List Char
  id : Option (List Char)
deriving DecidableEq, Repr

/-- Modelled from the spec: the graphic attributes stored in a cell and in
the pen (foreground/background color, intensity, italic, blink, reverse,
strikethrough, invisible, underline kind, wrapped flag, hyperlink). -/
structure CellAttributes where
  foreground : ColorAttribute := .Default
  background : ColorAttribute := .Default
  intensity : Intensity := .Normal
  underline : Underline := .NoUnderline
  blink : Blink := .NoBlink
  italic : Bool := false
  reverse : Bool := false
  strikethrough : Bool := false
  invisible : Bool := false
  wrapped : Bool := false
  hyperlink : Option Hyperlink := none
deriving DecidableEq, Repr

/-- The all-default attribute set (`CellAttributes::default()`). -/
def CellAttributes.default : CellAttributes := {}

/-- Modelled from the spec: `clone_sgr_only` keeps the SGR attributes and
colors but drops the wrapped flag and the hyperlink. -/
def CellAttributes.clone_sgr_only (a : CellAttributes) : CellAttributes :=
  { a with wrapped := false, hyperlink := none }

/-- Modelled from the spec: one grid position holding a grapheme cluster
(possibly multi-codepoint) and its attributes. -/
structure Cell where
  text : List Char
  attrs : CellAttributes
deriving DecidableEq, Repr

/-- `Cell::new(c, attrs)`. -/
def Cell.new (c : Char) (attrs : CellAttributes) : Cell := ⟨[c], attrs⟩

/-- `Cell::new_grapheme(g, attrs)`. -/
def Cell.new_grapheme (g : List Char) (attrs : CellAttributes) : Cell := ⟨g, attrs⟩

/-- `Cell::default()`: a blank space with default attributes. -/
def Cell.blank : Cell := Cell.new ' ' CellAttributes.default

/-! ## Lines and screens -/

/-- Modelled from the spec: a line is a dense sequence of cells plus a
dirty flag used for redraw invalidation. -/
structure Line where
  cells : List Cell
  dirty : Bool
deriving DecidableEq, Repr

/-- A fresh line of `cols` blank cells, marked dirty (freshly created
lines need a redraw). -/
def Line.blankDirty (cols : Nat) : Line :=
  ⟨List.replicate cols Cell.blank, true⟩

/-- `Line::set_dirty`. -/
def Line.set_dirty (l : Line) : Line := { l with dirty := true }

/-- Modelled from the spec: whether any cell of the line carries a
hyperlink (the source keeps a per-line flag for fast scans). -/
def Line.has_hyperlink (l : Line) : Bool :=
  l.cells.any (fun c => c.attrs.hyperlink.isSome)

/-- Modelled from the spec: writing one cell marks the line dirty; the
line is padded with default cells when the index is past the end. -/
def Line.set_cell (l : Line) (x : Nat) (c : Cell) : Line :=
  let cells :=
    if x < l.cells.length then l.cells
    else l.cells ++ List.replicate (x + 1 - l.cells.length) Cell.blank
  ⟨cells.set x c, true⟩

/-- Modelled from the spec: the screen owns scrollback plus visible rows
(the visible rows are the tail of `lines`); invariant
`lines.length ≥ physical_rows`. -/
structure Screen where
  lines : List Line
  physical_rows : Nat
  physical_cols : Nat
  scrollback_size : Nat
deriving DecidableEq, Repr

/-- `Screen::new`: `physical_rows` blank lines. -/
def Screen.new (physical_rows physical_cols scrollback_size : Nat) : Screen :=
  ⟨List.replicate physical_rows (Line.blankDirty physical_cols),
    physical_rows, physical_cols, scrollback_size⟩

/-- Modelled from the spec: translate a visible row index into a physical
index in `lines` (the source asserts `row ≥ 0`; a negative row panics
there and is left unmapped here). -/
def Screen.phys_row (s : Screen) (row : Int) : Nat :=
  s.lines.length - s.physical_rows + row.toNat

/-- Modelled from the spec: translate a scrollback-or-visible row index
(negative values reach into scrollback) into a physical index, clamped
at zero. -/
def Screen.scrollback_or_visible_row (s : Screen) (row : Int) : Nat :=
  (((s.lines.length - s.physical_rows : Int)) + row).toNat

/-- `Screen::dirty_line`: mark the line of a visible row dirty when the
physical index is in range. -/
def Screen.dirty_line (s : Screen) (y : Int) : Screen :=
  if 0 ≤ y then
    { s with lines := listModify s.lines (s.phys_row y) Line.set_dirty }
  else s

/-- `Screen::set_cell`: write a cell at `(x, y)` (visible coordinates),
marking the line dirty. -/
def Screen.set_cell (s : Screen) (x : Nat) (y : Int) (c : Cell) : Screen :=
  { s with lines := listModify s.lines (s.phys_row y) (fun l => l.set_cell x c) }

/-- Modelled from the spec: erase one cell, shifting the rest of the line
left (used by DeleteCharacter); marks the line dirty. -/
def Screen.erase_cell (s : Screen) (x : Nat) (y : Int) : Screen :=
  let f := fun (l : Line) => if x < l.cells.length then (⟨l.cells.eraseIdx x, true⟩ : Line) else l
  { s with lines := listModify s.lines (s.phys_row y) f }

/-- Modelled from the spec: insert a blank cell at `x`, shifting the rest
of the line right; marks the line dirty. -/
def Screen.insert_cell (s : Screen) (x : Nat) (y : Int) : Screen :=
  let f := fun (l : Line) => (⟨l.cells.insertIdx (min x l.cells.length) Cell.blank, true⟩ : Line)
  { s with lines := listModify s.lines (s.phys_row y) f }

/-- Modelled from the spec: blank every cell of the row whose column lies
in `[cs, ce)` with the given pen; the line is marked dirty exactly when
at least one existing cell is written (the fill loop stops at the end of
the line). -/
def Screen.clear_line (s : Screen) (y : Int) (cs ce : Nat) (pen : CellAttributes) : Screen :=
  let blank := Cell.new ' ' pen
  let f := fun (l : Line) =>
    (⟨idxMapFrom (fun i c => if cs ≤ i ∧ i < ce then blank else c) 0 l.cells,
      l.dirty || decide (cs < min ce l.cells.length)⟩ : Line)
  { s with lines := listModify s.lines (s.phys_row y) f }

/-- Mark the lines with physical index in `[a, b)` dirty. -/
def Screen.markDirtyRange (s : Screen) (a b : Nat) : Screen :=
  let lines := idxMapFrom (fun i l => if a ≤ i ∧ i < b then l.set_dirty else l) 0 s.lines
  { s with lines := lines }

/-- Modelled from the spec: scroll the region `[rtop, rend)` up by `n`
rows.  Scrolling the full-screen region of a screen with scrollback
appends fresh lines at the bottom so the evicted top lines become
scrollback (bounded by `scrollback_size`); scrolling a sub-region
discards the rows scrolled off.  All lines of the region are marked
dirty. -/
def Screen.scroll_up (s : Screen) (rtop rend : Int) (n : Nat) : Screen :=
  let pt := s.phys_row rtop
  let pe := s.phys_row rend
  let regionLen := pe - pt
  let n := min n regionLen
  if rtop = 0 ∧ rend = (s.physical_rows : Int) ∧ 0 < s.scrollback_size then
    let grown := s.lines ++ List.replicate n (Line.blankDirty s.physical_cols)
    let excess := grown.length - (s.physical_rows + s.scrollback_size)
    let lines := grown.drop excess
    Screen.markDirtyRange { s with lines := lines }
      (lines.length - s.physical_rows) lines.length
  else
    let seg := (s.lines.drop pt).take regionLen
    let lines := s.lines.take pt
      ++ (seg.drop n ++ List.replicate n (Line.blankDirty s.physical_cols))
      ++ s.lines.drop pe
    Screen.markDirtyRange { s with lines := lines } pt pe

/-- Modelled from the spec: scroll the region `[rtop, rend)` down by `n`
rows, discarding the rows scrolled off the bottom of the region (no
scrollback contribution); all lines of the region are marked dirty. -/
def Screen.scroll_down (s : Screen) (rtop rend : Int) (n : Nat) : Screen :=
  let pt := s.phys_row rtop
  let pe := s.phys_row rend
  let regionLen := pe - pt
  let n := min n regionLen
  let seg := (s.lines.drop pt).take regionLen
  let lines := s.lines.take pt
    ++ (List.replicate n (Line.blankDirty s.physical_cols) ++ seg.take (regionLen - n))
    ++ s.lines.drop pe
  Screen.markDirtyRange { s with lines := lines } pt pe

/-- Modelled from the spec: `resize` adjusts the physical dimensions,
padding lines and rows as needed (only the parts the claims rely on are
exercised). -/
def Screen.resize (s : Screen) (physical_rows physical_cols : Nat) : Screen :=
  let lines :=
    if s.lines.length < physical_rows then
      s.lines ++ List.replicate (physical_rows - s.lines.length)
        (Line.blankDirty physical_cols)
    else s.lines
  { s with
    lines := lines
    physical_rows := physical_rows
    physical_cols := physical_cols }

/-! ## Selection -/

/-- Modelled from the spec: a selection endpoint
(x column, y row relative to scrollback or viewport). -/
structure SelectionCoordinate where
  x : Nat
  y : Int
deriving DecidableEq, Repr

/-- Modelled from the spec: a selection is a (start, end) pair of
coordinates, normalized lazily when read.  The Rust field `end` is a
Lean keyword and is embedded as `sel_end`. -/
structure SelectionRange where
  start : SelectionCoordinate
  sel_end : SelectionCoordinate
deriving DecidableEq, Repr

/-- Modelled from the spec: reorder the endpoints so `start` comes first. -/
def SelectionRange.normalize (r : SelectionRange) : SelectionRange :=
  if r.start.y < r.sel_end.y ∨ (r.start.y = r.sel_end.y ∧ r.start.x ≤ r.sel_end.x) then r
  else ⟨r.sel_end, r.start⟩

/-- Modelled from the spec: the selected rows as a half-open range. -/
def SelectionRange.rowsRange (r : SelectionRange) : Int × Int :=
  let n := r.normalize
  (n.start.y, n.sel_end.y + 1)

/-- Modelled from the spec: the half-open column range the selection
covers on a given row (empty when the row is outside the selection; the
open side of a multi-row selection extends to `usize::max_value()`). -/
def SelectionRange.cols_for_row (r : SelectionRange) (row : Int) : Nat × Nat :=
  let sel := r.normalize
  if row < sel.start.y ∨ row > sel.sel_end.y then (0, 0)
  else if sel.start.y = sel.sel_end.y then (sel.start.x, max sel.sel_end.x sel.start.x + 1)
  else if row = sel.sel_end.y then (0, sel.sel_end.x + 1)
  else if row = sel.start.y then (sel.start.x, usizeMax)
  else (0, usizeMax)

theorem SelectionRange.normalize_idem (r : SelectionRange) :
    r.normalize.normalize = r.normalize := by
  unfold SelectionRange.normalize
  rcases r with ⟨⟨sx, sy⟩, ⟨ex, ey⟩⟩
  by_cases h : sy < ey ∨ (sy = ey ∧ sx ≤ ex)
  · simp only [h, if_pos]
  · simp only [h, if_neg, not_false_iff]
    have : ey < sy ∨ (ey = sy ∧ ex ≤ sx) := by
      rcases Int.lt_trichotomy sy ey with hlt | heq | hgt
      · exact absurd (Or.inl hlt) h
      · subst heq
        exact Or.inr ⟨rfl, by omega⟩
      · exact Or.inl hgt
    simp [this]

/-- Modelled from the spec: two half-open ranges intersect when the
maximum of the starts is below the minimum of the ends. -/
def intersects_range [LinearOrder α] (r1 r2 : α × α) : Bool :=
  decide (max r1.1 r2.1 < min r1.2 r2.2)

/-! ## Tab stops, saved cursor, screen-or-alt -/

/-- `TabStop`: a boolean per column plus the default period. -/
structure TabStop where
  tabs : List Bool
  tab_width : Nat
deriving DecidableEq, Repr

/-- `TabStop::new`: default stops every `tab_width` columns. -/
def TabStop.new (screen_width tab_width : Nat) : TabStop :=
  ⟨(List.range screen_width).map (fun i => decide (i % tab_width = 0)), tab_width⟩

/-- `TabStop::set_tab_stop` (the source indexes `tabs[col]`; out of
range would panic there and is a no-op here). -/
def TabStop.set_tab_stop (t : TabStop) (col : Nat) : TabStop :=
  { t with tabs := t.tabs.set col true }

/-- `TabStop::find_next_tab_stop`: the first stop strictly after `col`. -/
def TabStop.find_next_tab_stop (t : TabStop) (col : Nat) : Option Nat :=
  (List.range t.tabs.length).find? (fun i => decide (col < i) && t.tabs.getD i false)

/-- `TabStop::resize`: extend with default period stops, never shrink. -/
def TabStop.resize (t : TabStop) (screen_width : Nat) : TabStop :=
  if t.tabs.length < screen_width then
    let ext := ((List.range screen_width).drop t.tabs.length).map
      (fun i => decide (i % t.tab_width = 0))
    { t with tabs := t.tabs ++ ext }
  else t

/-- `CursorPosition`: x column (usize), y row (i64). -/
structure CursorPosition where
  x : Nat
  y : Int
deriving DecidableEq, Repr

/-- `CursorPosition::default()`. -/
def CursorPosition.default : CursorPosition := ⟨0, 0⟩

/-- `SavedCursor` (terminalstate.rs lines 55-60). -/
structure SavedCursor where
  position : CursorPosition
  wrap_next : Bool
  insert : Bool
deriving DecidableEq, Repr

/-- `ScreenOrAlt` (terminalstate.rs lines 62-70): the primary and
alternate screens, which one is active, and a saved-cursor slot per
screen. -/
structure ScreenOrAlt where
  screen : Screen
  alt_screen : Screen
  alt_screen_is_active : Bool
  saved_cursor : Option SavedCursor
  alt_saved_cursor : Option SavedCursor
deriving DecidableEq, Repr

/-- `ScreenOrAlt::new`. -/
def ScreenOrAlt.new (physical_rows physical_cols scrollback_size : Nat) : ScreenOrAlt :=
  ⟨Screen.new physical_rows physical_cols scrollback_size,
    Screen.new physical_rows physical_cols 0,
    false, none, none⟩

/-- The `Deref` impl: the active screen. -/
def ScreenOrAlt.active (s : ScreenOrAlt) : Screen :=
  if s.alt_screen_is_active then s.alt_screen else s.screen

/-- The `DerefMut` impl: mutate the active screen. -/
def ScreenOrAlt.mapActive (s : ScreenOrAlt) (f : Screen → Screen) : ScreenOrAlt :=
  if s.alt_screen_is_active then { s with alt_screen := f s.alt_screen }
  else { s with screen := f s.screen }

/-- `ScreenOrAlt::saved_cursor`: the saved-cursor slot of the active
screen (read). -/
def ScreenOrAlt.saved_cursor_of (s : ScreenOrAlt) : Option SavedCursor :=
  if s.alt_screen_is_active then s.alt_saved_cursor else s.saved_cursor

/-- `ScreenOrAlt::saved_cursor`: write the saved-cursor slot of the
active screen. -/
def ScreenOrAlt.set_saved_cursor (s : ScreenOrAlt) (v : Option SavedCursor) : ScreenOrAlt :=
  if s.alt_screen_is_active then { s with alt_saved_cursor := v }
  else { s with saved_cursor := v }

/-- `ScreenOrAlt::resize`. -/
def ScreenOrAlt.resize (s : ScreenOrAlt) (physical_rows physical_cols : Nat) : ScreenOrAlt :=
  { s with
    screen := s.screen.resize physical_rows physical_cols
    alt_screen := s.alt_screen.resize physical_rows physical_cols }

/-- Modelled from the spec: a hyperlink-detection rule (pattern plus URI
template); the regex scan itself is not part of the provided sources and
is modelled as a no-op on line content. -/
structure HyperlinkRule where
  pattern : List Char
  format : List Char
deriving DecidableEq, Repr

/-- Modelled from the spec: lazily scan a line for implicit hyperlinks.
The rule application itself is external code; content is left unchanged
here (with an empty rule list the real scan also changes nothing). -/
def Line.scan_and_create_hyperlinks (l : Line) (_rules : List HyperlinkRule) : Line :=
  l

/-! ## TerminalState -/

/-- `TerminalState` (terminalstate.rs lines 134-161), restricted to the
fields the embedded operations touch.  The host writer is not a field;
operations that write to the pty return the written bytes instead. -/
structure TerminalState where
  screen : ScreenOrAlt
  pen : CellAttributes
  cursor : CursorPosition
  wrap_next : Bool
  insert : Bool
  scroll_region : Int × Int
  application_cursor_keys : Bool
  application_keypad : Bool
  bracketed_paste : Bool
  sgr_mouse : Bool
  button_event_mouse : Bool
  cursor_visible : Bool
  dec_line_drawing_mode : Bool
  current_highlight : Option Hyperlink
  viewport_offset : Int
  mouse_position : CursorPosition
  selection_start : Option SelectionCoordinate
  selection_range : Option SelectionRange
  tabs : TabStop
  hyperlink_rules : List HyperlinkRule
deriving DecidableEq, Repr

/-- `TerminalState::new`. -/
def TerminalState.new (physical_rows physical_cols scrollback_size : Nat)
    (hyperlink_rules : List HyperlinkRule) : TerminalState :=
  { screen := ScreenOrAlt.new physical_rows physical_cols scrollback_size
    pen := CellAttributes.default
    cursor := CursorPosition.default
    wrap_next := false
    insert := false
    scroll_region := (0, (physical_rows : Int))
    application_cursor_keys := false
    application_keypad := false
    bracketed_paste := false
    sgr_mouse := false
    button_event_mouse := false
    cursor_visible := true
    dec_line_drawing_mode := false
    current_highlight := none
    viewport_offset := 0
    mouse_position := CursorPosition.default
    selection_start := none
    selection_range := none
    tabs := TabStop.new physical_cols 8
    hyperlink_rules := hyperlink_rules }

/-- The active screen (`self.screen()` through `Deref`). -/
def TerminalState.scr (st : TerminalState) : Screen :=
  st.screen.active

/-- Mutate the active screen (`self.screen_mut()`). -/
def TerminalState.mapScr (st : TerminalState) (f : Screen → Screen) : TerminalState :=
  { st with screen := st.screen.mapActive f }

/-! ## Selection operations on the terminal state -/

/-- Drop trailing spaces (Rust `str::trim_end` on cell text). -/
def trimEndSpaces (s : List Char) : List Char :=
  (s.reverse.dropWhile (fun c => c = ' ')).reverse

/-- Modelled from the spec: the concatenated text of the cells whose
column lies in `[cs, ce)`. -/
def Line.columns_as_str (l : Line) (cs ce : Nat) : List Char :=
  ((((List.range l.cells.length).zip l.cells).filterMap
    (fun p => if cs ≤ p.1 ∧ p.1 < ce then some p.2.text else none)).flatten)

/-- `TerminalState::get_selection_text` (terminalstate.rs lines 233-255). -/
def TerminalState.get_selection_text (st : TerminalState) : List Char :=
  match st.selection_range with
  | none => []
  | some r =>
    let sel := r.normalize
    let screen := st.scr
    let rows := intRange sel.rowsRange.1 sel.rowsRange.2
    (rows.foldl (fun (acc : List Char × Bool) y =>
      let s := acc.1
      let last_was_wrapped := acc.2
      let idx := screen.scrollback_or_visible_row y
      let line := screen.lines.getD idx ⟨[], false⟩
      let cols := sel.cols_for_row y
      let last_col_idx := min cols.2 line.cells.length - 1
      let s := if s.length ≠ 0 ∧ ¬last_was_wrapped = true then s ++ ['\n'] else s
      let s := s ++ trimEndSpaces (line.columns_as_str cols.1 cols.2)
      let last_cell := line.cells.getD last_col_idx Cell.blank
      (s, last_cell.attrs.wrapped && decide (last_cell.text ≠ [' ']))) ([], false)).1

/-- `TerminalState::dirty_selection_lines`. -/
def TerminalState.dirty_selection_lines (st : TerminalState) : TerminalState :=
  match st.selection_range with
  | none => st
  | some r =>
    let sel := r.normalize
    let a := st.scr.scrollback_or_visible_row sel.rowsRange.1
    let b := st.scr.scrollback_or_visible_row sel.rowsRange.2
    st.mapScr (fun s => s.markDirtyRange a b)

/-- `TerminalState::clear_selection`. -/
def TerminalState.clear_selection (st : TerminalState) : TerminalState :=
  let st := st.dirty_selection_lines
  { st with selection_range := none, selection_start := none }

/-- `TerminalState::clear_selection_if_intersects` (terminalstate.rs
lines 272-292).  Note the source first `take()`s the selection, so the
selection lines are not dirtied again on the clearing path. -/
def TerminalState.clear_selection_if_intersects (st : TerminalState)
    (cols : Nat × Nat) (row : Int) : TerminalState × Bool :=
  let sel := st.selection_range
  let st := { st with selection_range := none }
  match sel with
  | some sel =>
    let sel := sel.normalize
    let sel_cols := sel.cols_for_row row
    if intersects_range cols sel_cols then (st.clear_selection, true)
    else ({ st with selection_range := some sel }, false)
  | none => (st, true)

/-- `TerminalState::clear_selection_if_intersects_rows` (terminalstate.rs
lines 294-312). -/
def TerminalState.clear_selection_if_intersects_rows (st : TerminalState)
    (rows : Int × Int) : TerminalState × Bool :=
  let sel := st.selection_range
  let st := { st with selection_range := none }
  match sel with
  | some sel =>
    let sel_rows := sel.rowsRange
    if intersects_range rows sel_rows then (st.clear_selection, true)
    else ({ st with selection_range := some sel }, false)
  | none => (st, true)

/-- `TerminalState::hyperlink_for_cell` (terminalstate.rs lines 314-332). -/
def TerminalState.hyperlink_for_cell (st : TerminalState) (x : Nat) (y : Int) :
    TerminalState × Option Hyperlink :=
  let idx := st.scr.scrollback_or_visible_row y
  match st.scr.lines[idx]? with
  | some line =>
    let line := line.scan_and_create_hyperlinks st.hyperlink_rules
    let st := st.mapScr (fun s => { s with lines := s.lines.set idx line })
    (st, (line.cells[x]?).bind (fun c => c.attrs.hyperlink))
  | none => (st, none)

/-- `TerminalState::invalidate_hyperlinks`. -/
def TerminalState.invalidate_hyperlinks (st : TerminalState) : TerminalState :=
  st.mapScr (fun s =>
    { s with lines := s.lines.map (fun l => if l.has_hyperlink then l.set_dirty else l) })

/-- `TerminalState::recompute_highlight`. -/
def TerminalState.recompute_highlight (st : TerminalState) : TerminalState :=
  let line_idx := st.mouse_position.y - st.viewport_offset
  let x := st.mouse_position.x
  let p := st.hyperlink_for_cell x line_idx
  let st := { p.1 with current_highlight := p.2 }
  st.invalidate_hyperlinks

/-! ## Cursor and scrolling operations -/

/-- A cursor position argument (`Position::Relative` / `Position::Absolute`). -/
inductive Position
  | Relative (n : Int)
  | Absolute (n : Int)
deriving DecidableEq, Repr

/-- `TerminalState::set_cursor_pos` (terminalstate.rs lines 928-950):
clamp the target to the physical screen and dirty both the old and the
new row. -/
def TerminalState.set_cursor_pos (st : TerminalState) (px py : Position) : TerminalState :=
  let x : Int := match px with
    | .Relative dx => max ((st.cursor.x : Int) + dx) 0
    | .Absolute ax => ax
  let y : Int := match py with
    | .Relative dy => max (st.cursor.y + dy) 0
    | .Absolute ay => ay
  let rows := st.scr.physical_rows
  let cols := st.scr.physical_cols
  let old_y := st.cursor.y
  let new_y := min y ((rows : Int) - 1)
  let new_x := usizeCast (min x ((cols : Int) - 1))
  let st := { st with cursor := ⟨new_x, new_y⟩, wrap_next := false }
  st.mapScr (fun s => (s.dirty_line old_y).dirty_line new_y)

/-- `TerminalState::set_scroll_viewport` (terminalstate.rs lines 952-970). -/
def TerminalState.set_scroll_viewport (st : TerminalState) (position : Int) : TerminalState :=
  let st := st.clear_selection
  let position := max position 0
  let rows := st.scr.physical_rows
  let avail_scrollback := st.scr.lines.length - rows
  let position := min position ((avail_scrollback : Int))
  let st := { st with viewport_offset := position }
  let top := st.scr.lines.length - (rows + position.toNat)
  let st := st.mapScr (fun s => s.markDirtyRange top (top + rows))
  st.recompute_highlight

/-- `TerminalState::scroll_viewport`. -/
def TerminalState.scroll_viewport (st : TerminalState) (delta : Int) : TerminalState :=
  st.set_scroll_viewport (st.viewport_offset - delta)

/-- `TerminalState::scroll_up` (the private method on the state, not
`Screen::scroll_up`): clears the selection and scrolls the active screen
within the scroll region. -/
def TerminalState.scroll_up (st : TerminalState) (num_rows : Nat) : TerminalState :=
  let st := st.clear_selection
  st.mapScr (fun s => s.scroll_up st.scroll_region.1 st.scroll_region.2 num_rows)

/-- `TerminalState::scroll_down` (private method on the state). -/
def TerminalState.scroll_down (st : TerminalState) (num_rows : Nat) : TerminalState :=
  let st := st.clear_selection
  st.mapScr (fun s => s.scroll_down st.scroll_region.1 st.scroll_region.2 num_rows)

/-- `TerminalState::new_line` (terminalstate.rs lines 989-999): scroll
when at the bottom of the scroll region, otherwise move down one row;
optionally move to column 0. -/
def TerminalState.new_line (st : TerminalState) (move_to_first_column : Bool) : TerminalState :=
  let x := if move_to_first_column then 0 else st.cursor.x
  let y := st.cursor.y
  let p : TerminalState × Int :=
    if y = st.scroll_region.2 - 1 then (st.scroll_up 1, y) else (st, y + 1)
  p.1.set_cursor_pos (.Absolute ((x : Int))) (.Absolute p.2)

/-- `TerminalState::c1_index` (terminalstate.rs lines 1001-1010): like
new-line but the column is left unchanged. -/
def TerminalState.c1_index (st : TerminalState) : TerminalState :=
  let y := st.cursor.y
  let p : TerminalState × Int :=
    if y = st.scroll_region.2 - 1 then (st.scroll_up 1, y) else (st, y + 1)
  p.1.set_cursor_pos (.Relative 0) (.Absolute p.2)

/-- `TerminalState::c1_nel`. -/
def TerminalState.c1_nel (st : TerminalState) : TerminalState :=
  st.new_line true

/-- `TerminalState::c1_hts`. -/
def TerminalState.c1_hts (st : TerminalState) : TerminalState :=
  { st with tabs := st.tabs.set_tab_stop st.cursor.x }

/-- `TerminalState::c0_horizontal_tab`: move to the next tab stop or the
last column when none remains. -/
def TerminalState.c0_horizontal_tab (st : TerminalState) : TerminalState :=
  let x := match st.tabs.find_next_tab_stop st.cursor.x with
    | some x => x
    | none => st.scr.physical_cols - 1
  st.set_cursor_pos (.Absolute ((x : Int))) (.Relative 0)

/-- `TerminalState::c1_reverse_index` (terminalstate.rs lines 1028-1037). -/
def TerminalState.c1_reverse_index (st : TerminalState) : TerminalState :=
  let y := st.cursor.y
  let p : TerminalState × Int :=
    if y = st.scroll_region.1 then (st.scroll_down 1, y) else (st, y - 1)
  p.1.set_cursor_pos (.Relative 0) (.Absolute p.2)

/-- `TerminalState::save_cursor` (terminalstate.rs lines 1457-1462). -/
def TerminalState.save_cursor (st : TerminalState) : TerminalState :=
  let saved : SavedCursor :=
    { position := st.cursor, insert := st.insert, wrap_next := st.wrap_next }
  { st with screen := st.screen.set_saved_cursor (some saved) }

/-- `TerminalState::restore_cursor` (terminalstate.rs lines 1463-1475):
an empty saved-cursor slot restores the default position with both
flags clear. -/
def TerminalState.restore_cursor (st : TerminalState) : TerminalState :=
  let saved := match st.screen.saved_cursor_of with
    | some s => s
    | none => { position := CursorPosition.default, insert := false, wrap_next := false }
  let x := saved.position.x
  let y := saved.position.y
  let st := st.set_cursor_pos (.Absolute ((x : Int))) (.Absolute y)
  { st with wrap_next := saved.wrap_next, insert := saved.insert }

/-! ## Structured CSI operations

The CSI enums themselves live in `core/escape/csi.rs`, which is not part
of the provided sources; their variants and payload types are determined
by the match arms in `terminalstate.rs` and are declared accordingly. -/

/-- Modelled from the spec: a one-based coordinate carried by CSI
sequences; `as_zero_based` is a saturating decrement. -/
structure OneBased where
  value : Nat
deriving DecidableEq, Repr

/-- `OneBased::as_zero_based` (saturating subtraction). -/
def OneBased.as_zero_based (v : OneBased) : Nat := v.value - 1

/-- `OneBased::from_zero_based`. -/
def OneBased.from_zero_based (v : Nat) : OneBased := ⟨v + 1⟩

/-- The SGR operations dispatched by `perform_csi_sgr`. -/
inductive Sgr
  | Reset
  | Intensity (i : Intensity)
  | Underline (u : Underline)
  | Blink (b : Blink)
  | Italic (b : Bool)
  | Inverse (b : Bool)
  | Invisible (b : Bool)
  | StrikeThrough (b : Bool)
  | Foreground (c : ColorAttribute)
  | Background (c : ColorAttribute)
  | Font (f : Nat)
deriving DecidableEq, Repr

/-- The erase-in-line variants. -/
inductive EraseInLine
  | EraseToEndOfLine
  | EraseToStartOfLine
  | EraseLine
deriving DecidableEq, Repr

/-- The erase-in-display variants. -/
inductive EraseInDisplay
  | EraseToEndOfDisplay
  | EraseToStartOfDisplay
  | EraseDisplay
  | EraseScrollback
deriving DecidableEq, Repr

/-- The editing operations dispatched by `perform_csi_edit`. -/
inductive Edit
  | DeleteCharacter (n : Nat)
  | DeleteLine (n : Nat)
  | EraseCharacter (n : Nat)
  | EraseInLine (e : EraseInLine)
  | InsertCharacter (n : Nat)
  | InsertLine (n : Nat)
  | ScrollDown (n : Nat)
  | ScrollUp (n : Nat)
  | EraseInDisplay (e : EraseInDisplay)
  | Repeat (n : Nat)
deriving DecidableEq, Repr

/-- The cursor operations dispatched by `perform_csi_cursor`. -/
inductive Cursor
  | SetTopAndBottomMargins (top bottom : OneBased)
  | ForwardTabulation (n : Nat)
  | BackwardTabulation (n : Nat)
  | TabulationClear (n : Nat)
  | TabulationControl (n : Nat)
  | LineTabulation (n : Nat)
  | Left (n : Nat)
  | Right (n : Nat)
  | Up (n : Nat)
  | Down (n : Nat)
  | CharacterAndLinePosition (line col : OneBased)
  | Position (line col : OneBased)
  | CharacterAbsolute (col : OneBased)
  | CharacterPositionAbsolute (col : OneBased)
  | CharacterPositionBackward (col : Nat)
  | CharacterPositionForward (col : Nat)
  | LinePositionAbsolute (line : Nat)
  | LinePositionBackward (line : Nat)
  | LinePositionForward (line : Nat)
  | NextLine (n : Nat)
  | PrecedingLine (n : Nat)
  | ActivePositionReport (line col : OneBased)
  | RequestActivePositionReport
  | SaveCursor
  | RestoreCursor
  | CursorStyle (style : Nat)
deriving DecidableEq, Repr

/-- The window operations dispatched by `perform_csi_window` (only the
payloads the source reads are carried). -/
inductive Window
  | ReportTextAreaSizeCells
  | ChecksumRectangularArea (request_id : Int) (top left bottom right : OneBased)
  | Iconify
  | DeIconify
  | PopIconAndWindowTitle
  | PopWindowTitle
  | PopIconTitle
  | PushIconAndWindowTitle
  | PushIconTitle
  | PushWindowTitle
  | OtherWindowOp
deriving DecidableEq, Repr

/-- `TerminalState::perform_csi_sgr` (terminalstate.rs lines 1477-1514).
`Sgr::Reset` takes the pen's hyperlink, resets the pen to the default
attributes and puts the hyperlink back. -/
def TerminalState.perform_csi_sgr (st : TerminalState) (sgr : Sgr) : TerminalState :=
  match sgr with
  | .Reset =>
    let link := st.pen.hyperlink
    { st with pen := { CellAttributes.default with hyperlink := link } }
  | .Intensity i => { st with pen := { st.pen with intensity := i } }
  | .Underline u => { st with pen := { st.pen with underline := u } }
  | .Blink b => { st with pen := { st.pen with blink := b } }
  | .Italic b => { st with pen := { st.pen with italic := b } }
  | .Inverse b => { st with pen := { st.pen with reverse := b } }
  | .Invisible b => { st with pen := { st.pen with invisible := b } }
  | .StrikeThrough b => { st with pen := { st.pen with strikethrough := b } }
  | .Foreground c => { st with pen := { st.pen with foreground := c } }
  | .Background c => { st with pen := { st.pen with background := c } }
  | .Font _ => st

/-- The `Edit::EraseInLine` arm of `perform_csi_edit` (also invoked from
`erase_in_display` through the recursive `perform_csi_edit` call). -/
def TerminalState.erase_in_line_op (st : TerminalState) (erase : EraseInLine) : TerminalState :=
  let cx := st.cursor.x
  let cy := st.cursor.y
  let pen := st.pen.clone_sgr_only
  let cols := st.scr.physical_cols
  let range : Nat × Nat := match erase with
    | .EraseToEndOfLine => (cx, cols)
    | .EraseToStartOfLine => (0, cx)
    | .EraseLine => (0, cols)
  let st := st.mapScr (fun s => s.clear_line cy range.1 range.2 pen)
  (st.clear_selection_if_intersects range cy).1

/-- The break-on-first-true loop over
`clear_selection_if_intersects` used by `erase_in_display`. -/
def TerminalState.clearSelLoop (st : TerminalState) (cols : Nat × Nat) :
    List Int → TerminalState
  | [] => st
  | y :: rest =>
    let p := st.clear_selection_if_intersects cols y
    if p.2 then p.1 else p.1.clearSelLoop cols rest

/-- `TerminalState::erase_in_display` (terminalstate.rs lines 1247-1282). -/
def TerminalState.erase_in_display (st : TerminalState) (erase : EraseInDisplay) : TerminalState :=
  let cy := st.cursor.y
  let pen := st.pen.clone_sgr_only
  let rows := (st.scr.physical_rows : Int)
  let col_range : Nat × Nat := (0, usizeMax)
  match erase with
  | .EraseScrollback => st
  | _ =>
    let p : TerminalState × Int × Int := match erase with
      | .EraseToEndOfDisplay => (st.erase_in_line_op .EraseToEndOfLine, cy + 1, rows)
      | .EraseToStartOfDisplay => (st.erase_in_line_op .EraseToStartOfLine, 0, cy)
      | _ => (st, 0, rows)
    let st := p.1
    let row_range := intRange p.2.1 p.2.2
    let st := st.mapScr (fun s =>
      row_range.foldl (fun s y => s.clear_line y col_range.1 col_range.2 pen) s)
    st.clearSelLoop col_range row_range

/-- `TerminalState::perform_csi_edit` (terminalstate.rs lines 1284-1375). -/
def TerminalState.perform_csi_edit (st : TerminalState) (edit : Edit) : TerminalState :=
  match edit with
  | .DeleteCharacter n =>
    let y := st.cursor.y
    let x := st.cursor.x
    let limit := min (x + n) st.scr.physical_cols
    let st := st.mapScr (fun s =>
      (List.range (limit - x)).foldl (fun s _ => s.erase_cell x y) s)
    (st.clear_selection_if_intersects (x, limit) y).1
  | .DeleteLine n =>
    if st.scroll_region.1 ≤ st.cursor.y ∧ st.cursor.y < st.scroll_region.2 then
      let region : Int × Int := (st.cursor.y, st.scroll_region.2)
      let st := st.mapScr (fun s => s.scroll_up region.1 region.2 n)
      (st.clear_selection_if_intersects_rows region).1
    else st
  | .EraseCharacter n =>
    let y := st.cursor.y
    let x := st.cursor.x
    let limit := min (x + n) st.scr.physical_cols
    let blank := Cell.new ' ' st.pen.clone_sgr_only
    let st := st.mapScr (fun s =>
      ((List.range (limit - x)).map (fun i => x + i)).foldl
        (fun s xi => s.set_cell xi y blank) s)
    (st.clear_selection_if_intersects (x, limit) y).1
  | .EraseInLine erase => st.erase_in_line_op erase
  | .InsertCharacter n =>
    let y := st.cursor.y
    let x := st.cursor.x
    let limit := min (x + n) st.scr.physical_cols
    let st := st.mapScr (fun s =>
      ((List.range (limit - x)).map (fun i => x + i)).foldl
        (fun s xi => s.insert_cell xi y) s)
    (st.clear_selection_if_intersects (x, limit) y).1
  | .InsertLine n =>
    if st.scroll_region.1 ≤ st.cursor.y ∧ st.cursor.y < st.scroll_region.2 then
      let region : Int × Int := (st.cursor.y, st.scroll_region.2)
      let st := st.mapScr (fun s => s.scroll_down region.1 region.2 n)
      (st.clear_selection_if_intersects_rows region).1
    else st
  | .ScrollDown n => st.scroll_down n
  | .ScrollUp n => st.scroll_up n
  | .EraseInDisplay erase => st.erase_in_display erase
  | .Repeat n =>
    let y := st.cursor.y
    let x := st.cursor.x
    let to_copy := x - 1
    let idx := st.scr.phys_row y
    match (st.scr.lines.getD idx ⟨[], false⟩).cells[to_copy]? with
    | some cell =>
      let fill := fun (l : Line) =>
        (⟨idxMapFrom (fun i c => if x ≤ i ∧ i ≤ x + n then cell else c) 0 l.cells,
          l.dirty || decide (x < l.cells.length)⟩ : Line)
      let st := st.mapScr (fun s => { s with lines := listModify s.lines idx fill })
      st.set_cursor_pos (.Relative ((n : Int))) (.Relative 0)
    | none => st

/-- Decimal digits of a natural number. -/
def natChars (n : Nat) : List Char := (Nat.repr n).toList

/-- Decimal digits of an integer. -/
def intChars (n : Int) : List Char := (Int.repr n).toList

/-- `TerminalState::perform_csi_cursor` (terminalstate.rs lines
1377-1455).  Returns the new state together with the bytes written to
the host (only `RequestActivePositionReport` writes). -/
def TerminalState.perform_csi_cursor (st : TerminalState) (c : Cursor) :
    TerminalState × List Char :=
  match c with
  | .SetTopAndBottomMargins top bottom =>
    let rows := st.scr.physical_rows
    let t := max (min ((top.as_zero_based : Int)) ((rows : Int) - 1)) 0
    let b := max (min ((bottom.as_zero_based : Int)) ((rows : Int) - 1)) 0
    let p : Int × Int := if t > b then (b, t) else (t, b)
    ({ st with scroll_region := (p.1, p.2 + 1) }, [])
  | .ForwardTabulation n =>
    ((List.range n).foldl (fun s _ => s.c0_horizontal_tab) st, [])
  | .BackwardTabulation _ => (st, [])
  | .TabulationClear _ => (st, [])
  | .TabulationControl _ => (st, [])
  | .LineTabulation _ => (st, [])
  | .Left n => (st.set_cursor_pos (.Relative (-((n : Int)))) (.Relative 0), [])
  | .Right n => (st.set_cursor_pos (.Relative ((n : Int))) (.Relative 0), [])
  | .Up n => (st.set_cursor_pos (.Relative 0) (.Relative (-((n : Int)))), [])
  | .Down n => (st.set_cursor_pos (.Relative 0) (.Relative ((n : Int))), [])
  | .CharacterAndLinePosition line col | .Position line col =>
    (st.set_cursor_pos (.Absolute ((col.as_zero_based : Int)))
      (.Absolute ((line.as_zero_based : Int))), [])
  | .CharacterAbsolute col | .CharacterPositionAbsolute col =>
    (st.set_cursor_pos (.Absolute ((col.as_zero_based : Int))) (.Relative 0), [])
  | .CharacterPositionBackward col =>
    (st.set_cursor_pos (.Relative (-((col : Int)))) (.Relative 0), [])
  | .CharacterPositionForward col =>
    (st.set_cursor_pos (.Relative ((col : Int))) (.Relative 0), [])
  | .LinePositionAbsolute line =>
    (st.set_cursor_pos (.Relative 0) (.Absolute ((line : Int) - 1)), [])
  | .LinePositionBackward line =>
    (st.set_cursor_pos (.Relative 0) (.Relative (-((line : Int)))), [])
  | .LinePositionForward line =>
    (st.set_cursor_pos (.Relative 0) (.Relative ((line : Int))), [])
  | .NextLine n =>
    ((List.range n).foldl (fun s _ => s.new_line true) st, [])
  | .PrecedingLine n =>
    (st.set_cursor_pos (.Absolute 0) (.Relative (-((n : Int)))), [])
  | .ActivePositionReport _ _ => (st, [])
  | .RequestActivePositionReport =>
    let line := OneBased.from_zero_based (usizeCast st.cursor.y % 2 ^ 32)
    let col := OneBased.from_zero_based (st.cursor.x % 2 ^ 32)
    (st, ['\x1b', '['] ++ natChars line.value ++ [';'] ++ natChars col.value ++ ['R'])
  | .SaveCursor => (st.save_cursor, [])
  | .RestoreCursor => (st.restore_cursor, [])
  | .CursorStyle _ => (st, [])

/-! ## Checksum and window operations -/

/-- The inner column loop of `checksum_rectangle`: skip columns before
`left`, stop after `right`, add the first byte of each cell's text
(`u16` wrapping sum); an empty cell text models the `unwrap` panic. -/
def checksumCells (cells : List Cell) (left right : Nat) (acc : Nat) : Option Nat :=
  ((List.range cells.length).zip cells).foldl (fun macc p =>
    macc.bind (fun a =>
      if p.1 < left ∨ right < p.1 then some a
      else (p.2.text.head?).map (fun ch => (a + ch.toNat % 256) % 65536))) (some acc)

/-- `TerminalState::checksum_rectangle` (terminalstate.rs lines
1196-1215).  `none` models the panic on a row whose physical index is
out of range (the source indexes `lines` unchecked). -/
def TerminalState.checksum_rectangle (st : TerminalState)
    (left top right bottom : Nat) : Option Nat :=
  (List.range (bottom + 1 - top)).foldl (fun macc i =>
    macc.bind (fun a =>
      let y := top + i
      let idx := st.scr.phys_row ((y : Int))
      (st.scr.lines[idx]?).bind (fun line => checksumCells line.cells left right a)))
    (some 0)

/-- Lower-case hex digit. -/
def hexDigit (n : Nat) : Char :=
  if n < 10 then Char.ofNat (48 + n) else Char.ofNat (87 + n)

/-- Four-digit lower-case hex rendering (Rust format `{:04x}` of a u16). -/
def hex4 (n : Nat) : List Char :=
  [hexDigit (n / 4096 % 16), hexDigit (n / 256 % 16), hexDigit (n / 16 % 16), hexDigit (n % 16)]

/-- `TerminalState::perform_csi_window` (terminalstate.rs lines
1217-1245); returns the bytes written to the host, `none` when the
checksum computation panics. -/
def TerminalState.perform_csi_window (st : TerminalState) (window : Window) :
    Option (TerminalState × List Char) :=
  match window with
  | .ReportTextAreaSizeCells =>
    let height := st.scr.physical_rows
    let width := st.scr.physical_cols
    some (st, ['\x1b', '[', '8', ';'] ++ natChars height ++ [';'] ++ natChars width ++ ['t'])
  | .ChecksumRectangularArea request_id top left bottom right =>
    match st.checksum_rectangle left.as_zero_based top.as_zero_based
        right.as_zero_based bottom.as_zero_based with
    | some checksum =>
      some (st, ['\x1b', 'P'] ++ intChars request_id ++ ['!', '~'] ++ hex4 checksum
        ++ ['\x1b', '\\'])
    | none => none
  | _ => some (st, [])

/-! ## Printing -/

/-- Modelled from the spec: a combining mark contributes zero columns and
attaches to the preceding cluster. -/
def isCombining (c : Char) : Bool :=
  decide (0x300 ≤ c.toNat ∧ c.toNat ≤ 0x36F)

/-- Modelled from the spec: east-asian wide characters occupy two
columns (a representative set of wide ranges). -/
def isWideChar (c : Char) : Bool :=
  let n := c.toNat
  decide ((0x1100 ≤ n ∧ n ≤ 0x115F) ∨ (0x2E80 ≤ n ∧ n ≤ 0x303E) ∨
    (0x3041 ≤ n ∧ n ≤ 0x33FF) ∨ (0x3400 ≤ n ∧ n ≤ 0x4DBF) ∨
    (0x4E00 ≤ n ∧ n ≤ 0x9FFF) ∨ (0xA000 ≤ n ∧ n ≤ 0xA4CF) ∨
    (0xAC00 ≤ n ∧ n ≤ 0xD7A3) ∨ (0xF900 ≤ n ∧ n ≤ 0xFAFF) ∨
    (0xFE30 ≤ n ∧ n ≤ 0xFE4F) ∨ (0xFF00 ≤ n ∧ n ≤ 0xFF60) ∨
    (0xFFE0 ≤ n ∧ n ≤ 0xFFE6) ∨ (0x20000 ≤ n ∧ n ≤ 0x2FFFD))

/-- Modelled from the spec: the column width of one character. -/
def charColumnWidth (c : Char) : Nat :=
  if isCombining c then 0 else if isWideChar c then 2 else 1

/-- Modelled from the spec: the display width of a grapheme cluster
(`unicode_column_width`). -/
def unicode_column_width (g : List Char) : Nat :=
  (g.map charColumnWidth).sum

/-- Modelled from the spec: grapheme segmentation; combining marks join
the preceding cluster, every other character starts a new cluster. -/
def graphemesAux (cur : List Char) : List Char → List (List Char)
  | [] => [cur]
  | c :: rest =>
    if isCombining c then graphemesAux (cur ++ [c]) rest
    else cur :: graphemesAux [c] rest

/-- Modelled from the spec: split text into grapheme clusters. -/
def graphemes : List Char → List (List Char)
  | [] => []
  | c :: rest => graphemesAux [c] rest

/-- The DEC line-drawing remap table in `Performer::flush_print`. -/
def decLineDrawRemap (g : List Char) : List Char :=
  if g = ['j'] then ['┘']
  else if g = ['k'] then ['┐']
  else if g = ['l'] then ['┌']
  else if g = ['m'] then ['└']
  else if g = ['n'] then ['┼']
  else if g = ['q'] then ['─']
  else if g = ['t'] then ['├']
  else if g = ['u'] then ['┤']
  else if g = ['v'] then ['┴']
  else if g = ['w'] then ['┬']
  else if g = ['x'] then ['│']
  else g

/-- The body of the per-grapheme loop in `Performer::flush_print`
(terminalstate.rs lines 1548-1617); returns the updated state and
`x_offset`. -/
def TerminalState.print_one (st : TerminalState) (x_offset : Nat) (g : List Char) :
    TerminalState × Nat :=
  let g := if st.dec_line_drawing_mode then decLineDrawRemap g else g
  let st := if ¬st.insert = true ∧ st.wrap_next = true then st.new_line true else st
  let x := st.cursor.x
  let y := st.cursor.y
  let width := st.scr.physical_cols
  let pen := st.pen
  let print_width := max (unicode_column_width g) 1
  let pen :=
    if ¬st.insert = true ∧ width ≤ x + print_width then { pen with wrapped := true } else pen
  let cell := Cell.new_grapheme g pen
  let st :=
    if st.insert then
      st.mapScr (fun s =>
        (List.range print_width).foldl (fun s _ => s.insert_cell (x + x_offset) y) s)
    else st
  let st := st.mapScr (fun s => s.set_cell (x + x_offset) y cell)
  let st := (st.clear_selection_if_intersects (x, x + print_width) y).1
  if st.insert then (st, x_offset + print_width)
  else if x + print_width < width then
    ({ st with cursor := { st.cursor with x := st.cursor.x + print_width }, wrap_next := false },
      x_offset)
  else
    ({ st with wrap_next := true }, x_offset)

/-- `Performer::flush_print`: segment the batched text into grapheme
clusters and print them one by one. -/
def TerminalState.flush_print (st : TerminalState) (s : List Char) : TerminalState :=
  ((graphemes s).foldl (fun (p : TerminalState × Nat) g => p.1.print_one p.2 g) (st, 0)).1

/-! ## Control codes and escape codes -/

/-- Modelled from the spec: the C0 control codes recognized by the
decoder (`ControlCode` with `num::FromPrimitive`). -/
inductive ControlCode
  | Null | StartOfHeading | StartOfText | EndOfText | EndOfTransmission
  | Enquiry | Acknowledge | Bell | Backspace | HorizontalTab | LineFeed
  | VerticalTab | FormFeed | CarriageReturn | ShiftOut | ShiftIn
  | DataLinkEscape | DeviceControlOne | DeviceControlTwo | DeviceControlThree
  | DeviceControlFour | NegativeAcknowledge | SynchronousIdle
  | EndOfTransmissionBlock | Cancel | EndOfMedium | Substitute | Escape
  | FileSeparator | GroupSeparator | RecordSeparator | UnitSeparator
deriving DecidableEq, Repr

/-- Modelled from the spec: `num::FromPrimitive::from_u8` for
`ControlCode`; bytes without a variant decode to `none` and the action
is dropped. -/
def ControlCode.fromU8 (b : Nat) : Option ControlCode :=
  match b with
  | 0x00 => some .Null
  | 0x01 => some .StartOfHeading
  | 0x02 => some .StartOfText
  | 0x03 => some .EndOfText
  | 0x04 => some .EndOfTransmission
  | 0x05 => some .Enquiry
  | 0x06 => some .Acknowledge
  | 0x07 => some .Bell
  | 0x08 => some .Backspace
  | 0x09 => some .HorizontalTab
  | 0x0A => some .LineFeed
  | 0x0B => some .VerticalTab
  | 0x0C => some .FormFeed
  | 0x0D => some .CarriageReturn
  | 0x0E => some .ShiftOut
  | 0x0F => some .ShiftIn
  | 0x10 => some .DataLinkEscape
  | 0x11 => some .DeviceControlOne
  | 0x12 => some .DeviceControlTwo
  | 0x13 => some .DeviceControlThree
  | 0x14 => some .DeviceControlFour
  | 0x15 => some .NegativeAcknowledge
  | 0x16 => some .SynchronousIdle
  | 0x17 => some .EndOfTransmissionBlock
  | 0x18 => some .Cancel
  | 0x19 => some .EndOfMedium
  | 0x1A => some .Substitute
  | 0x1B => some .Escape
  | 0x1C => some .FileSeparator
  | 0x1D => some .GroupSeparator
  | 0x1E => some .RecordSeparator
  | 0x1F => some .UnitSeparator
  | _ => none

/-- `Performer::control` (terminalstate.rs lines 1635-1651): LF,
VT and FF feed a new line without returning to column 0; CR returns to
column 0; BS steps left; HT advances to the next tab stop; everything
else (including BEL) leaves the state unchanged. -/
def TerminalState.applyControlCode (st : TerminalState) (c : ControlCode) : TerminalState :=
  match c with
  | .LineFeed | .VerticalTab | .FormFeed => st.new_line false
  | .CarriageReturn => st.set_cursor_pos (.Absolute 0) (.Relative 0)
  | .Backspace => st.set_cursor_pos (.Relative (-1)) (.Relative 0)
  | .HorizontalTab => st.c0_horizontal_tab
  | _ => st

/-- The escape codes handled by `Performer::esc_dispatch` (the decoding
itself lives in missing `Esc::parse`; the variants are those the
dispatch matches on). -/
inductive EscCode
  | StringTerminator
  | DecApplicationKeyPad
  | DecNormalKeyPad
  | ReverseIndex
  | Index
  | NextLine
  | HorizontalTabSet
  | DecLineDrawing
  | AsciiCharacterSet
  | DecSaveCursorPosition
  | DecRestoreCursorPosition
  | Unspecified (intermediate : Option Nat) (control : Nat)
deriving DecidableEq, Repr

/-- `Performer::esc_dispatch` (terminalstate.rs lines 1669-1695). -/
def TerminalState.applyEscCode (st : TerminalState) (esc : EscCode) : TerminalState :=
  match esc with
  | .StringTerminator => st
  | .DecApplicationKeyPad => { st with application_keypad := true }
  | .DecNormalKeyPad => { st with application_keypad := false }
  | .ReverseIndex => st.c1_reverse_index
  | .Index => st.c1_index
  | .NextLine => st.c1_nel
  | .HorizontalTabSet => st.c1_hts
  | .DecLineDrawing => { st with dec_line_drawing_mode := true }
  | .AsciiCharacterSet => { st with dec_line_drawing_mode := false }
  | .DecSaveCursorPosition => st.save_cursor
  | .DecRestoreCursorPosition => st.restore_cursor
  | .Unspecified _ _ => st

/-! ## Keyboard input -/

/-- Modelled from the spec: the logical key codes (`input::KeyCode`);
the variant set is the one `key_down` matches on. -/
inductive KeyCode
  | Char (c : Char)
  | Backspace | Tab | Enter | Escape | Delete | Insert
  | UpArrow | DownArrow | RightArrow | LeftArrow
  | ApplicationUpArrow | ApplicationDownArrow
  | ApplicationRightArrow | ApplicationLeftArrow
  | Home | End | PageUp | PageDown
  | Function (n : Nat)
  | Numpad0 | Numpad1 | Numpad2 | Numpad3 | Numpad4
  | Numpad5 | Numpad6 | Numpad7 | Numpad8 | Numpad9
  | Multiply | Add | Separator | Subtract | Decimal | Divide
  | Control | LeftControl | RightControl
  | Alt | LeftAlt | RightAlt
  | Menu | LeftMenu | RightMenu
  | Super | Hyper | Shift | LeftShift | RightShift | Meta
  | LeftWindows | RightWindows | NumLock | ScrollLock
  | Cancel | Clear | Pause | CapsLock | Select | Print | PrintScreen
  | Execute | Help | Applications | Sleep
  | BrowserBack | BrowserForward | BrowserRefresh | BrowserStop
  | BrowserSearch | BrowserFavorites | BrowserHome
  | VolumeMute | VolumeDown | VolumeUp
  | MediaNextTrack | MediaPrevTrack | MediaStop | MediaPlayPause
  | InternalPasteStart | InternalPasteEnd
deriving Repr

/-- Modelled from the spec: the key modifier flags `key_down` reads. -/
structure KeyModifiers where
  shift : Bool
  alt : Bool
  ctrl : Bool
deriving DecidableEq, Repr

/-- No modifiers held. -/
def KeyModifiers.NONE : KeyModifiers := ⟨false, false, false⟩

/-- Rust `char::is_ascii_alphanumeric`. -/
def isAsciiAlphanumeric (c : Char) : Bool :=
  let n := c.toNat
  decide ((48 ≤ n ∧ n ≤ 57) ∨ (65 ≤ n ∧ n ≤ 90) ∨ (97 ≤ n ∧ n ≤ 122))

/-- Rust `char::is_ascii_punctuation`. -/
def isAsciiPunctuation (c : Char) : Bool :=
  let n := c.toNat
  decide ((33 ≤ n ∧ n ≤ 47) ∨ (58 ≤ n ∧ n ≤ 64) ∨ (91 ≤ n ∧ n ≤ 96) ∨ (123 ≤ n ∧ n ≤ 126))

/-- The tail of `key_down`: write `to_send` and reset the scrollback
viewport after a non-empty transmission (terminalstate.rs lines
846-852). -/
def TerminalState.key_down_send (st : TerminalState)
    (res : Option (TerminalState × List Char)) : Option (TerminalState × List Char) :=
  match res with
  | none => none
  | some p =>
    let st1 := p.1
    let to_send := p.2
    let st2 :=
      if to_send ≠ [] ∧ st1.viewport_offset ≠ 0 then st1.set_scroll_viewport 0 else st1
    some (st2, to_send)

/-- `TerminalState::key_down` (terminalstate.rs lines 655-853): encode
the key into the byte string sent to the child process (returned here
instead of written to the host), scroll the viewport on shifted
page-up/page-down, and reset the viewport after any non-empty
transmission.  `none` models the `bail!`/`unreachable!` paths of the
function-key encoder. -/
def TerminalState.key_down (st : TerminalState) (key : KeyCode) (mods : KeyModifiers) :
    Option (TerminalState × List Char) :=
  let ctrl := mods.ctrl
  let shift := mods.shift
  let alt := mods.alt
  let app := st.application_cursor_keys
  let res : Option (TerminalState × List Char) :=
    match key with
    | .Char c =>
      if alt = true ∧ (isAsciiAlphanumeric c = true ∨ isAsciiPunctuation c = true) then
        some (st, ['\x1b', c])
      else if c = '\x7f' then some (st, ['\x7f'])
      else if ctrl = true ∧ shift = true ∧ c.toNat ≤ 0xff ∧ 0x40 < c.toNat then
        some (st, [Char.ofNat (c.toNat - 0x40)])
      else if ctrl = true ∧ c.toNat ≤ 0xff ∧ 0x60 < c.toNat then
        some (st, [Char.ofNat (c.toNat - 0x60)])
      else some (st, [c])
    | .Backspace =>
      if alt then some (st, ['\x1b', '\x08']) else some (st, ['\x08'])
    | .UpArrow =>
      if alt then some (st, ['\x1b', '\x1b', '[', 'A'])
      else if app then some (st, ['\x1b', 'O', 'A'])
      else some (st, ['\x1b', '[', 'A'])
    | .DownArrow =>
      if alt then some (st, ['\x1b', '\x1b', '[', 'B'])
      else if app then some (st, ['\x1b', 'O', 'B'])
      else some (st, ['\x1b', '[', 'B'])
    | .RightArrow =>
      if alt then some (st, ['\x1b', '\x1b', '[', 'C'])
      else if app then some (st, ['\x1b', 'O', 'C'])
      else some (st, ['\x1b', '[', 'C'])
    | .LeftArrow =>
      if alt then some (st, ['\x1b', '\x1b', '[', 'D'])
      else if app then some (st, ['\x1b', 'O', 'D'])
      else some (st, ['\x1b', '[', 'D'])
    | .Tab => some (st, ['\t'])
    | .Enter => some (st, ['\r'])
    | .Escape => some (st, ['\x1b'])
    | .Delete => some (st, ['\x7f'])
    | .Home =>
      if app then some (st, ['\x1b', 'O', 'H']) else some (st, ['\x1b', '[', 'H'])
    | .End =>
      if app then some (st, ['\x1b', 'O', 'F']) else some (st, ['\x1b', '[', 'F'])
    | .ApplicationUpArrow => some (st, ['\x1b', 'O', 'A'])
    | .ApplicationDownArrow => some (st, ['\x1b', 'O', 'B'])
    | .ApplicationRightArrow => some (st, ['\x1b', 'O', 'C'])
    | .ApplicationLeftArrow => some (st, ['\x1b', 'O', 'D'])
    | .PageUp =>
      if shift then
        let rows := (st.scr.physical_rows : Int)
        some (st.scroll_viewport (-rows), [])
      else some (st, ['\x1b', '[', '5', '~'])
    | .PageDown =>
      if shift then
        let rows := (st.scr.physical_rows : Int)
        some (st.scroll_viewport rows, [])
      else some (st, ['\x1b', '[', '6', '~'])
    | .Insert => some (st, ['\x1b', '[', '2', '~'])
    | .Function n =>
      let modifier : List Char :=
        if ctrl = true ∧ alt = true ∧ shift = true then [';', '8']
        else if ctrl = true ∧ alt = true then [';', '7']
        else if ctrl = true ∧ shift = true then [';', '6']
        else if ctrl = true then [';', '5']
        else if alt = true ∧ shift = true then [';', '4']
        else if alt = true then [';', '3']
        else if shift = true then [';', '2']
        else []
      if modifier = [] ∧ n < 5 then
        match n with
        | 1 => some (st, ['\x1b', 'O', 'P'])
        | 2 => some (st, ['\x1b', 'O', 'Q'])
        | 3 => some (st, ['\x1b', 'O', 'R'])
        | 4 => some (st, ['\x1b', 'O', 'S'])
        | _ => none
      else
        let intro : Option (List Char) := match n with
          | 1 => some ['\x1b', '[', '1', '1']
          | 2 => some ['\x1b', '[', '1', '2']
          | 3 => some ['\x1b', '[', '1', '3']
          | 4 => some ['\x1b', '[', '1', '4']
          | 5 => some ['\x1b', '[', '1', '5']
          | 6 => some ['\x1b', '[', '1', '7']
          | 7 => some ['\x1b', '[', '1', '8']
          | 8 => some ['\x1b', '[', '1', '9']
          | 9 => some ['\x1b', '[', '2', '0']
          | 10 => some ['\x1b', '[', '2', '1']
          | 11 => some ['\x1b', '[', '2', '3']
          | 12 => some ['\x1b', '[', '2', '4']
          | _ => none
        match intro with
        | some i => some (st, i ++ modifier ++ ['~'])
        | none => none
    | _ => some (st, [])
  st.key_down_send res

/-! ## The escape-sequence parser

The `vtparse` lexer itself is not part of this repository, so the state
machine is modelled from the spec (section 4.1); the `Parser` glue and
the per-hook `Performer` of `parser/mod.rs`, the `Terminal` wrapper and
the print-batching `Performer` of `terminalstate.rs` are embedded from
the source. -/

/-- Modelled from the spec: the lexer's major mode. -/
inductive VTMode
  | Ground
  | Escape
  | Csi
  | Osc
  | DcsEntry
  | DcsPass
deriving DecidableEq, Repr

/-- Modelled from the spec: the incremental lexer state — the current
mode, a partial UTF-8 sequence, and the parameter, intermediate and
string buffers of the control sequence being assembled, all persisting
across `parse` calls. -/
structure VTParser where
  mode : VTMode
  utf8_rem : Nat
  utf8_acc : Nat
  params : List Int
  cur : Option Int
  intermediates : List Nat
  ignored : Bool
  osc : List (List Nat)
  oscCur : List Nat
deriving DecidableEq, Repr

/-- `VTParser::new`: ground state, empty buffers. -/
def VTParser.new : VTParser := ⟨.Ground, 0, 0, [], none, [], false, [], []⟩

/-- Modelled from the spec: the fixed set of callback hooks the lexer
invokes (print codepoint, C0 control, CSI/ESC dispatch, OSC dispatch
with raw byte-string segments, DCS enter/data/exit). -/
inductive VTEvent
  | Print (c : Char)
  | ExecuteC0 (b : Nat)
  | CsiDispatch (params : List Int) (intermediates : List Nat) (ignored : Bool) (control : Nat)
  | EscDispatch (intermediates : List Nat) (control : Nat)
  | OscDispatch (segments : List (List Nat))
  | DcsHook (params : List Int) (intermediates : List Nat) (ignored : Bool)
  | DcsPut (b : Nat)
  | DcsUnhook
deriving DecidableEq, Repr

/-- Modelled from the spec: collect an intermediate byte into the
bounded buffer; overflow sets the ignored-extra-intermediates flag. -/
def VTParser.pushIntermediate (m : VTParser) (b : Nat) : VTParser :=
  if m.intermediates.length < 2 then { m with intermediates := m.intermediates ++ [b] }
  else { m with ignored := true }

/-- Modelled from the spec: finalize the parameter list of a CSI or DCS
sequence (an untouched sequence has no parameters). -/
def VTParser.finParams (m : VTParser) : List Int :=
  match m.cur, m.params with
  | none, [] => []
  | c, ps => ps ++ [c.getD 0]

/-- Modelled from the spec: one byte in Ground mode: ESC enters escape
mode, C0 bytes execute, printable ASCII prints, UTF-8 lead bytes open a
multi-byte sequence, and anything else is dropped. -/
def VTParser.groundByte (m : VTParser) (b : Nat) : VTParser × List VTEvent :=
  if b = 0x1B then ({ m with mode := .Escape, intermediates := [], ignored := false }, [])
  else if b < 0x20 then (m, [.ExecuteC0 b])
  else if b < 0x7F then (m, [.Print (Char.ofNat b)])
  else if b = 0x7F then (m, [])
  else if 0xC2 ≤ b ∧ b ≤ 0xDF then ({ m with utf8_rem := 1, utf8_acc := b % 0x20 }, [])
  else if 0xE0 ≤ b ∧ b ≤ 0xEF then ({ m with utf8_rem := 2, utf8_acc := b % 0x10 }, [])
  else if 0xF0 ≤ b ∧ b ≤ 0xF4 then ({ m with utf8_rem := 3, utf8_acc := b % 0x08 }, [])
  else (m, [])

/-- Modelled from the spec: consume one byte.  A pending UTF-8 sequence
is continued (malformed sequences are dropped and the byte reprocessed);
otherwise the byte is handled according to the current mode, with escape
sequences aborted and restarted on a stray ESC. -/
def VTParser.parse_byte (m : VTParser) (b : Nat) : VTParser × List VTEvent :=
  if m.mode = .Ground ∧ 0 < m.utf8_rem then
    if 0x80 ≤ b ∧ b ≤ 0xBF then
      let acc := m.utf8_acc * 64 + b % 64
      if m.utf8_rem = 1 then
        ({ m with utf8_rem := 0, utf8_acc := 0 },
          if acc.isValidChar then [.Print (Char.ofNat acc)] else [])
      else ({ m with utf8_rem := m.utf8_rem - 1, utf8_acc := acc }, [])
    else ({ m with utf8_rem := 0, utf8_acc := 0 }).groundByte b
  else
    match m.mode with
    | .Ground => m.groundByte b
    | .Escape =>
      if b = 0x5B then
        ({ m with
            mode := .Csi
            params := []
            cur := none
            intermediates := []
            ignored := false }, [])
      else if b = 0x5D then ({ m with mode := .Osc, osc := [], oscCur := [] }, [])
      else if b = 0x50 then
        ({ m with
            mode := .DcsEntry
            params := []
            cur := none
            intermediates := []
            ignored := false }, [])
      else if b = 0x1B then ({ m with intermediates := [], ignored := false }, [])
      else if b < 0x20 then (m, [.ExecuteC0 b])
      else if b ≤ 0x2F then (m.pushIntermediate b, [])
      else if b ≤ 0x7E then ({ m with mode := .Ground }, [.EscDispatch m.intermediates b])
      else (m, [])
    | .Csi =>
      if 0x30 ≤ b ∧ b ≤ 0x39 then
        ({ m with cur := some ((m.cur.getD 0) * 10 + ((b : Int) - 0x30)) }, [])
      else if b = 0x3B then
        ({ m with params := m.params ++ [m.cur.getD 0], cur := none }, [])
      else if 0x3C ≤ b ∧ b ≤ 0x3F then (m.pushIntermediate b, [])
      else if 0x20 ≤ b ∧ b ≤ 0x2F then (m.pushIntermediate b, [])
      else if 0x40 ≤ b ∧ b ≤ 0x7E then
        ({ m with mode := .Ground }, [.CsiDispatch m.finParams m.intermediates m.ignored b])
      else if b = 0x1B then
        ({ m with mode := .Escape, intermediates := [], ignored := false }, [])
      else if b < 0x20 then (m, [.ExecuteC0 b])
      else (m, [])
    | .Osc =>
      if b = 0x07 then ({ m with mode := .Ground }, [.OscDispatch (m.osc ++ [m.oscCur])])
      else if b = 0x1B then
        ({ m with mode := .Escape, intermediates := [], ignored := false },
          [.OscDispatch (m.osc ++ [m.oscCur])])
      else if b = 0x3B then ({ m with osc := m.osc ++ [m.oscCur], oscCur := [] }, [])
      else ({ m with oscCur := m.oscCur ++ [b] }, [])
    | .DcsEntry =>
      if 0x30 ≤ b ∧ b ≤ 0x39 then
        ({ m with cur := some ((m.cur.getD 0) * 10 + ((b : Int) - 0x30)) }, [])
      else if b = 0x3B then
        ({ m with params := m.params ++ [m.cur.getD 0], cur := none }, [])
      else if 0x20 ≤ b ∧ b ≤ 0x2F then (m.pushIntermediate b, [])
      else if 0x40 ≤ b ∧ b ≤ 0x7E then
        ({ m with mode := .DcsPass }, [.DcsHook m.finParams m.intermediates m.ignored])
      else if b = 0x1B then
        ({ m with mode := .Escape, intermediates := [], ignored := false }, [])
      else (m, [])
    | .DcsPass =>
      if b = 0x1B then
        ({ m with mode := .Escape, intermediates := [], ignored := false }, [.DcsUnhook])
      else (m, [.DcsPut b])

/-- The structured CSI operations the state engine dispatches on
(`CSI::Sgr/Cursor/Edit/Window` plus the explicit unknown fallback; the
`Mode/Device/Mouse` families are outside the claims and fold into the
fallback here). -/
inductive CSIAct
  | Sgr (s : Sgr)
  | Cursor (c : Cursor)
  | Edit (e : Edit)
  | Window (w : Window)
  | Unspecified (params : List Int) (intermediates : List Nat) (control : Nat)
deriving DecidableEq, Repr

/-- Modelled from the spec: the first numeric parameter, defaulting
to 1. -/
def param1 (ps : List Int) : Nat := (ps.headD 1).toNat

/-- Modelled from the spec: decode one SGR numeric code; codes without a
specific decoding yield `none` and are reported as unspecified rather
than dropped. -/
def sgrFromCode (n : Int) : Option Sgr :=
  if n = 0 then some .Reset
  else if n = 1 then some (.Intensity .Bold)
  else if n = 2 then some (.Intensity .Half)
  else if n = 3 then some (.Italic true)
  else if n = 4 then some (.Underline .Single)
  else if n = 5 then some (.Blink .Slow)
  else if n = 7 then some (.Inverse true)
  else if n = 8 then some (.Invisible true)
  else if n = 9 then some (.StrikeThrough true)
  else if n = 21 then some (.Underline .Double)
  else if n = 22 then some (.Intensity .Normal)
  else if n = 23 then some (.Italic false)
  else if n = 24 then some (.Underline .NoUnderline)
  else if n = 25 then some (.Blink .NoBlink)
  else if n = 27 then some (.Inverse false)
  else if n = 28 then some (.Invisible false)
  else if n = 29 then some (.StrikeThrough false)
  else if n = 39 then some (.Foreground .Default)
  else if n = 49 then some (.Background .Default)
  else if 30 ≤ n ∧ n ≤ 37 then some (.Foreground (.PaletteIndex (n - 30).toNat))
  else if 40 ≤ n ∧ n ≤ 47 then some (.Background (.PaletteIndex (n - 40).toNat))
  else if 90 ≤ n ∧ n ≤ 97 then some (.Foreground (.PaletteIndex (n - 90 + 8).toNat))
  else if 100 ≤ n ∧ n ≤ 107 then some (.Background (.PaletteIndex (n - 100 + 8).toNat))
  else none

/-- Modelled from the spec: `CSI::parse` — an SGR parameter list expands
into one action per attribute (an empty list is a reset), the common
cursor and editing final bytes decode to their operations, and anything
unrecognized becomes an explicit `Unspecified` carrying the raw data. -/
def csi_parse (params : List Int) (intermediates : List Nat) (ignored : Bool)
    (control : Nat) : List CSIAct :=
  if intermediates = [] ∧ ignored = false then
    if control = 0x6D then
      if params = [] then [.Sgr .Reset]
      else params.map (fun p =>
        match sgrFromCode p with
        | some s => CSIAct.Sgr s
        | none => CSIAct.Unspecified [p] [] control)
    else if control = 0x41 then [.Cursor (.Up (param1 params))]
    else if control = 0x42 then [.Cursor (.Down (param1 params))]
    else if control = 0x43 then [.Cursor (.Right (param1 params))]
    else if control = 0x44 then [.Cursor (.Left (param1 params))]
    else if control = 0x47 then [.Cursor (.CharacterAbsolute ⟨param1 params⟩)]
    else if control = 0x48 then
      [.Cursor (.Position ⟨param1 params⟩ ⟨(params.getD 1 1).toNat⟩)]
    else if control = 0x64 then [.Cursor (.LinePositionAbsolute ((params.headD 1).toNat))]
    else if control = 0x45 then [.Cursor (.NextLine (param1 params))]
    else if control = 0x46 then [.Cursor (.PrecedingLine (param1 params))]
    else if control = 0x4A then
      [.Edit (.EraseInDisplay (
        if params.headD 0 = 1 then .EraseToStartOfDisplay
        else if params.headD 0 = 2 then .EraseDisplay
        else if params.headD 0 = 3 then .EraseScrollback
        else .EraseToEndOfDisplay))]
    else if control = 0x4B then
      [.Edit (.EraseInLine (
        if params.headD 0 = 1 then .EraseToStartOfLine
        else if params.headD 0 = 2 then .EraseLine
        else .EraseToEndOfLine))]
    else if control = 0x58 then [.Edit (.EraseCharacter (param1 params))]
    else if control = 0x50 then [.Edit (.DeleteCharacter (param1 params))]
    else if control = 0x40 then [.Edit (.InsertCharacter (param1 params))]
    else if control = 0x4C then [.Edit (.InsertLine (param1 params))]
    else if control = 0x4D then [.Edit (.DeleteLine (param1 params))]
    else if control = 0x53 then [.Edit (.ScrollUp (param1 params))]
    else if control = 0x54 then [.Edit (.ScrollDown (param1 params))]
    else if control = 0x72 then
      [.Cursor (.SetTopAndBottomMargins ⟨param1 params⟩ ⟨(params.getD 1 0).toNat⟩)]
    else [.Unspecified params intermediates control]
  else [.Unspecified params intermediates control]

/-- Modelled from the spec: `Esc::parse` — single optional intermediate
byte plus final byte mapped to a named escape, unknown combinations kept
as `Unspecified`. -/
def escParse (intermediate : Option Nat) (control : Nat) : EscCode :=
  match intermediate with
  | none =>
    if control = 0x44 then .Index
    else if control = 0x45 then .NextLine
    else if control = 0x48 then .HorizontalTabSet
    else if control = 0x4D then .ReverseIndex
    else if control = 0x3D then .DecApplicationKeyPad
    else if control = 0x3E then .DecNormalKeyPad
    else if control = 0x37 then .DecSaveCursorPosition
    else if control = 0x38 then .DecRestoreCursorPosition
    else if control = 0x5C then .StringTerminator
    else .Unspecified none control
  | some i =>
    if i = 0x28 ∧ control = 0x30 then .DecLineDrawing
    else if i = 0x28 ∧ control = 0x42 then .AsciiCharacterSet
    else .Unspecified (some i) control

/-- The decoded actions the parser emits (`Action`); the OSC payload is
carried as its raw byte-string segments. -/
inductive Action
  | Print (c : Char)
  | Control (c : ControlCode)
  | CSI (c : CSIAct)
  | Esc (e : EscCode)
  | OperatingSystemCommand (segments : List (List Nat))
  | DeviceControlEnter (params : List Int) (intermediates : List Nat) (ignored : Bool)
  | DeviceControlData (b : Nat)
  | DeviceControlExit
deriving DecidableEq, Repr

/-- The per-hook glue of `Performer` in parser/mod.rs (lines 99-166):
print and control passthrough (a byte with no `ControlCode` variant is
dropped), CSI and ESC decoding, OSC and DCS wrapping. -/
def performEvent : VTEvent → List Action
  | .Print c => [.Print c]
  | .ExecuteC0 b =>
    match ControlCode.fromU8 b with
    | some code => [.Control code]
    | none => []
  | .CsiDispatch params ints ignored control =>
    (csi_parse params ints ignored control).map Action.CSI
  | .EscDispatch ints control =>
    [.Esc (escParse (if ints.length = 1 then some (ints.getD 0 0) else none) control)]
  | .OscDispatch segs => [.OperatingSystemCommand segs]
  | .DcsHook params ints ignored => [.DeviceControlEnter params ints ignored]
  | .DcsPut b => [.DeviceControlData b]
  | .DcsUnhook => [.DeviceControlExit]

/-- `Parser` (parser/mod.rs lines 13-15): the persistent lexer state. -/
structure Parser where
  state_machine : VTParser
deriving DecidableEq, Repr

/-- `Parser::new`. -/
def Parser.new : Parser := ⟨VTParser.new⟩

/-- One byte of `Parser::parse`: feed the state machine and append the
actions the performer derives from its callbacks. -/
def parseStep (acc : Parser × List Action) (b : Nat) : Parser × List Action :=
  let r := VTParser.parse_byte acc.1.state_machine b
  (⟨r.1⟩, acc.2 ++ (r.2.map performEvent).flatten)

/-- `Parser::parse` (parser/mod.rs lines 28-31): feed every byte through
the state machine, collecting the emitted actions in order. -/
def Parser.parse (p : Parser) (bytes : List Nat) : Parser × List Action :=
  bytes.foldl parseStep (p, [])

/-- `Parser::parse_as_vec` (parser/mod.rs lines 72-76): `parse` with a
collecting callback. -/
def Parser.parse_as_vec (p : Parser) (bytes : List Nat) : Parser × List Action :=
  p.parse bytes

/-- The byte loop of `Parser::parse_first` (parser/mod.rs lines 37-70):
stop after the first byte whose parse produced an action, keeping only
the first action of that byte and the number of bytes consumed. -/
def parseFirstGo : VTParser → List Nat → VTParser × Option (Action × Nat)
  | m, [] => (m, none)
  | m, b :: rest =>
    let r := VTParser.parse_byte m b
    match (r.2.map performEvent).flatten with
    | [] =>
      let q := parseFirstGo r.1 rest
      (q.1, q.2.map (fun pr => (pr.1, pr.2 + 1)))
    | a :: _ => (r.1, some (a, 1))

/-- `Parser::parse_first`. -/
def Parser.parse_first (p : Parser) (bytes : List Nat) : Parser × Option (Action × Nat) :=
  (⟨(parseFirstGo p.state_machine bytes).1⟩, (parseFirstGo p.state_machine bytes).2)

/-- The byte loop of `Parser::parse_first_as_vec` (parser/mod.rs lines
79-92): stop after the first byte whose parse produced actions, keeping
all of that byte's actions. -/
def parseFirstVecGo : VTParser → List Nat → VTParser × Option (List Action × Nat)
  | m, [] => (m, none)
  | m, b :: rest =>
    let r := VTParser.parse_byte m b
    match (r.2.map performEvent).flatten with
    | [] =>
      let q := parseFirstVecGo r.1 rest
      (q.1, q.2.map (fun pr => (pr.1, pr.2 + 1)))
    | a :: more => (r.1, some (a :: more, 1))

/-- `Parser::parse_first_as_vec`. -/
def Parser.parse_first_as_vec (p : Parser) (bytes : List Nat) :
    Parser × Option (List Action × Nat) :=
  (⟨(parseFirstVecGo p.state_machine bytes).1⟩, (parseFirstVecGo p.state_machine bytes).2)

/-- One `Performer::perform` dispatch at the terminal level
(terminalstate.rs lines 1619-1629): prints are batched, any control,
CSI, ESC or OSC action first flushes the batch, and device-control
actions are logged without flushing.  The OSC commands act only on state
outside the modelled subset (title, palette, clipboard), so after the
flush the state is returned unchanged; `none` models the panic path of
the checksum window op. -/
def TerminalState.applyAction (st : TerminalState) (buf : Option (List Char)) (a : Action) :
    Option (TerminalState × Option (List Char)) :=
  let flushed := match buf with
    | some s => st.flush_print s
    | none => st
  match a with
  | .Print c => some (st, some ((buf.getD []) ++ [c]))
  | .Control code => some (flushed.applyControlCode code, none)
  | .CSI (.Sgr s) => some (flushed.perform_csi_sgr s, none)
  | .CSI (.Cursor c) => some ((flushed.perform_csi_cursor c).1, none)
  | .CSI (.Edit e) => some (flushed.perform_csi_edit e, none)
  | .CSI (.Window w) =>
    match flushed.perform_csi_window w with
    | some p => some (p.1, none)
    | none => none
  | .CSI (.Unspecified _ _ _) => some (flushed, none)
  | .Esc e => some (flushed.applyEscCode e, none)
  | .OperatingSystemCommand _ => some (flushed, none)
  | .DeviceControlEnter _ _ _ => some (st, buf)
  | .DeviceControlData _ => some (st, buf)
  | .DeviceControlExit => some (st, buf)

/-- `Terminal` (terminal.rs lines 48-53): the terminal model plus its
persistent escape-sequence parser. -/
structure Terminal where
  state : TerminalState
  parser : Parser

/-- `Terminal::new` (the pixel dimensions are not part of the modelled
state). -/
def Terminal.new (physical_rows physical_cols scrollback_size : Nat)
    (hyperlink_rules : List HyperlinkRule) : Terminal :=
  ⟨TerminalState.new physical_rows physical_cols scrollback_size hyperlink_rules, Parser.new⟩

/-- `Terminal::advance_bytes` (terminal.rs lines 92-98): parse the bytes
with the persistent parser and perform the resulting actions with a
fresh `Performer`, whose pending print batch is flushed when it is
dropped at the end of the call. -/
def Terminal.advance_bytes (t : Terminal) (bytes : List Nat) : Option Terminal :=
  let r := t.parser.parse bytes
  (r.2.foldlM (fun (acc : TerminalState × Option (List Char)) a =>
      acc.1.applyAction acc.2 a) (t.state, (none : Option (List Char)))).map
    (fun p =>
      { state := match p.2 with
          | some s => p.1.flush_print s
          | none => p.1
        parser := r.1 })

/-! ## Observations and well-formedness -/

/-- The cell contents of the screen, ignoring dirty flags. -/
def Screen.cellLines (s : Screen) : List (List Cell) := s.lines.map (fun l => l.cells)

/-- The visible row `y` is marked dirty. -/
def Screen.rowDirty (s : Screen) (y : Int) : Prop :=
  ∃ l, s.lines[s.phys_row y]? = some l ∧ l.dirty = true

/-- The cell stored at visible coordinates `(x, y)` of the active screen. -/
def TerminalState.cellAt (st : TerminalState) (x : Nat) (y : Int) : Cell :=
  (st.scr.lines.getD (st.scr.phys_row y) ⟨[], false⟩).cells.getD x Cell.blank

/-- Well-formedness of a terminal state: non-degenerate dimensions, the
screen invariant `lines.length ≥ physical_rows`, rectangular lines with
non-empty cell text, the cursor inside the physical screen and a scroll
region inside the screen. -/
def TerminalState.WF (st : TerminalState) : Prop :=
  1 ≤ st.scr.physical_rows ∧ 1 ≤ st.scr.physical_cols ∧
  st.scr.physical_rows < 2 ^ 64 ∧ st.scr.physical_cols < 2 ^ 64 ∧
  st.scr.physical_rows ≤ st.scr.lines.length ∧
  (∀ l ∈ st.scr.lines, l.cells.length = st.scr.physical_cols ∧ ∀ c ∈ l.cells, c.text ≠ []) ∧
  0 ≤ st.cursor.y ∧ st.cursor.y < (st.scr.physical_rows : Int) ∧
  st.cursor.x < st.scr.physical_cols ∧
  0 ≤ st.scroll_region.1 ∧ st.scroll_region.1 < st.scroll_region.2 ∧
  st.scroll_region.2 ≤ (st.scr.physical_rows : Int)

instance (st : TerminalState) : Decidable st.WF := by
  unfold TerminalState.WF
  infer_instance

/-! ## Basic simp lemmas about the embedding -/

@[simp] theorem ScreenOrAlt.active_mapActive (s : ScreenOrAlt) (f : Screen → Screen) :
    (s.mapActive f).active = f s.active := by
  unfold ScreenOrAlt.mapActive ScreenOrAlt.active
  by_cases h : s.alt_screen_is_active <;> simp [h]

@[simp] theorem ScreenOrAlt.alt_active_mapActive (s : ScreenOrAlt) (f : Screen → Screen) :
    (s.mapActive f).alt_screen_is_active = s.alt_screen_is_active := by
  unfold ScreenOrAlt.mapActive
  by_cases h : s.alt_screen_is_active <;> simp [h]

@[simp] theorem ScreenOrAlt.saved_cursor_of_mapActive (s : ScreenOrAlt) (f : Screen → Screen) :
    (s.mapActive f).saved_cursor_of = s.saved_cursor_of := by
  unfold ScreenOrAlt.mapActive ScreenOrAlt.saved_cursor_of
  by_cases h : s.alt_screen_is_active <;> simp [h]

@[simp] theorem TerminalState.scr_mapScr (st : TerminalState) (f : Screen → Screen) :
    (st.mapScr f).scr = f st.scr := by
  unfold TerminalState.mapScr TerminalState.scr
  simp

@[simp] theorem TerminalState.cursor_mapScr (st : TerminalState) (f : Screen → Screen) :
    (st.mapScr f).cursor = st.cursor := rfl

@[simp] theorem TerminalState.wrap_next_mapScr (st : TerminalState) (f : Screen → Screen) :
    (st.mapScr f).wrap_next = st.wrap_next := rfl

@[simp] theorem TerminalState.insert_mapScr (st : TerminalState) (f : Screen → Screen) :
    (st.mapScr f).insert = st.insert := rfl

@[simp] theorem TerminalState.scroll_region_mapScr (st : TerminalState) (f : Screen → Screen) :
    (st.mapScr f).scroll_region = st.scroll_region := rfl

@[simp] theorem TerminalState.viewport_offset_mapScr (st : TerminalState) (f : Screen → Screen) :
    (st.mapScr f).viewport_offset = st.viewport_offset := rfl

@[simp] theorem TerminalState.selection_range_mapScr (st : TerminalState) (f : Screen → Screen) :
    (st.mapScr f).selection_range = st.selection_range := rfl

@[simp] theorem TerminalState.pen_mapScr (st : TerminalState) (f : Screen → Screen) :
    (st.mapScr f).pen = st.pen := rfl

@[simp] theorem Screen.physical_rows_markDirtyRange (s : Screen) (a b : Nat) :
    (s.markDirtyRange a b).physical_rows = s.physical_rows := rfl

@[simp] theorem Screen.physical_cols_markDirtyRange (s : Screen) (a b : Nat) :
    (s.markDirtyRange a b).physical_cols = s.physical_cols := rfl

@[simp] theorem Screen.lines_length_markDirtyRange (s : Screen) (a b : Nat) :
    (s.markDirtyRange a b).lines.length = s.lines.length := by
  unfold Screen.markDirtyRange
  simp

@[simp] theorem Screen.physical_rows_dirty_line (s : Screen) (y : Int) :
    (s.dirty_line y).physical_rows = s.physical_rows := by
  unfold Screen.dirty_line
  split <;> rfl

@[simp] theorem Screen.physical_cols_dirty_line (s : Screen) (y : Int) :
    (s.dirty_line y).physical_cols = s.physical_cols := by
  unfold Screen.dirty_line
  split <;> rfl

@[simp] theorem Screen.lines_length_dirty_line (s : Screen) (y : Int) :
    (s.dirty_line y).lines.length = s.lines.length := by
  unfold Screen.dirty_line
  split <;> simp

@[simp] theorem Screen.physical_rows_set_cell (s : Screen) (x : Nat) (y : Int) (c : Cell) :
    (s.set_cell x y c).physical_rows = s.physical_rows := rfl

@[simp] theorem Screen.physical_cols_set_cell (s : Screen) (x : Nat) (y : Int) (c : Cell) :
    (s.set_cell x y c).physical_cols = s.physical_cols := rfl

@[simp] theorem Screen.lines_length_set_cell (s : Screen) (x : Nat) (y : Int) (c : Cell) :
    (s.set_cell x y c).lines.length = s.lines.length := by
  unfold Screen.set_cell
  simp

@[simp] theorem listModify_nil (i : Nat) (f : α → α) : listModify ([] : List α) i f = [] := rfl

theorem listModify_cons_zero (a : α) (as : List α) (f : α → α) :
    listModify (a :: as) 0 f = f a :: as := by
  unfold listModify
  simp

theorem listModify_cons_succ (a : α) (as : List α) (j : Nat) (f : α → α) :
    listModify (a :: as) (j + 1) f = a :: listModify as j f := by
  unfold listModify
  cases hx : as[j]? <;> simp [hx]

/-- Generic: mapping a projection over `listModify` when the update
preserves the projection. -/
theorem map_listModify (l : List α) (i : Nat) (f : α → α) (g : α → β)
    (h : ∀ a, g (f a) = g a) : (listModify l i f).map g = l.map g := by
  induction l generalizing i with
  | nil => rfl
  | cons a as ih =>
    cases i with
    | zero => simp [listModify_cons_zero, h]
    | succ j => simp [listModify_cons_succ, ih]

/-! ## Claim C4: SGR reset preserves the hyperlink -/

/-- C4: performing `Sgr::Reset` sets every field of the pen to its
default value except the hyperlink field, which is exactly the hyperlink
the pen held before the reset; in particular with no hyperlink set,
printing a red X then resetting leaves the pen foreground default and
the hyperlink still `None` (and the printed cell keeps the red
foreground). -/
theorem c4_sgr_reset_preserves_hyperlink :
    (∀ st : TerminalState,
      (st.perform_csi_sgr .Reset).pen =
        { CellAttributes.default with hyperlink := st.pen.hyperlink }) ∧
    (let stA := (TerminalState.new 2 5 10 []).perform_csi_sgr
        (.Foreground (.PaletteIndex 1))
     let stB := stA.flush_print ['X']
     let stC := stB.perform_csi_sgr .Reset
     stC.pen.foreground = ColorAttribute.Default ∧
     stC.pen.hyperlink = none ∧
     (stB.cellAt 0 0).attrs.foreground = ColorAttribute.PaletteIndex 1 ∧
     (stB.cellAt 0 0).text = ['X']) :=
  ⟨fun _ => rfl, by decide⟩

/-! ## Claim C10: restore-cursor with an empty saved slot -/

/-- C10: if restore-cursor runs on a screen whose saved-cursor slot was
never written, the cursor is restored to the default position `(0, 0)`
with the insert flag and the wrap-next flag both false. -/
theorem c10_restore_cursor_default (st : TerminalState)
    (hsaved : st.screen.saved_cursor_of = none)
    (hrows : 1 ≤ st.scr.physical_rows) (hcols : 1 ≤ st.scr.physical_cols) :
    (st.restore_cursor).cursor = ⟨0, 0⟩ ∧
    (st.restore_cursor).wrap_next = false ∧
    (st.restore_cursor).insert = false := by
  unfold TerminalState.restore_cursor
  rw [hsaved]
  refine ⟨?_, rfl, rfl⟩
  show (st.set_cursor_pos (.Absolute ((CursorPosition.default.x : Int)))
    (.Absolute CursorPosition.default.y)).cursor = ⟨0, 0⟩
  unfold TerminalState.set_cursor_pos
  simp only [TerminalState.cursor_mapScr]
  have hx : min (0 : Int) ((st.scr.physical_cols : Int) - 1) = 0 := by omega
  have hy : min (0 : Int) ((st.scr.physical_rows : Int) - 1) = 0 := by omega
  show (⟨usizeCast (min 0 ((st.scr.physical_cols : Int) - 1)),
      min 0 ((st.scr.physical_rows : Int) - 1)⟩ : CursorPosition) = ⟨0, 0⟩
  rw [hx, hy]
  rfl

/-- Witness for C10 at a concrete freshly created terminal. -/
theorem c10_restore_cursor_default_witness :
    (TerminalState.new 2 2 0 []).screen.saved_cursor_of = none ∧
    1 ≤ (TerminalState.new 2 2 0 []).scr.physical_rows ∧
    1 ≤ (TerminalState.new 2 2 0 []).scr.physical_cols ∧
    (((TerminalState.new 2 2 0 []).restore_cursor).cursor = ⟨0, 0⟩ ∧
     ((TerminalState.new 2 2 0 []).restore_cursor).wrap_next = false ∧
     ((TerminalState.new 2 2 0 []).restore_cursor).insert = false) :=
  ⟨rfl, by decide, by decide,
    c10_restore_cursor_default (TerminalState.new 2 2 0 []) rfl (by decide) (by decide)⟩

/-! ## Claim C3: checksum rectangle bounds -/

theorem checksumCells_isSome (cells : List Cell) (left right : Nat) (acc : Nat)
    (h : ∀ c ∈ cells, c.text ≠ []) :
    (checksumCells cells left right acc).isSome := by
  unfold checksumCells
  have key : ∀ (l : List (Nat × Cell)) (a : Nat), (∀ p ∈ l, p.2.text ≠ []) →
      (l.foldl (fun macc p =>
        macc.bind (fun a =>
          if p.1 < left ∨ right < p.1 then some a
          else (p.2.text.head?).map (fun ch => (a + ch.toNat % 256) % 65536)))
        (some a)).isSome := by
    intro l
    induction l with
    | nil => intro a _; rfl
    | cons p l ih =>
      intro a hmem
      rw [List.foldl_cons]
      have hp : p.2.text ≠ [] := hmem p (List.mem_cons_self p l)
      have hrest : ∀ q ∈ l, q.2.text ≠ [] := fun q hq => hmem q (List.mem_cons_of_mem p hq)
      by_cases hc : p.1 < left ∨ right < p.1
      · simp only [Option.some_bind, if_pos hc]
        exact ih a hrest
      · cases ht : p.2.text with
        | nil => exact absurd ht hp
        | cons ch rest =>
          simp only [Option.some_bind, if_neg hc, ht, List.head?_cons, Option.map_some]
          exact ih _ hrest
  refine key _ acc ?_
  intro p hp
  exact h p.2 (List.of_mem_zip hp).2

/-- C3 (amended): `checksum_rectangle` is total whenever the requested
rows fit inside the physical screen; the columns never need clamping
because the cell loop is bounded by the line length. -/
theorem c3_checksum_total_for_in_bounds_rows (st : TerminalState)
    (left top right bottom : Nat)
    (hlen : st.scr.physical_rows ≤ st.scr.lines.length)
    (hcells : ∀ l ∈ st.scr.lines, ∀ c ∈ l.cells, c.text ≠ [])
    (hb : bottom < st.scr.physical_rows) :
    (st.checksum_rectangle left top right bottom).isSome := by
  unfold TerminalState.checksum_rectangle
  have key : ∀ (l : List Nat) (a : Nat), (∀ i ∈ l, top + i < st.scr.physical_rows) →
      ((l.foldl (fun macc i =>
        macc.bind (fun a =>
          let y := top + i
          let idx := st.scr.phys_row ((y : Int))
          (st.scr.lines[idx]?).bind (fun line => checksumCells line.cells left right a)))
        (some a)).isSome) := by
    intro l
    induction l with
    | nil => intro a _; rfl
    | cons i l ih =>
      intro a hmem
      rw [List.foldl_cons]
      have hy : top + i < st.scr.physical_rows := hmem i (List.mem_cons_self i l)
      have hidx : st.scr.phys_row (((top + i : Nat) : Int)) < st.scr.lines.length := by
        unfold Screen.phys_row
        simp only [Int.toNat_natCast]
        omega
      have hline : st.scr.lines[st.scr.phys_row (((top + i : Nat) : Int))]? =
          some (st.scr.lines[st.scr.phys_row (((top + i : Nat) : Int))]) :=
        List.getElem?_eq_getElem hidx
      simp only [Option.some_bind, hline]
      have hmemline : st.scr.lines[st.scr.phys_row (((top + i : Nat) : Int))] ∈ st.scr.lines :=
        List.getElem?_mem hline
      have hcs := checksumCells_isSome
        (st.scr.lines[st.scr.phys_row (((top + i : Nat) : Int))]).cells left right a
        (hcells _ hmemline)
      cases hval : checksumCells
          (st.scr.lines[st.scr.phys_row (((top + i : Nat) : Int))]).cells left right a with
      | none => rw [hval] at hcs; exact absurd hcs (by simp)
      | some v => exact ih v (fun j hj => hmem j (List.mem_cons_of_mem i hj))
  refine key _ 0 ?_
  intro i hi
  rw [List.mem_range] at hi
  omega

/-- Witness for the amended C3 on a concrete terminal and rectangle. -/
theorem c3_checksum_total_for_in_bounds_rows_witness :
    (TerminalState.new 2 2 0 []).scr.physical_rows ≤
        (TerminalState.new 2 2 0 []).scr.lines.length ∧
    (∀ l ∈ (TerminalState.new 2 2 0 []).scr.lines, ∀ c ∈ l.cells, c.text ≠ []) ∧
    1 < (TerminalState.new 2 2 0 []).scr.physical_rows ∧
    ((TerminalState.new 2 2 0 []).checksum_rectangle 0 0 1 1).isSome :=
  ⟨by decide, by decide, by decide,
    c3_checksum_total_for_in_bounds_rows (TerminalState.new 2 2 0 []) 0 0 1 1
      (by decide) (by decide) (by decide)⟩

/-- C3 counterexample: the claim as stated is false — the source does
not clamp rows.  On a freshly created 2-row screen a checksum request
whose bottom row is 2 (zero-based, one past the last row) indexes
`lines` out of range (a panic in the source, `none` here) instead of
being clamped to a checksum response. -/
theorem c3_counterexample :
    (TerminalState.new 2 2 0 []).checksum_rectangle 0 0 1 2 = none := by decide

/-! ## Claim C8: key transmission vs the scrollback viewport -/

@[simp] theorem TerminalState.viewport_offset_hyperlink_for_cell
    (st : TerminalState) (x : Nat) (y : Int) :
    (st.hyperlink_for_cell x y).1.viewport_offset = st.viewport_offset := by
  unfold TerminalState.hyperlink_for_cell
  dsimp only
  split <;> simp

@[simp] theorem TerminalState.viewport_offset_invalidate_hyperlinks (st : TerminalState) :
    st.invalidate_hyperlinks.viewport_offset = st.viewport_offset := rfl

@[simp] theorem TerminalState.viewport_offset_recompute_highlight (st : TerminalState) :
    st.recompute_highlight.viewport_offset = st.viewport_offset := by
  unfold TerminalState.recompute_highlight
  simp only [TerminalState.viewport_offset_invalidate_hyperlinks]
  exact TerminalState.viewport_offset_hyperlink_for_cell ..

@[simp] theorem TerminalState.viewport_offset_dirty_selection_lines (st : TerminalState) :
    st.dirty_selection_lines.viewport_offset = st.viewport_offset := by
  unfold TerminalState.dirty_selection_lines
  split <;> rfl

@[simp] theorem TerminalState.viewport_offset_clear_selection (st : TerminalState) :
    st.clear_selection.viewport_offset = st.viewport_offset := by
  unfold TerminalState.clear_selection
  simp

/-- Resetting the viewport to position 0 always lands at offset 0. -/
theorem TerminalState.set_scroll_viewport_zero_offset (st : TerminalState) :
    (st.set_scroll_viewport 0).viewport_offset = 0 := by
  unfold TerminalState.set_scroll_viewport
  simp only [TerminalState.viewport_offset_recompute_highlight,
    TerminalState.viewport_offset_mapScr]
  show min (max 0 0) ((st.clear_selection.scr.lines.length -
    st.clear_selection.scr.physical_rows : Nat) : Int) = 0
  omega

theorem key_down_send_nonempty (st : TerminalState) (res : Option (TerminalState × List Char))
    (p : TerminalState × List Char) (h : st.key_down_send res = some p) (hne : p.2 ≠ []) :
    p.1.viewport_offset = 0 := by
  unfold TerminalState.key_down_send at h
  cases res with
  | none => exact Option.noConfusion h
  | some q =>
    simp only [Option.some.injEq] at h
    by_cases hv : q.1.viewport_offset = 0
    · have hq : p.1 = q.1 ∨ p.1 = q.1.set_scroll_viewport 0 := by
        rw [← h]
        split
        · exact Or.inr rfl
        · exact Or.inl rfl
      rcases hq with hq | hq
      · rw [hq]; exact hv
      · rw [hq]; exact TerminalState.set_scroll_viewport_zero_offset q.1
    · have hts : p.2 = q.2 := by rw [← h]
      have : p.1 = q.1.set_scroll_viewport 0 := by
        rw [← h]
        split
        · rfl
        · rename_i hcond
          exact absurd ⟨by rw [← hts]; exact hne, hv⟩ hcond
      rw [this]
      exact TerminalState.set_scroll_viewport_zero_offset q.1

theorem key_down_send_empty (st st1 : TerminalState) (ts : List Char)
    (p : TerminalState × List Char) (h : st.key_down_send (some (st1, ts)) = some p)
    (hemp : p.2 = []) : p.1 = st1 ∧ ts = [] := by
  unfold TerminalState.key_down_send at h
  simp only [Option.some.injEq] at h
  have hts : ts = p.2 := by rw [← h]
  have hts0 : ts = [] := hts.trans hemp
  refine ⟨?_, hts0⟩
  rw [← h]
  simp [hts0]

/-- C8 (amended): a key-down whose encoding is a non-empty byte string
leaves the viewport offset at 0; a key encoding to the empty byte string
leaves the whole state unchanged, except Shift+PageUp and
Shift+PageDown, which scroll the viewport by one screenful. -/
theorem c8_key_down_viewport (st : TerminalState) (key : KeyCode) (mods : KeyModifiers)
    (p : TerminalState × List Char) (h : st.key_down key mods = some p) :
    (p.2 ≠ [] → p.1.viewport_offset = 0) ∧
    (p.2 = [] → ¬(key = .PageUp ∧ mods.shift = true) →
      ¬(key = .PageDown ∧ mods.shift = true) → p.1 = st) := by
  constructor
  · intro hne
    exact key_down_send_nonempty st _ p h hne
  · intro hempty hpu hpd
    unfold TerminalState.key_down at h
    cases key
    all_goals dsimp only at h
    case PageUp =>
      split_ifs at h with hs
      · exact absurd ⟨rfl, hs⟩ hpu
      · exact absurd (key_down_send_empty st st _ p h hempty).2 (by simp)
    case PageDown =>
      split_ifs at h with hs
      · exact absurd ⟨rfl, hs⟩ hpd
      · exact absurd (key_down_send_empty st st _ p h hempty).2 (by simp)
    all_goals first
      | (split_ifs at h <;>
          (try split at h) <;>
          first
          | exact Option.noConfusion h
          | exact absurd (key_down_send_empty st st _ p h hempty).2 (by simp))
      | exact (key_down_send_empty st st [] p h hempty).1
      | exact absurd (key_down_send_empty st st _ p h hempty).2 (by simp)

/-- A one-row terminal that has produced one scrollback line. -/
def c8wit_state : TerminalState := (TerminalState.new 1 2 5 []).new_line false

/-- Witness for C8 at a concrete input: typing `a` yields a non-empty
encoding and the viewport offset ends at 0. -/
theorem c8_key_down_viewport_witness :
    c8wit_state.key_down (.Char 'a') ⟨false, false, false⟩ = some (c8wit_state, ['a']) ∧
    (['a'] ≠ [] ∧ (c8wit_state, ['a']).1.viewport_offset = 0) :=
  ⟨by decide, by simp,
    (c8_key_down_viewport c8wit_state (.Char 'a') ⟨false, false, false⟩
      (c8wit_state, ['a']) (by decide)).1 (by simp)⟩

/-- C8 counterexample: the claim as stated is false — Shift+PageUp
encodes to the empty byte string yet changes the viewport offset (from 0
to 1 on a one-row screen with one scrollback line). -/
theorem c8_counterexample :
    ((((TerminalState.new 1 2 5 []).new_line false).key_down .PageUp
        ⟨true, false, false⟩).map (fun p => (p.2, p.1.viewport_offset)) = some ([], 1)) ∧
    ((TerminalState.new 1 2 5 []).new_line false).viewport_offset = 0 := by decide

/-! ## Cell-content preservation lemmas -/

@[simp] theorem Screen.cellLines_markDirtyRange (s : Screen) (a b : Nat) :
    (s.markDirtyRange a b).cellLines = s.cellLines := by
  unfold Screen.markDirtyRange Screen.cellLines
  refine idxMapFrom_map _ _ _ _ ?_
  intro i l
  split <;> rfl

@[simp] theorem Screen.cellLines_dirty_line (s : Screen) (y : Int) :
    (s.dirty_line y).cellLines = s.cellLines := by
  unfold Screen.dirty_line Screen.cellLines
  split
  · exact map_listModify _ _ _ _ (fun _ => rfl)
  · rfl

@[simp] theorem Screen.scrollback_size_markDirtyRange (s : Screen) (a b : Nat) :
    (s.markDirtyRange a b).scrollback_size = s.scrollback_size := rfl

@[simp] theorem Screen.cellLines_length (s : Screen) :
    s.cellLines.length = s.lines.length := by
  unfold Screen.cellLines
  simp

@[simp] theorem TerminalState.scr_clear_selection_physical_rows (st : TerminalState) :
    st.clear_selection.scr.physical_rows = st.scr.physical_rows := by
  unfold TerminalState.clear_selection TerminalState.dirty_selection_lines
  split <;> simp [TerminalState.scr, TerminalState.mapScr]

@[simp] theorem TerminalState.scr_clear_selection_physical_cols (st : TerminalState) :
    st.clear_selection.scr.physical_cols = st.scr.physical_cols := by
  unfold TerminalState.clear_selection TerminalState.dirty_selection_lines
  split <;> simp [TerminalState.scr, TerminalState.mapScr]

@[simp] theorem TerminalState.scr_clear_selection_scrollback_size (st : TerminalState) :
    st.clear_selection.scr.scrollback_size = st.scr.scrollback_size := by
  unfold TerminalState.clear_selection TerminalState.dirty_selection_lines
  split <;> simp [TerminalState.scr, TerminalState.mapScr]

@[simp] theorem TerminalState.scr_clear_selection_cellLines (st : TerminalState) :
    st.clear_selection.scr.cellLines = st.scr.cellLines := by
  unfold TerminalState.clear_selection TerminalState.dirty_selection_lines
  split <;> simp [TerminalState.scr, TerminalState.mapScr]

@[simp] theorem TerminalState.cursor_clear_selection (st : TerminalState) :
    st.clear_selection.cursor = st.cursor := by
  unfold TerminalState.clear_selection TerminalState.dirty_selection_lines
  split <;> simp [TerminalState.scr, TerminalState.mapScr]

@[simp] theorem TerminalState.scroll_region_clear_selection (st : TerminalState) :
    st.clear_selection.scroll_region = st.scroll_region := by
  unfold TerminalState.clear_selection TerminalState.dirty_selection_lines
  split <;> simp [TerminalState.scr, TerminalState.mapScr]

@[simp] theorem TerminalState.wrap_next_clear_selection (st : TerminalState) :
    st.clear_selection.wrap_next = st.wrap_next := by
  unfold TerminalState.clear_selection TerminalState.dirty_selection_lines
  split <;> simp [TerminalState.scr, TerminalState.mapScr]

@[simp] theorem TerminalState.insert_clear_selection (st : TerminalState) :
    st.clear_selection.insert = st.insert := by
  unfold TerminalState.clear_selection TerminalState.dirty_selection_lines
  split <;> simp [TerminalState.scr, TerminalState.mapScr]

/-- The cell contents produced by `Screen::scroll_up`, as a pure
function of the old contents and the screen numbers. -/
def scrollUpCells (L : List (List Cell)) (rows cols sb : Nat) (t e : Int) (n : Nat) :
    List (List Cell) :=
  let pt := L.length - rows + t.toNat
  let pe := L.length - rows + e.toNat
  let regionLen := pe - pt
  let n := min n regionLen
  if t = 0 ∧ e = (rows : Int) ∧ 0 < sb then
    let grown := L ++ List.replicate n (List.replicate cols Cell.blank)
    grown.drop (grown.length - (rows + sb))
  else
    L.take pt ++ (((L.drop pt).take regionLen).drop n
      ++ List.replicate n (List.replicate cols Cell.blank)) ++ L.drop pe

/-- The cell contents produced by `Screen::scroll_down`. -/
def scrollDownCells (L : List (List Cell)) (rows cols : Nat) (t e : Int) (n : Nat) :
    List (List Cell) :=
  let pt := L.length - rows + t.toNat
  let pe := L.length - rows + e.toNat
  let regionLen := pe - pt
  let n := min n regionLen
  L.take pt ++ (List.replicate n (List.replicate cols Cell.blank)
    ++ ((L.drop pt).take regionLen).take (regionLen - n)) ++ L.drop pe

theorem Screen.cellLines_scroll_up (s : Screen) (t e : Int) (n : Nat) :
    (s.scroll_up t e n).cellLines =
      scrollUpCells s.cellLines s.physical_rows s.physical_cols s.scrollback_size t e n := by
  unfold Screen.scroll_up scrollUpCells
  dsimp only
  rw [Screen.cellLines_length]
  split
  · rw [Screen.cellLines_markDirtyRange]
    unfold Screen.cellLines Screen.phys_row Line.blankDirty
    simp [List.map_drop, List.map_replicate]
  · rw [Screen.cellLines_markDirtyRange]
    unfold Screen.cellLines Screen.phys_row Line.blankDirty
    simp [List.map_take, List.map_drop, List.map_replicate]

theorem Screen.cellLines_scroll_down (s : Screen) (t e : Int) (n : Nat) :
    (s.scroll_down t e n).cellLines =
      scrollDownCells s.cellLines s.physical_rows s.physical_cols t e n := by
  unfold Screen.scroll_down scrollDownCells
  dsimp only
  rw [Screen.cellLines_length, Screen.cellLines_markDirtyRange]
  unfold Screen.cellLines Screen.phys_row Line.blankDirty
  simp [List.map_take, List.map_drop, List.map_replicate]

@[simp] theorem Screen.physical_rows_scroll_up (s : Screen) (t e : Int) (n : Nat) :
    (s.scroll_up t e n).physical_rows = s.physical_rows := by
  unfold Screen.scroll_up
  split <;> rfl

@[simp] theorem Screen.physical_cols_scroll_up (s : Screen) (t e : Int) (n : Nat) :
    (s.scroll_up t e n).physical_cols = s.physical_cols := by
  unfold Screen.scroll_up
  split <;> rfl

@[simp] theorem Screen.scrollback_size_scroll_up (s : Screen) (t e : Int) (n : Nat) :
    (s.scroll_up t e n).scrollback_size = s.scrollback_size := by
  unfold Screen.scroll_up
  split <;> rfl

@[simp] theorem Screen.physical_rows_scroll_down (s : Screen) (t e : Int) (n : Nat) :
    (s.scroll_down t e n).physical_rows = s.physical_rows := rfl

@[simp] theorem Screen.physical_cols_scroll_down (s : Screen) (t e : Int) (n : Nat) :
    (s.scroll_down t e n).physical_cols = s.physical_cols := rfl

/-! ## Claim C7: LF / NEL / IND / RI -/

theorem TerminalState.cellLines_set_cursor_pos (st : TerminalState) (px py : Position) :
    (st.set_cursor_pos px py).scr.cellLines = st.scr.cellLines := by
  unfold TerminalState.set_cursor_pos
  simp [TerminalState.scr, TerminalState.mapScr]

theorem TerminalState.cursor_set_cursor_pos (st : TerminalState) (px py : Position) :
    (st.set_cursor_pos px py).cursor =
      ⟨usizeCast (min (match px with
          | .Relative dx => max ((st.cursor.x : Int) + dx) 0
          | .Absolute ax => ax) ((st.scr.physical_cols : Int) - 1)),
        min (match py with
          | .Relative dy => max (st.cursor.y + dy) 0
          | .Absolute ay => ay) ((st.scr.physical_rows : Int) - 1)⟩ := by
  unfold TerminalState.set_cursor_pos
  simp [TerminalState.scr, TerminalState.mapScr]

theorem TerminalState.scroll_up_cellLines (st : TerminalState) (n : Nat) :
    (st.scroll_up n).scr.cellLines =
      (st.scr.scroll_up st.scroll_region.1 st.scroll_region.2 n).cellLines := by
  unfold TerminalState.scroll_up
  dsimp only
  rw [TerminalState.scr_mapScr, Screen.cellLines_scroll_up, Screen.cellLines_scroll_up]
  simp

theorem TerminalState.scroll_down_cellLines (st : TerminalState) (n : Nat) :
    (st.scroll_down n).scr.cellLines =
      (st.scr.scroll_down st.scroll_region.1 st.scroll_region.2 n).cellLines := by
  unfold TerminalState.scroll_down
  dsimp only
  rw [TerminalState.scr_mapScr, Screen.cellLines_scroll_down, Screen.cellLines_scroll_down]
  simp

@[simp] theorem TerminalState.cursor_scroll_up (st : TerminalState) (n : Nat) :
    (st.scroll_up n).cursor = st.cursor := by
  unfold TerminalState.scroll_up
  dsimp only
  simp

@[simp] theorem TerminalState.cursor_scroll_down (st : TerminalState) (n : Nat) :
    (st.scroll_down n).cursor = st.cursor := by
  unfold TerminalState.scroll_down
  dsimp only
  simp

@[simp] theorem TerminalState.physical_rows_scroll_up_state (st : TerminalState) (n : Nat) :
    (st.scroll_up n).scr.physical_rows = st.scr.physical_rows := by
  unfold TerminalState.scroll_up
  dsimp only
  simp

@[simp] theorem TerminalState.physical_cols_scroll_up_state (st : TerminalState) (n : Nat) :
    (st.scroll_up n).scr.physical_cols = st.scr.physical_cols := by
  unfold TerminalState.scroll_up
  dsimp only
  simp

@[simp] theorem TerminalState.physical_rows_scroll_down_state (st : TerminalState) (n : Nat) :
    (st.scroll_down n).scr.physical_rows = st.scr.physical_rows := by
  unfold TerminalState.scroll_down
  dsimp only
  simp

@[simp] theorem TerminalState.physical_cols_scroll_down_state (st : TerminalState) (n : Nat) :
    (st.scroll_down n).scr.physical_cols = st.scr.physical_cols := by
  unfold TerminalState.scroll_down
  dsimp only
  simp

/-- Behaviour of `new_line` under well-formedness: scroll at the bottom
of the region keeping the row, move down (clamped) otherwise; the column
goes to 0 exactly when `move_to_first_column` is set. -/
theorem TerminalState.new_line_spec (st : TerminalState) (mv : Bool)
    (hx : st.cursor.x < st.scr.physical_cols) (hcb : st.scr.physical_cols < 2 ^ 64)
    (hy0 : 0 ≤ st.cursor.y) (hyr : st.cursor.y < (st.scr.physical_rows : Int)) :
    (st.cursor.y = st.scroll_region.2 - 1 →
      (st.new_line mv).cursor.y = st.cursor.y ∧
      (st.new_line mv).scr.cellLines =
        (st.scr.scroll_up st.scroll_region.1 st.scroll_region.2 1).cellLines) ∧
    (st.cursor.y ≠ st.scroll_region.2 - 1 →
      (st.new_line mv).cursor.y = min (st.cursor.y + 1) ((st.scr.physical_rows : Int) - 1) ∧
      (st.new_line mv).scr.cellLines = st.scr.cellLines) ∧
    (st.new_line mv).cursor.x = (if mv then 0 else st.cursor.x) := by
  unfold TerminalState.new_line
  dsimp only
  by_cases hy : st.cursor.y = st.scroll_region.2 - 1
  · rw [if_pos hy]
    refine ⟨fun _ => ⟨?_, ?_⟩, fun hne => absurd hy hne, ?_⟩
    · rw [TerminalState.cursor_set_cursor_pos]
      simp only [TerminalState.cursor_scroll_up, TerminalState.physical_rows_scroll_up_state]
      omega
    · rw [TerminalState.cellLines_set_cursor_pos, TerminalState.scroll_up_cellLines]
    · rw [TerminalState.cursor_set_cursor_pos]
      simp only [TerminalState.cursor_scroll_up, TerminalState.physical_cols_scroll_up_state]
      cases mv with
      | true =>
        show usizeCast (min 0 ((st.scr.physical_cols : Int) - 1)) = 0
        rw [show min 0 ((st.scr.physical_cols : Int) - 1) = 0 by omega]
        rfl
      | false =>
        show usizeCast (min ((st.cursor.x : Nat) : Int) ((st.scr.physical_cols : Int) - 1)) =
          st.cursor.x
        rw [show min ((st.cursor.x : Nat) : Int) ((st.scr.physical_cols : Int) - 1) =
          (st.cursor.x : Int) by omega]
        rw [usizeCast_of_nonneg (by omega) (by omega)]
        simp
  · rw [if_neg hy]
    refine ⟨fun h => absurd h hy, fun _ => ⟨?_, ?_⟩, ?_⟩
    · rw [TerminalState.cursor_set_cursor_pos]
    · rw [TerminalState.cellLines_set_cursor_pos]
    · rw [TerminalState.cursor_set_cursor_pos]
      cases mv with
      | true =>
        show usizeCast (min 0 ((st.scr.physical_cols : Int) - 1)) = 0
        rw [show min 0 ((st.scr.physical_cols : Int) - 1) = 0 by omega]
        rfl
      | false =>
        show usizeCast (min ((st.cursor.x : Nat) : Int) ((st.scr.physical_cols : Int) - 1)) =
          st.cursor.x
        rw [show min ((st.cursor.x : Nat) : Int) ((st.scr.physical_cols : Int) - 1) =
          (st.cursor.x : Int) by omega]
        rw [usizeCast_of_nonneg (by omega) (by omega)]
        simp

/-- Behaviour of `c1_index` (IND) under well-formedness: like `new_line`
but the column is left unchanged. -/
theorem TerminalState.c1_index_spec (st : TerminalState)
    (hx : st.cursor.x < st.scr.physical_cols) (hcb : st.scr.physical_cols < 2 ^ 64)
    (hy0 : 0 ≤ st.cursor.y) (hyr : st.cursor.y < (st.scr.physical_rows : Int)) :
    (st.cursor.y = st.scroll_region.2 - 1 →
      st.c1_index.cursor.y = st.cursor.y ∧
      st.c1_index.scr.cellLines =
        (st.scr.scroll_up st.scroll_region.1 st.scroll_region.2 1).cellLines) ∧
    (st.cursor.y ≠ st.scroll_region.2 - 1 →
      st.c1_index.cursor.y = min (st.cursor.y + 1) ((st.scr.physical_rows : Int) - 1) ∧
      st.c1_index.scr.cellLines = st.scr.cellLines) ∧
    st.c1_index.cursor.x = st.cursor.x := by
  unfold TerminalState.c1_index
  dsimp only
  by_cases hy : st.cursor.y = st.scroll_region.2 - 1
  · rw [if_pos hy]
    refine ⟨fun _ => ⟨?_, ?_⟩, fun hne => absurd hy hne, ?_⟩
    · rw [TerminalState.cursor_set_cursor_pos]
      simp only [TerminalState.cursor_scroll_up, TerminalState.physical_rows_scroll_up_state]
      omega
    · rw [TerminalState.cellLines_set_cursor_pos, TerminalState.scroll_up_cellLines]
    · rw [TerminalState.cursor_set_cursor_pos]
      simp only [TerminalState.cursor_scroll_up, TerminalState.physical_cols_scroll_up_state]
      show usizeCast (min (max ((st.cursor.x : Int) + 0) 0) ((st.scr.physical_cols : Int) - 1)) =
        st.cursor.x
      rw [show min (max ((st.cursor.x : Int) + 0) 0) ((st.scr.physical_cols : Int) - 1) =
        (st.cursor.x : Int) by omega]
      rw [usizeCast_of_nonneg (by omega) (by omega)]
      simp
  · rw [if_neg hy]
    refine ⟨fun h => absurd h hy, fun _ => ⟨?_, ?_⟩, ?_⟩
    · rw [TerminalState.cursor_set_cursor_pos]
    · rw [TerminalState.cellLines_set_cursor_pos]
    · rw [TerminalState.cursor_set_cursor_pos]
      show usizeCast (min (max ((st.cursor.x : Int) + 0) 0) ((st.scr.physical_cols : Int) - 1)) =
        st.cursor.x
      rw [show min (max ((st.cursor.x : Int) + 0) 0) ((st.scr.physical_cols : Int) - 1) =
        (st.cursor.x : Int) by omega]
      rw [usizeCast_of_nonneg (by omega) (by omega)]
      simp

/-- C7 (amended): with the cursor on the last row of the scroll region,
LF, NEL and IND scroll the region up one row with the cursor row
unchanged; otherwise the cursor moves down one row (clamped to the last
physical row).  NEL resets the column to 0 while LF and IND leave the
column unchanged (the claim stating that LF also resets the column is
false, see the counterexample).  RI with the cursor on the top row of
the scroll region scrolls the region down one row with the cursor row
unchanged. -/
theorem c7_lf_nel_ind_ri (st : TerminalState) (hwf : st.WF) :
    (st.cursor.y = st.scroll_region.2 - 1 →
      ((st.applyControlCode .LineFeed).cursor.y = st.cursor.y ∧
        (st.applyControlCode .LineFeed).scr.cellLines =
          (st.scr.scroll_up st.scroll_region.1 st.scroll_region.2 1).cellLines) ∧
      ((st.applyEscCode .NextLine).cursor.y = st.cursor.y ∧
        (st.applyEscCode .NextLine).scr.cellLines =
          (st.scr.scroll_up st.scroll_region.1 st.scroll_region.2 1).cellLines) ∧
      ((st.applyEscCode .Index).cursor.y = st.cursor.y ∧
        (st.applyEscCode .Index).scr.cellLines =
          (st.scr.scroll_up st.scroll_region.1 st.scroll_region.2 1).cellLines)) ∧
    (st.cursor.y ≠ st.scroll_region.2 - 1 →
      ((st.applyControlCode .LineFeed).cursor.y =
          min (st.cursor.y + 1) ((st.scr.physical_rows : Int) - 1) ∧
        (st.applyControlCode .LineFeed).scr.cellLines = st.scr.cellLines) ∧
      ((st.applyEscCode .NextLine).cursor.y =
          min (st.cursor.y + 1) ((st.scr.physical_rows : Int) - 1) ∧
        (st.applyEscCode .NextLine).scr.cellLines = st.scr.cellLines) ∧
      ((st.applyEscCode .Index).cursor.y =
          min (st.cursor.y + 1) ((st.scr.physical_rows : Int) - 1) ∧
        (st.applyEscCode .Index).scr.cellLines = st.scr.cellLines)) ∧
    ((st.applyControlCode .LineFeed).cursor.x = st.cursor.x ∧
      (st.applyEscCode .Index).cursor.x = st.cursor.x ∧
      (st.applyEscCode .NextLine).cursor.x = 0) ∧
    (st.cursor.y = st.scroll_region.1 →
      (st.applyEscCode .ReverseIndex).cursor.y = st.cursor.y ∧
      (st.applyEscCode .ReverseIndex).scr.cellLines =
        (st.scr.scroll_down st.scroll_region.1 st.scroll_region.2 1).cellLines) := by
  obtain ⟨hr1, hc1, hrb, hcb, hlen, hcells, hy0, hyr, hxc, hs0, hs12, hs2r⟩ := hwf
  have hlf := TerminalState.new_line_spec st false hxc hcb hy0 hyr
  have hnel := TerminalState.new_line_spec st true hxc hcb hy0 hyr
  have hind := TerminalState.c1_index_spec st hxc hcb hy0 hyr
  have happc : st.applyControlCode .LineFeed = st.new_line false := rfl
  have happn : st.applyEscCode .NextLine = st.new_line true := rfl
  have happi : st.applyEscCode .Index = st.c1_index := rfl
  have happr : st.applyEscCode .ReverseIndex = st.c1_reverse_index := rfl
  refine ⟨?_, ?_, ?_, ?_⟩
  · intro hy
    rw [happc, happn, happi]
    exact ⟨hlf.1 hy, hnel.1 hy, hind.1 hy⟩
  · intro hy
    rw [happc, happn, happi]
    exact ⟨hlf.2.1 hy, hnel.2.1 hy, hind.2.1 hy⟩
  · rw [happc, happn, happi]
    exact ⟨hlf.2.2, hind.2.2, hnel.2.2⟩
  · intro hy
    rw [happr]
    unfold TerminalState.c1_reverse_index
    dsimp only
    rw [if_pos hy]
    constructor
    · rw [TerminalState.cursor_set_cursor_pos]
      simp only [TerminalState.cursor_scroll_down, TerminalState.physical_rows_scroll_down_state]
      omega
    · rw [TerminalState.cellLines_set_cursor_pos, TerminalState.scroll_down_cellLines]

/-- Witness for C7 on a fresh 2x5 terminal (cursor not at the bottom of
the region, so LF moves down one row keeping the column). -/
theorem c7_lf_nel_ind_ri_witness :
    (TerminalState.new 2 5 10 []).WF ∧
    ((TerminalState.new 2 5 10 []).applyControlCode .LineFeed).cursor.y =
      min ((TerminalState.new 2 5 10 []).cursor.y + 1)
        (((TerminalState.new 2 5 10 []).scr.physical_rows : Int) - 1) ∧
    ((TerminalState.new 2 5 10 []).applyEscCode .NextLine).cursor.x = 0 :=
  ⟨by decide,
    ((c7_lf_nel_ind_ri (TerminalState.new 2 5 10 []) (by decide)).2.1 (by decide)).1.1,
    (c7_lf_nel_ind_ri (TerminalState.new 2 5 10 []) (by decide)).2.2.1.2.2⟩

/-- C7 counterexample: the claim as stated says LF resets the cursor
column to 0; on a terminal whose cursor sits at column 3, a line feed
leaves the column at 3. -/
theorem c7_counterexample :
    ((((TerminalState.new 2 5 10 []).flush_print ['a', 'b', 'c']).applyControlCode
        .LineFeed).cursor.x = 3) ∧ (3 : Nat) ≠ 0 := by decide

/-! ## Claim C2: deferred wrap at the right margin -/

set_option maxHeartbeats 2000000 in
theorem ucw_decLineDrawRemap (g : List Char) :
    unicode_column_width (decLineDrawRemap g) = unicode_column_width g := by
  unfold decLineDrawRemap
  split_ifs <;> subst_vars <;> rfl

@[simp] theorem TerminalState.scr_clear_selection_lines_length (st : TerminalState) :
    st.clear_selection.scr.lines.length = st.scr.lines.length := by
  unfold TerminalState.clear_selection TerminalState.dirty_selection_lines
  split <;> simp [TerminalState.scr, TerminalState.mapScr]

@[simp] theorem TerminalState.insert_set_cursor_pos (st : TerminalState) (px py : Position) :
    (st.set_cursor_pos px py).insert = st.insert := by
  unfold TerminalState.set_cursor_pos
  simp [TerminalState.scr, TerminalState.mapScr]

@[simp] theorem TerminalState.scroll_region_set_cursor_pos (st : TerminalState)
    (px py : Position) : (st.set_cursor_pos px py).scroll_region = st.scroll_region := by
  unfold TerminalState.set_cursor_pos
  simp [TerminalState.scr, TerminalState.mapScr]

@[simp] theorem TerminalState.physical_rows_set_cursor_pos (st : TerminalState)
    (px py : Position) : (st.set_cursor_pos px py).scr.physical_rows = st.scr.physical_rows := by
  unfold TerminalState.set_cursor_pos
  simp [TerminalState.scr, TerminalState.mapScr]

@[simp] theorem TerminalState.physical_cols_set_cursor_pos (st : TerminalState)
    (px py : Position) : (st.set_cursor_pos px py).scr.physical_cols = st.scr.physical_cols := by
  unfold TerminalState.set_cursor_pos
  simp [TerminalState.scr, TerminalState.mapScr]

@[simp] theorem TerminalState.lines_length_set_cursor_pos (st : TerminalState)
    (px py : Position) : (st.set_cursor_pos px py).scr.lines.length = st.scr.lines.length := by
  unfold TerminalState.set_cursor_pos
  simp [TerminalState.scr, TerminalState.mapScr]

@[simp] theorem TerminalState.insert_scroll_up (st : TerminalState) (n : Nat) :
    (st.scroll_up n).insert = st.insert := by
  unfold TerminalState.scroll_up
  dsimp only
  simp

@[simp] theorem TerminalState.scroll_region_scroll_up (st : TerminalState) (n : Nat) :
    (st.scroll_up n).scroll_region = st.scroll_region := by
  unfold TerminalState.scroll_up
  dsimp only
  simp

@[simp] theorem TerminalState.dec_mode_set_cursor_pos (st : TerminalState) (px py : Position) :
    (st.set_cursor_pos px py).dec_line_drawing_mode = st.dec_line_drawing_mode := by
  unfold TerminalState.set_cursor_pos
  simp [TerminalState.scr, TerminalState.mapScr]

@[simp] theorem TerminalState.dec_mode_mapScr (st : TerminalState) (f : Screen → Screen) :
    (st.mapScr f).dec_line_drawing_mode = st.dec_line_drawing_mode := rfl

@[simp] theorem TerminalState.dec_mode_clear_selection (st : TerminalState) :
    st.clear_selection.dec_line_drawing_mode = st.dec_line_drawing_mode := by
  unfold TerminalState.clear_selection TerminalState.dirty_selection_lines
  split <;> simp [TerminalState.scr, TerminalState.mapScr]

@[simp] theorem TerminalState.insert_clear_selection_if (st : TerminalState)
    (cols : Nat × Nat) (row : Int) :
    (st.clear_selection_if_intersects cols row).1.insert = st.insert := by
  unfold TerminalState.clear_selection_if_intersects
  dsimp only
  split
  · split <;> simp
  · rfl

@[simp] theorem TerminalState.cursor_clear_selection_if (st : TerminalState)
    (cols : Nat × Nat) (row : Int) :
    (st.clear_selection_if_intersects cols row).1.cursor = st.cursor := by
  unfold TerminalState.clear_selection_if_intersects
  dsimp only
  split
  · split <;> simp
  · rfl

@[simp] theorem TerminalState.wrap_next_clear_selection_if (st : TerminalState)
    (cols : Nat × Nat) (row : Int) :
    (st.clear_selection_if_intersects cols row).1.wrap_next = st.wrap_next := by
  unfold TerminalState.clear_selection_if_intersects
  dsimp only
  split
  · split <;> simp
  · rfl

@[simp] theorem TerminalState.scroll_region_clear_selection_if (st : TerminalState)
    (cols : Nat × Nat) (row : Int) :
    (st.clear_selection_if_intersects cols row).1.scroll_region = st.scroll_region := by
  unfold TerminalState.clear_selection_if_intersects
  dsimp only
  split
  · split <;> simp
  · rfl

@[simp] theorem TerminalState.dec_mode_clear_selection_if (st : TerminalState)
    (cols : Nat × Nat) (row : Int) :
    (st.clear_selection_if_intersects cols row).1.dec_line_drawing_mode =
      st.dec_line_drawing_mode := by
  unfold TerminalState.clear_selection_if_intersects
  dsimp only
  split
  · split <;> simp
  · rfl

@[simp] theorem TerminalState.cellLines_clear_selection_if (st : TerminalState)
    (cols : Nat × Nat) (row : Int) :
    (st.clear_selection_if_intersects cols row).1.scr.cellLines = st.scr.cellLines := by
  unfold TerminalState.clear_selection_if_intersects
  dsimp only
  split
  · split
    · show (TerminalState.clear_selection _).scr.cellLines = _
      rw [TerminalState.scr_clear_selection_cellLines]
      rfl
    · rfl
  · rfl

@[simp] theorem TerminalState.lines_length_clear_selection_if (st : TerminalState)
    (cols : Nat × Nat) (row : Int) :
    (st.clear_selection_if_intersects cols row).1.scr.lines.length =
      st.scr.lines.length := by
  unfold TerminalState.clear_selection_if_intersects
  dsimp only
  split
  · split
    · show (TerminalState.clear_selection _).scr.lines.length = _
      rw [TerminalState.scr_clear_selection_lines_length]
      rfl
    · rfl
  · rfl

@[simp] theorem TerminalState.physical_rows_clear_selection_if (st : TerminalState)
    (cols : Nat × Nat) (row : Int) :
    (st.clear_selection_if_intersects cols row).1.scr.physical_rows =
      st.scr.physical_rows := by
  unfold TerminalState.clear_selection_if_intersects
  dsimp only
  split
  · split
    · show (TerminalState.clear_selection _).scr.physical_rows = _
      rw [TerminalState.scr_clear_selection_physical_rows]
      rfl
    · rfl
  · rfl

@[simp] theorem TerminalState.physical_cols_clear_selection_if (st : TerminalState)
    (cols : Nat × Nat) (row : Int) :
    (st.clear_selection_if_intersects cols row).1.scr.physical_cols =
      st.scr.physical_cols := by
  unfold TerminalState.clear_selection_if_intersects
  dsimp only
  split
  · split
    · show (TerminalState.clear_selection _).scr.physical_cols = _
      rw [TerminalState.scr_clear_selection_physical_cols]
      rfl
    · rfl
  · rfl

theorem TerminalState.cellAt_congr (stA stB : TerminalState)
    (hc : stA.scr.cellLines = stB.scr.cellLines)
    (hr : stA.scr.physical_rows = stB.scr.physical_rows) (x : Nat) (y : Int) :
    stA.cellAt x y = stB.cellAt x y := by
  have hlen : stA.scr.lines.length = stB.scr.lines.length := by
    have h := congrArg List.length hc
    simpa [Screen.cellLines] using h
  have hcells : ∀ i, (stA.scr.lines.getD i ⟨[], false⟩).cells =
      (stB.scr.lines.getD i ⟨[], false⟩).cells := by
    intro i
    rw [List.getD_eq_getElem?_getD, List.getD_eq_getElem?_getD]
    have hA := congrArg (fun L => L[i]?) hc
    simp only [Screen.cellLines, List.getElem?_map] at hA
    cases h1 : stA.scr.lines[i]? with
    | none =>
      rw [h1] at hA
      cases h2 : stB.scr.lines[i]? with
      | none => rfl
      | some lb => rw [h2] at hA; simp at hA
    | some la =>
      rw [h1] at hA
      cases h2 : stB.scr.lines[i]? with
      | none => rw [h2] at hA; simp at hA
      | some lb =>
        rw [h2] at hA
        simp only [Option.map_some'] at hA
        simpa using hA
  unfold TerminalState.cellAt Screen.phys_row
  rw [hr, hlen, hcells]

theorem TerminalState.cellAt_mapScr_set_cell (st : TerminalState) (x : Nat) (y : Int) (c : Cell)
    (hidx : st.scr.phys_row y < st.scr.lines.length) :
    (st.mapScr (fun s => s.set_cell x y c)).cellAt x y = c := by
  unfold TerminalState.cellAt
  rw [TerminalState.scr_mapScr]
  show ((st.scr.set_cell x y c).lines.getD ((st.scr.set_cell x y c).phys_row y)
    ⟨[], false⟩).cells.getD x Cell.blank = c
  have hlen : (st.scr.set_cell x y c).lines.length = st.scr.lines.length :=
    Screen.lines_length_set_cell ..
  have hpr : (st.scr.set_cell x y c).phys_row y = st.scr.phys_row y := by
    unfold Screen.phys_row
    rw [hlen]
    rfl
  rw [hpr]
  obtain ⟨l0, hl0⟩ : ∃ l0, st.scr.lines[st.scr.phys_row y]? = some l0 :=
    ⟨_, List.getElem?_eq_getElem hidx⟩
  show ((listModify st.scr.lines (st.scr.phys_row y) (fun l => l.set_cell x c)).getD
    (st.scr.phys_row y) ⟨[], false⟩).cells.getD x Cell.blank = c
  rw [List.getD_eq_getElem?_getD, List.getD_eq_getElem?_getD,
    listModify_getElem?_eq _ _ _ _ hl0]
  simp only [Option.getD_some]
  show ((l0.set_cell x c).cells[x]?).getD Cell.blank = c
  unfold Line.set_cell
  dsimp only
  by_cases hx : x < l0.cells.length
  · rw [if_pos hx, List.getElem?_set_eq (by simpa using hx)]
    rfl
  · rw [if_neg hx, List.getElem?_set_eq (by simp; omega)]
    rfl

/-- In non-insert mode with no pending wrap, printing a cluster that
reaches the right margin reduces to one marked-wrapped `set_cell` plus
the selection check, with `wrap_next` set and nothing else moved. -/
theorem TerminalState.print_one_wrap_eq (st : TerminalState) (g : List Char)
    (hins : st.insert = false) (hwr : st.wrap_next = false)
    (hw : st.scr.physical_cols ≤ st.cursor.x + max (unicode_column_width g) 1) :
    st.print_one 0 g =
      ({ ((st.mapScr (fun s => s.set_cell (st.cursor.x + 0) st.cursor.y
          (Cell.new_grapheme (if st.dec_line_drawing_mode then decLineDrawRemap g else g)
            { st.pen with wrapped := true }))).clear_selection_if_intersects
          (st.cursor.x, st.cursor.x + max (unicode_column_width
            (if st.dec_line_drawing_mode then decLineDrawRemap g else g)) 1)
          st.cursor.y).1 with wrap_next := true }, 0) := by
  have hg' : unicode_column_width (if st.dec_line_drawing_mode then decLineDrawRemap g else g) =
      unicode_column_width g := by
    split
    · exact ucw_decLineDrawRemap g
    · rfl
  unfold TerminalState.print_one
  simp only [hins, hwr, Bool.false_eq_true, and_false, if_false, not_false_eq_true,
    true_and, and_true, ite_false]
  rw [if_pos (show st.scr.physical_cols ≤ st.cursor.x +
      max (unicode_column_width (if st.dec_line_drawing_mode then decLineDrawRemap g else g)) 1
    from by rw [hg']; exact hw)]
  simp only [TerminalState.insert_clear_selection_if, TerminalState.insert_mapScr, hins,
    Bool.false_eq_true, if_false, ite_false]
  rw [if_neg (show ¬(st.cursor.x +
      max (unicode_column_width (if st.dec_line_drawing_mode then decLineDrawRemap g else g)) 1 <
      st.scr.physical_cols) from by rw [hg']; exact Nat.not_lt.mpr hw)]

@[simp] theorem TerminalState.insert_new_line (st : TerminalState) (m : Bool) :
    (st.new_line m).insert = st.insert := by
  unfold TerminalState.new_line
  dsimp only
  split <;> simp

@[simp] theorem TerminalState.physical_cols_new_line (st : TerminalState) (m : Bool) :
    (st.new_line m).scr.physical_cols = st.scr.physical_cols := by
  unfold TerminalState.new_line
  dsimp only
  split <;> simp

@[simp] theorem TerminalState.physical_rows_new_line (st : TerminalState) (m : Bool) :
    (st.new_line m).scr.physical_rows = st.scr.physical_rows := by
  unfold TerminalState.new_line
  dsimp only
  split <;> simp

/-- In non-insert mode with a pending wrap, the next printed cluster
first wraps to column 0 of the next row (scrolling aside) and is written
there; the cursor ends after the new cluster with the wrap flag clear. -/
theorem TerminalState.print_one_after_wrap (st : TerminalState) (g2 : List Char)
    (hins : st.insert = false) (hwr : st.wrap_next = true)
    (hx : st.cursor.x < st.scr.physical_cols) (hcb : st.scr.physical_cols < 2 ^ 64)
    (hy0 : 0 ≤ st.cursor.y) (hyr : st.cursor.y < (st.scr.physical_rows : Int))
    (hnb : st.cursor.y ≠ st.scroll_region.2 - 1)
    (hyb : st.cursor.y + 1 < (st.scr.physical_rows : Int))
    (hw2 : max (unicode_column_width g2) 1 < st.scr.physical_cols) :
    (st.print_one 0 g2).1.cursor.y = st.cursor.y + 1 ∧
    (st.print_one 0 g2).1.cursor.x = max (unicode_column_width g2) 1 ∧
    (st.print_one 0 g2).1.wrap_next = false := by
  have hnl := TerminalState.new_line_spec st true hx hcb hy0 hyr
  have hny : (st.new_line true).cursor.y = st.cursor.y + 1 := by
    rw [(hnl.2.1 hnb).1]
    omega
  have hnx : (st.new_line true).cursor.x = 0 := by
    have h := hnl.2.2
    simpa using h
  have hg2' : unicode_column_width (if st.dec_line_drawing_mode then decLineDrawRemap g2 else g2) =
      unicode_column_width g2 := by
    split
    · exact ucw_decLineDrawRemap g2
    · rfl
  unfold TerminalState.print_one
  rw [if_pos (show ¬st.insert = true ∧ st.wrap_next = true from ⟨by simp [hins], hwr⟩)]
  simp only [hnx, hny, hg2', TerminalState.insert_new_line, hins, Bool.false_eq_true, if_false,
    ite_false, TerminalState.physical_cols_new_line, not_false_eq_true, true_and, and_true,
    and_false, Nat.zero_add, TerminalState.insert_clear_selection_if, TerminalState.insert_mapScr]
  rw [if_neg (show ¬st.scr.physical_cols ≤ max (unicode_column_width g2) 1 from by omega)]
  rw [if_pos (show max (unicode_column_width g2) 1 < st.scr.physical_cols from hw2)]
  refine ⟨?_, ?_, rfl⟩
  · simp only [TerminalState.cursor_clear_selection_if, TerminalState.cursor_mapScr, hny]
  · simp only [TerminalState.cursor_clear_selection_if, TerminalState.cursor_mapScr, hnx]
    omega

/-- C2: with insert mode off and no pending wrap, printing a single
grapheme cluster whose width reaches the right margin marks the written
cell wrapped and sets `wrap_next`, but leaves the cursor in place and
creates no new row; the actual move to column 0 of the next row happens
only when the next printable cluster arrives. -/
theorem c2_deferred_wrap (st : TerminalState) (s g : List Char) (hwf : st.WF)
    (hins : st.insert = false) (hwr : st.wrap_next = false)
    (hseg : graphemes s = [g])
    (hw : st.scr.physical_cols ≤ st.cursor.x + max (unicode_column_width g) 1) :
    ((st.flush_print s).wrap_next = true ∧
     (st.flush_print s).cursor = st.cursor ∧
     (st.flush_print s).scr.lines.length = st.scr.lines.length ∧
     ((st.flush_print s).cellAt st.cursor.x st.cursor.y).attrs.wrapped = true) ∧
    (∀ s2 g2, graphemes s2 = [g2] →
      st.cursor.y ≠ st.scroll_region.2 - 1 →
      st.cursor.y + 1 < (st.scr.physical_rows : Int) →
      max (unicode_column_width g2) 1 < st.scr.physical_cols →
      ((st.flush_print s).flush_print s2).cursor.y = st.cursor.y + 1 ∧
      ((st.flush_print s).flush_print s2).cursor.x = max (unicode_column_width g2) 1) := by
  obtain ⟨hr1, hc1, hrb, hcb, hlen, hcells, hy0, hyr, hxc, hs0, hs12, hs2r⟩ := hwf
  have hfp : st.flush_print s = (st.print_one 0 g).1 := by
    unfold TerminalState.flush_print
    rw [hseg]
    rfl
  have heq := TerminalState.print_one_wrap_eq st g hins hwr hw
  have hidx : st.scr.phys_row st.cursor.y < st.scr.lines.length := by
    unfold Screen.phys_row
    omega
  have hres : (st.print_one 0 g).1 =
      { ((st.mapScr (fun sc => sc.set_cell (st.cursor.x + 0) st.cursor.y
          (Cell.new_grapheme (if st.dec_line_drawing_mode then decLineDrawRemap g else g)
            { st.pen with wrapped := true }))).clear_selection_if_intersects
          (st.cursor.x, st.cursor.x + max (unicode_column_width
            (if st.dec_line_drawing_mode then decLineDrawRemap g else g)) 1)
          st.cursor.y).1 with wrap_next := true } := by
    rw [heq]
  have hcell : ((st.print_one 0 g).1.cellAt st.cursor.x st.cursor.y).attrs.wrapped = true := by
    rw [hres]
    show (((st.mapScr (fun sc => sc.set_cell (st.cursor.x + 0) st.cursor.y
        (Cell.new_grapheme (if st.dec_line_drawing_mode then decLineDrawRemap g else g)
          { st.pen with wrapped := true }))).clear_selection_if_intersects
        (st.cursor.x, st.cursor.x + max (unicode_column_width
          (if st.dec_line_drawing_mode then decLineDrawRemap g else g)) 1)
        st.cursor.y).1.cellAt st.cursor.x st.cursor.y).attrs.wrapped = true
    rw [TerminalState.cellAt_congr _ (st.mapScr (fun sc => sc.set_cell (st.cursor.x + 0)
        st.cursor.y (Cell.new_grapheme (if st.dec_line_drawing_mode then decLineDrawRemap g else g)
          { st.pen with wrapped := true })))
      (TerminalState.cellLines_clear_selection_if ..)
      (TerminalState.physical_rows_clear_selection_if ..)]
    rw [show st.cursor.x + 0 = st.cursor.x from rfl]
    rw [TerminalState.cellAt_mapScr_set_cell _ _ _ _ hidx]
    rfl
  constructor
  · rw [hfp, hres]
    refine ⟨rfl, ?_, ?_, ?_⟩
    · show ((st.mapScr _).clear_selection_if_intersects _ _).1.cursor = st.cursor
      simp
    · show ((st.mapScr _).clear_selection_if_intersects _ _).1.scr.lines.length =
        st.scr.lines.length
      simp
    · rw [← hres]
      exact hcell
  · intro s2 g2 hseg2 hnb hyb hw2
    have hfp2 : ∀ stx : TerminalState, stx.flush_print s2 = (stx.print_one 0 g2).1 := by
      intro stx
      unfold TerminalState.flush_print
      rw [hseg2]
      rfl
    rw [hfp, hfp2]
    have hAins : (st.print_one 0 g).1.insert = false := by
      rw [hres]
      show ((st.mapScr _).clear_selection_if_intersects _ _).1.insert = false
      simp [hins]
    have hAwr : (st.print_one 0 g).1.wrap_next = true := by
      rw [hres]
    have hAcur : (st.print_one 0 g).1.cursor = st.cursor := by
      rw [hres]
      show ((st.mapScr _).clear_selection_if_intersects _ _).1.cursor = st.cursor
      simp
    have hAcols : (st.print_one 0 g).1.scr.physical_cols = st.scr.physical_cols := by
      rw [hres]
      show ((st.mapScr _).clear_selection_if_intersects _ _).1.scr.physical_cols = _
      simp
    have hArows : (st.print_one 0 g).1.scr.physical_rows = st.scr.physical_rows := by
      rw [hres]
      show ((st.mapScr _).clear_selection_if_intersects _ _).1.scr.physical_rows = _
      simp
    have hAreg : (st.print_one 0 g).1.scroll_region = st.scroll_region := by
      rw [hres]
      show ((st.mapScr _).clear_selection_if_intersects _ _).1.scroll_region = _
      simp
    have hres2 := TerminalState.print_one_after_wrap (st.print_one 0 g).1 g2 hAins hAwr
      (by rw [hAcur, hAcols]; exact hxc) (by rw [hAcols]; exact hcb)
      (by rw [hAcur]; exact hy0) (by rw [hAcur, hArows]; exact hyr)
      (by rw [hAcur, hAreg]; exact hnb) (by rw [hAcur, hArows]; exact hyb)
      (by rw [hAcols]; exact hw2)
    refine ⟨?_, ?_⟩
    · rw [hres2.1, hAcur]
    · rw [hres2.2.1]

/-! ## C5 support: erase operations, selection clearing and dirtiness -/

theorem intersects_range_lt [LinearOrder α] {r1 r2 : α × α}
    (h : intersects_range r1 r2 = true) : max r1.1 r2.1 < min r1.2 r2.2 := by
  unfold intersects_range at h
  exact of_decide_eq_true h

@[simp] theorem Screen.lines_length_clear_line (s : Screen) (y : Int) (cs ce : Nat)
    (pen : CellAttributes) : (s.clear_line y cs ce pen).lines.length = s.lines.length := by
  unfold Screen.clear_line
  simp

@[simp] theorem Screen.physical_rows_clear_line (s : Screen) (y : Int) (cs ce : Nat)
    (pen : CellAttributes) : (s.clear_line y cs ce pen).physical_rows = s.physical_rows := rfl

@[simp] theorem Screen.physical_cols_clear_line (s : Screen) (y : Int) (cs ce : Nat)
    (pen : CellAttributes) : (s.clear_line y cs ce pen).physical_cols = s.physical_cols := rfl

theorem Screen.phys_row_clear_line (s : Screen) (y : Int) (cs ce : Nat)
    (pen : CellAttributes) (y' : Int) :
    (s.clear_line y cs ce pen).phys_row y' = s.phys_row y' := by
  unfold Screen.phys_row
  simp

theorem Screen.phys_row_set_cell (s : Screen) (x : Nat) (y y' : Int) (c : Cell) :
    (s.set_cell x y c).phys_row y' = s.phys_row y' := by
  unfold Screen.phys_row
  simp

/-- The selection is gone after `clear_selection`. -/
theorem TerminalState.selection_range_clear_selection (st : TerminalState) :
    st.clear_selection.selection_range = none := rfl

/-- Because the source `take()`s the selection before deciding,
`clear_selection_if_intersects` never touches the screen contents or
dirty flags. -/
theorem TerminalState.scr_clear_selection_if_eq (st : TerminalState)
    (cols : Nat × Nat) (row : Int) :
    (st.clear_selection_if_intersects cols row).1.scr = st.scr := by
  unfold TerminalState.clear_selection_if_intersects
  dsimp only
  split
  · split
    · rfl
    · rfl
  · rfl

/-- Computation of `clear_selection_if_intersects` on the intersecting
branch. -/
theorem TerminalState.clear_selection_if_of_intersects (st : TerminalState)
    (cols : Nat × Nat) (row : Int) (r : SelectionRange)
    (hsel : st.selection_range = some r)
    (hint : intersects_range cols (r.normalize.cols_for_row row) = true) :
    st.clear_selection_if_intersects cols row =
      (({ st with selection_range := none } : TerminalState).clear_selection, true) := by
  unfold TerminalState.clear_selection_if_intersects
  dsimp only
  rw [hsel]
  dsimp only
  rw [if_pos hint]

/-- Computation of `clear_selection_if_intersects` on the
non-intersecting branch: the selection survives, normalized. -/
theorem TerminalState.clear_selection_if_of_not_intersects (st : TerminalState)
    (cols : Nat × Nat) (row : Int) (r : SelectionRange)
    (hsel : st.selection_range = some r)
    (hint : ¬ intersects_range cols (r.normalize.cols_for_row row) = true) :
    st.clear_selection_if_intersects cols row =
      ({ st with selection_range := some r.normalize }, false) := by
  unfold TerminalState.clear_selection_if_intersects
  dsimp only
  rw [hsel]
  dsimp only
  rw [if_neg hint]

/-- Computation of `clear_selection_if_intersects` with no selection. -/
theorem TerminalState.clear_selection_if_of_none (st : TerminalState)
    (cols : Nat × Nat) (row : Int) (hsel : st.selection_range = none) :
    st.clear_selection_if_intersects cols row =
      ({ st with selection_range := none }, true) := by
  unfold TerminalState.clear_selection_if_intersects
  dsimp only
  rw [hsel]

/-- With no selection the selection text is empty. -/
theorem TerminalState.get_selection_text_of_none (st : TerminalState)
    (h : st.selection_range = none) : st.get_selection_text = [] := by
  unfold TerminalState.get_selection_text
  rw [h]

theorem TerminalState.clearSelLoop_nil (st : TerminalState) (cols : Nat × Nat) :
    st.clearSelLoop cols [] = st := rfl

theorem TerminalState.clearSelLoop_cons (st : TerminalState) (cols : Nat × Nat)
    (y : Int) (rest : List Int) :
    st.clearSelLoop cols (y :: rest) =
      (if (st.clear_selection_if_intersects cols y).2 = true
        then (st.clear_selection_if_intersects cols y).1
        else (st.clear_selection_if_intersects cols y).1.clearSelLoop cols rest) := rfl

/-- The break-on-clear loop never touches the screen. -/
theorem TerminalState.scr_clearSelLoop (ys : List Int) (st : TerminalState)
    (cols : Nat × Nat) : (st.clearSelLoop cols ys).scr = st.scr := by
  induction ys generalizing st with
  | nil => rfl
  | cons y rest ih =>
    rw [TerminalState.clearSelLoop_cons]
    split
    · exact TerminalState.scr_clear_selection_if_eq ..
    · rw [ih]
      exact TerminalState.scr_clear_selection_if_eq ..

/-- The loop keeps an absent selection absent. -/
theorem TerminalState.clearSelLoop_of_none (st : TerminalState) (cols : Nat × Nat)
    (ys : List Int) (hsel : st.selection_range = none) :
    (st.clearSelLoop cols ys).selection_range = none := by
  cases ys with
  | nil => exact hsel
  | cons y rest =>
    rw [TerminalState.clearSelLoop_cons, TerminalState.clear_selection_if_of_none st cols y hsel]
    dsimp only
    rw [if_pos rfl]

/-- If some row of the loop intersects the selection, the loop clears it. -/
theorem TerminalState.clearSelLoop_selection_none (ys : List Int) (st : TerminalState)
    (cols : Nat × Nat) (r : SelectionRange) (hsel : st.selection_range = some r)
    (hy : ∃ y ∈ ys, intersects_range cols (r.normalize.cols_for_row y) = true) :
    (st.clearSelLoop cols ys).selection_range = none := by
  induction ys generalizing st r with
  | nil =>
    rcases hy with ⟨y, hmem, _⟩
    cases hmem
  | cons y rest ih =>
    by_cases hc : intersects_range cols (r.normalize.cols_for_row y) = true
    · rw [TerminalState.clearSelLoop_cons,
        TerminalState.clear_selection_if_of_intersects st cols y r hsel hc]
      dsimp only
      rw [if_pos rfl]
      exact TerminalState.selection_range_clear_selection _
    · rw [TerminalState.clearSelLoop_cons,
        TerminalState.clear_selection_if_of_not_intersects st cols y r hsel hc]
      dsimp only
      rw [if_neg Bool.false_ne_true]
      apply ih _ r.normalize rfl
      rcases hy with ⟨y', hmem, hint⟩
      rcases List.mem_cons.mp hmem with hq | hq
      · exact absurd (hq ▸ hint) hc
      · exact ⟨y', hq, by rw [SelectionRange.normalize_idem]; exact hint⟩

/-- Membership in a `listModify` result comes from the original list,
possibly through the modifier. -/
theorem mem_listModify (l : List α) (i : Nat) (f : α → α) (x : α)
    (h : x ∈ listModify l i f) : x ∈ l ∨ ∃ a ∈ l, x = f a := by
  unfold listModify at h
  cases hx : l[i]? with
  | none =>
    rw [hx] at h
    exact Or.inl h
  | some a =>
    rw [hx] at h
    rcases List.mem_or_eq_of_mem_set h with h | h
    · exact Or.inl h
    · exact Or.inr ⟨a, List.getElem?_mem hx, h⟩

/-- Writing a cell marks its row dirty. -/
theorem Screen.rowDirty_set_cell (s : Screen) (x : Nat) (y : Int) (c : Cell)
    (hidx : s.phys_row y < s.lines.length) : (s.set_cell x y c).rowDirty y := by
  unfold Screen.rowDirty
  rw [Screen.phys_row_set_cell]
  obtain ⟨l, hl⟩ : ∃ l, s.lines[s.phys_row y]? = some l :=
    ⟨_, List.getElem?_eq_getElem hidx⟩
  refine ⟨l.set_cell x c, ?_, rfl⟩
  show (listModify s.lines (s.phys_row y) (fun l => l.set_cell x c))[s.phys_row y]? = _
  exact listModify_getElem?_eq _ _ _ _ hl

/-- Writing a cell preserves dirtiness of every row. -/
theorem Screen.rowDirty_mono_set_cell (s : Screen) (x : Nat) (y y' : Int) (c : Cell)
    (h : s.rowDirty y') : (s.set_cell x y c).rowDirty y' := by
  obtain ⟨l, hl, hd⟩ := h
  unfold Screen.rowDirty
  rw [Screen.phys_row_set_cell]
  by_cases hij : s.phys_row y = s.phys_row y'
  · refine ⟨l.set_cell x c, ?_, rfl⟩
    show (listModify s.lines (s.phys_row y) (fun l => l.set_cell x c))[s.phys_row y']? = _
    rw [← hij]
    rw [← hij] at hl
    exact listModify_getElem?_eq _ _ _ _ hl
  · refine ⟨l, ?_, hd⟩
    show (listModify s.lines (s.phys_row y) (fun l => l.set_cell x c))[s.phys_row y']? = _
    rw [listModify_getElem?_ne _ _ _ _ hij]
    exact hl

theorem Screen.rowDirty_foldl_set_cell_mono (xs : List Nat) (s : Screen) (y y0 : Int)
    (c : Cell) (h : s.rowDirty y0) :
    (xs.foldl (fun s xi => s.set_cell xi y c) s).rowDirty y0 := by
  induction xs generalizing s with
  | nil => exact h
  | cons a rest ih => exact ih _ (Screen.rowDirty_mono_set_cell _ _ _ _ _ h)

/-- A non-empty run of cell writes on row `y` leaves row `y` dirty. -/
theorem Screen.rowDirty_foldl_set_cell (xs : List Nat) (s : Screen) (y : Int) (c : Cell)
    (hne : xs ≠ []) (hidx : s.phys_row y < s.lines.length) :
    (xs.foldl (fun s xi => s.set_cell xi y c) s).rowDirty y := by
  cases xs with
  | nil => exact absurd rfl hne
  | cons a rest =>
    exact Screen.rowDirty_foldl_set_cell_mono rest _ y y c
      (Screen.rowDirty_set_cell s a y c hidx)

/-- Clearing a non-trivial column range of a row marks the row dirty
even when the cells were already blank. -/
theorem Screen.rowDirty_clear_line (s : Screen) (y : Int) (cs ce : Nat)
    (pen : CellAttributes) (l : Line) (hl : s.lines[s.phys_row y]? = some l)
    (hcs : cs < min ce l.cells.length) :
    (s.clear_line y cs ce pen).rowDirty y := by
  unfold Screen.rowDirty
  rw [Screen.phys_row_clear_line]
  refine ⟨⟨idxMapFrom (fun i c => if cs ≤ i ∧ i < ce then Cell.new ' ' pen else c) 0 l.cells,
    l.dirty || decide (cs < min ce l.cells.length)⟩, ?_, ?_⟩
  · show (listModify s.lines (s.phys_row y) _)[s.phys_row y]? = _
    exact listModify_getElem?_eq _ _ _ _ hl
  · show (l.dirty || decide (cs < min ce l.cells.length)) = true
    simp [hcs]

/-- Clearing a line preserves dirtiness of every row. -/
theorem Screen.rowDirty_mono_clear_line (s : Screen) (y y' : Int) (cs ce : Nat)
    (pen : CellAttributes) (h : s.rowDirty y') :
    (s.clear_line y cs ce pen).rowDirty y' := by
  obtain ⟨l, hl, hd⟩ := h
  unfold Screen.rowDirty
  rw [Screen.phys_row_clear_line]
  by_cases hij : s.phys_row y = s.phys_row y'
  · refine ⟨⟨idxMapFrom (fun i c => if cs ≤ i ∧ i < ce then Cell.new ' ' pen else c) 0 l.cells,
      l.dirty || decide (cs < min ce l.cells.length)⟩, ?_, ?_⟩
    · show (listModify s.lines (s.phys_row y) _)[s.phys_row y']? = _
      rw [← hij]
      rw [← hij] at hl
      exact listModify_getElem?_eq _ _ _ _ hl
    · show (l.dirty || decide (cs < min ce l.cells.length)) = true
      simp [hd]
  · refine ⟨l, ?_, hd⟩
    show (listModify s.lines (s.phys_row y) _)[s.phys_row y']? = _
    rw [listModify_getElem?_ne _ _ _ _ hij]
    exact hl

/-- Clearing a line keeps every line at its width. -/
theorem Screen.cellsLen_clear_line (s : Screen) (y : Int) (cs ce : Nat)
    (pen : CellAttributes) (C : Nat) (hC : ∀ l ∈ s.lines, l.cells.length = C) :
    ∀ l ∈ (s.clear_line y cs ce pen).lines, l.cells.length = C := by
  intro l hl
  have hm : l ∈ s.lines ∨ ∃ a ∈ s.lines, l =
      (fun l : Line =>
        (⟨idxMapFrom (fun i c => if cs ≤ i ∧ i < ce then Cell.new ' ' pen else c) 0 l.cells,
          l.dirty || decide (cs < min ce l.cells.length)⟩ : Line)) a :=
    mem_listModify _ _ _ _ hl
  rcases hm with h | ⟨a, ha, rfl⟩
  · exact hC l h
  · show (idxMapFrom _ 0 a.cells).length = C
    rw [idxMapFrom_length]
    exact hC a ha

theorem Screen.rowDirty_foldl_clear_line_mono (ys : List Int) (s : Screen) (cs ce : Nat)
    (pen : CellAttributes) (y0 : Int) (h : s.rowDirty y0) :
    (ys.foldl (fun s y => s.clear_line y cs ce pen) s).rowDirty y0 := by
  induction ys generalizing s with
  | nil => exact h
  | cons a rest ih => exact ih _ (Screen.rowDirty_mono_clear_line _ _ _ _ _ _ h)

/-- Clearing a run of rows marks each of them dirty. -/
theorem Screen.rowDirty_foldl_clear_line (ys : List Int) (s : Screen) (cs ce : Nat)
    (pen : CellAttributes) (C : Nat) (hC : ∀ l ∈ s.lines, l.cells.length = C)
    (hcs : cs < min ce C) (y0 : Int) (hmem : y0 ∈ ys)
    (hidx : s.phys_row y0 < s.lines.length) :
    (ys.foldl (fun s y => s.clear_line y cs ce pen) s).rowDirty y0 := by
  induction ys generalizing s with
  | nil => cases hmem
  | cons a rest ih =>
    by_cases hay : a = y0
    · subst hay
      obtain ⟨l, hl⟩ : ∃ l, s.lines[s.phys_row a]? = some l :=
        ⟨_, List.getElem?_eq_getElem hidx⟩
      have hlen : l.cells.length = C := hC l (List.getElem?_mem hl)
      exact Screen.rowDirty_foldl_clear_line_mono rest _ _ _ _ _
        (Screen.rowDirty_clear_line s a cs ce pen l hl (by rw [hlen]; exact hcs))
    · rcases List.mem_cons.mp hmem with hq | hq
      · exact absurd hq.symm hay
      · refine ih (s.clear_line a cs ce pen)
          (Screen.cellsLen_clear_line s a cs ce pen C hC) hq ?_
        rw [Screen.phys_row_clear_line, Screen.lines_length_clear_line]
        exact hidx

/-- An intersecting `clear_selection_if_intersects` drops the selection. -/
theorem TerminalState.selection_none_clear_selection_if (st : TerminalState)
    (cols : Nat × Nat) (row : Int) (r : SelectionRange)
    (hsel : st.selection_range = some r)
    (hint : intersects_range cols (r.normalize.cols_for_row row) = true) :
    (st.clear_selection_if_intersects cols row).1.selection_range = none := by
  rw [TerminalState.clear_selection_if_of_intersects st cols row r hsel hint]
  exact TerminalState.selection_range_clear_selection _

/-- A non-intersecting `clear_selection_if_intersects` keeps the
selection, normalized. -/
theorem TerminalState.selection_norm_clear_selection_if (st : TerminalState)
    (cols : Nat × Nat) (row : Int) (r : SelectionRange)
    (hsel : st.selection_range = some r)
    (hint : ¬ intersects_range cols (r.normalize.cols_for_row row) = true) :
    (st.clear_selection_if_intersects cols row).1.selection_range = some r.normalize := by
  rw [TerminalState.clear_selection_if_of_not_intersects st cols row r hsel hint]

/-- C5: every erase operation (EraseCharacter, EraseInLine in each of its
three forms, EraseInDisplay in each of its three erasing forms) whose
affected cell range intersects the current selection clears the
selection, makes `get_selection_text` empty afterwards, and marks the
affected lines dirty regardless of their previous contents. -/
theorem c5_erase_clears_selection (st : TerminalState) (r : SelectionRange)
    (hwf : st.WF) (hsel : st.selection_range = some r) :
    (∀ n : Nat,
      intersects_range (st.cursor.x, min (st.cursor.x + n) st.scr.physical_cols)
          (r.normalize.cols_for_row st.cursor.y) = true →
      (st.perform_csi_edit (Edit.EraseCharacter n)).selection_range = none ∧
      (st.perform_csi_edit (Edit.EraseCharacter n)).get_selection_text = [] ∧
      (st.perform_csi_edit (Edit.EraseCharacter n)).scr.rowDirty st.cursor.y) ∧
    (intersects_range (st.cursor.x, st.scr.physical_cols)
          (r.normalize.cols_for_row st.cursor.y) = true →
      (st.perform_csi_edit (Edit.EraseInLine .EraseToEndOfLine)).selection_range = none ∧
      (st.perform_csi_edit (Edit.EraseInLine .EraseToEndOfLine)).get_selection_text = [] ∧
      (st.perform_csi_edit (Edit.EraseInLine .EraseToEndOfLine)).scr.rowDirty st.cursor.y) ∧
    (intersects_range (0, st.cursor.x) (r.normalize.cols_for_row st.cursor.y) = true →
      (st.perform_csi_edit (Edit.EraseInLine .EraseToStartOfLine)).selection_range = none ∧
      (st.perform_csi_edit (Edit.EraseInLine .EraseToStartOfLine)).get_selection_text = [] ∧
      (st.perform_csi_edit (Edit.EraseInLine .EraseToStartOfLine)).scr.rowDirty st.cursor.y) ∧
    (intersects_range (0, st.scr.physical_cols)
          (r.normalize.cols_for_row st.cursor.y) = true →
      (st.perform_csi_edit (Edit.EraseInLine .EraseLine)).selection_range = none ∧
      (st.perform_csi_edit (Edit.EraseInLine .EraseLine)).get_selection_text = [] ∧
      (st.perform_csi_edit (Edit.EraseInLine .EraseLine)).scr.rowDirty st.cursor.y) ∧
    ((intersects_range (st.cursor.x, st.scr.physical_cols)
          (r.normalize.cols_for_row st.cursor.y) = true ∨
      (∃ y ∈ intRange (st.cursor.y + 1) (st.scr.physical_rows : Int),
        intersects_range (0, usizeMax) (r.normalize.cols_for_row y) = true)) →
      (st.perform_csi_edit (Edit.EraseInDisplay .EraseToEndOfDisplay)).selection_range
          = none ∧
      (st.perform_csi_edit (Edit.EraseInDisplay .EraseToEndOfDisplay)).get_selection_text
          = [] ∧
      (st.perform_csi_edit (Edit.EraseInDisplay .EraseToEndOfDisplay)).scr.rowDirty
          st.cursor.y ∧
      (∀ y0 ∈ intRange (st.cursor.y + 1) (st.scr.physical_rows : Int),
        (st.perform_csi_edit (Edit.EraseInDisplay .EraseToEndOfDisplay)).scr.rowDirty y0)) ∧
    ((intersects_range (0, st.cursor.x) (r.normalize.cols_for_row st.cursor.y) = true ∨
      (∃ y ∈ intRange 0 st.cursor.y,
        intersects_range (0, usizeMax) (r.normalize.cols_for_row y) = true)) →
      (st.perform_csi_edit (Edit.EraseInDisplay .EraseToStartOfDisplay)).selection_range
          = none ∧
      (st.perform_csi_edit (Edit.EraseInDisplay .EraseToStartOfDisplay)).get_selection_text
          = [] ∧
      (0 < st.cursor.x →
        (st.perform_csi_edit (Edit.EraseInDisplay .EraseToStartOfDisplay)).scr.rowDirty
          st.cursor.y) ∧
      (∀ y0 ∈ intRange 0 st.cursor.y,
        (st.perform_csi_edit (Edit.EraseInDisplay .EraseToStartOfDisplay)).scr.rowDirty y0)) ∧
    ((∃ y ∈ intRange 0 (st.scr.physical_rows : Int),
        intersects_range (0, usizeMax) (r.normalize.cols_for_row y) = true) →
      (st.perform_csi_edit (Edit.EraseInDisplay .EraseDisplay)).selection_range = none ∧
      (st.perform_csi_edit (Edit.EraseInDisplay .EraseDisplay)).get_selection_text = [] ∧
      (∀ y0 ∈ intRange 0 (st.scr.physical_rows : Int),
        (st.perform_csi_edit (Edit.EraseInDisplay .EraseDisplay)).scr.rowDirty y0)) := by
  obtain ⟨hr1, hc1, hrb, hcb, hlen, hcells, hy0, hyr, hxc, hs0, hs12, hs2r⟩ := hwf
  have hidx : st.scr.phys_row st.cursor.y < st.scr.lines.length := by
    unfold Screen.phys_row
    omega
  obtain ⟨lc, hlc⟩ : ∃ l, st.scr.lines[st.scr.phys_row st.cursor.y]? = some l :=
    ⟨_, List.getElem?_eq_getElem hidx⟩
  have hlcC : lc.cells.length = st.scr.physical_cols := (hcells lc (List.getElem?_mem hlc)).1
  refine ⟨?_, ?_, ?_, ?_, ?_, ?_, ?_⟩
  · intro n hint
    have hlt := intersects_range_lt hint
    have hxl : st.cursor.x < min (st.cursor.x + n) st.scr.physical_cols :=
      lt_of_le_of_lt (le_max_left _ _) (lt_of_lt_of_le hlt (min_le_left _ _))
    have hE : st.perform_csi_edit (Edit.EraseCharacter n) =
        ((st.mapScr (fun s =>
            ((List.range (min (st.cursor.x + n) st.scr.physical_cols - st.cursor.x)).map
              (fun i => st.cursor.x + i)).foldl
              (fun s xi => s.set_cell xi st.cursor.y (Cell.new ' ' st.pen.clone_sgr_only)) s)
          ).clear_selection_if_intersects
            (st.cursor.x, min (st.cursor.x + n) st.scr.physical_cols) st.cursor.y).1 := rfl
    have hnone : (st.perform_csi_edit (Edit.EraseCharacter n)).selection_range = none := by
      rw [hE]
      refine TerminalState.selection_none_clear_selection_if _ _ _ r ?_ hint
      exact hsel
    refine ⟨hnone, TerminalState.get_selection_text_of_none _ hnone, ?_⟩
    rw [hE, TerminalState.scr_clear_selection_if_eq, TerminalState.scr_mapScr]
    apply Screen.rowDirty_foldl_set_cell
    · simp only [ne_eq, List.map_eq_nil_iff, List.range_eq_nil]
      omega
    · unfold Screen.phys_row
      omega
  · intro hint
    have hE : st.perform_csi_edit (Edit.EraseInLine .EraseToEndOfLine) =
        ((st.mapScr (fun s => s.clear_line st.cursor.y st.cursor.x st.scr.physical_cols
            st.pen.clone_sgr_only)).clear_selection_if_intersects
          (st.cursor.x, st.scr.physical_cols) st.cursor.y).1 := rfl
    have hnone : (st.perform_csi_edit (Edit.EraseInLine .EraseToEndOfLine)).selection_range
        = none := by
      rw [hE]
      refine TerminalState.selection_none_clear_selection_if _ _ _ r ?_ hint
      exact hsel
    refine ⟨hnone, TerminalState.get_selection_text_of_none _ hnone, ?_⟩
    rw [hE, TerminalState.scr_clear_selection_if_eq, TerminalState.scr_mapScr]
    exact Screen.rowDirty_clear_line _ _ _ _ _ lc hlc
      (by rw [hlcC, Nat.min_self]; exact hxc)
  · intro hint
    have hlt := intersects_range_lt hint
    have hx0 : 0 < st.cursor.x :=
      lt_of_le_of_lt (Nat.zero_le _) (lt_of_lt_of_le hlt (min_le_left _ _))
    have hE : st.perform_csi_edit (Edit.EraseInLine .EraseToStartOfLine) =
        ((st.mapScr (fun s => s.clear_line st.cursor.y 0 st.cursor.x
            st.pen.clone_sgr_only)).clear_selection_if_intersects
          (0, st.cursor.x) st.cursor.y).1 := rfl
    have hnone : (st.perform_csi_edit (Edit.EraseInLine .EraseToStartOfLine)).selection_range
        = none := by
      rw [hE]
      refine TerminalState.selection_none_clear_selection_if _ _ _ r ?_ hint
      exact hsel
    refine ⟨hnone, TerminalState.get_selection_text_of_none _ hnone, ?_⟩
    rw [hE, TerminalState.scr_clear_selection_if_eq, TerminalState.scr_mapScr]
    exact Screen.rowDirty_clear_line _ _ _ _ _ lc hlc
      (lt_min_iff.mpr ⟨hx0, by rw [hlcC]; omega⟩)
  · intro hint
    have hE : st.perform_csi_edit (Edit.EraseInLine .EraseLine) =
        ((st.mapScr (fun s => s.clear_line st.cursor.y 0 st.scr.physical_cols
            st.pen.clone_sgr_only)).clear_selection_if_intersects
          (0, st.scr.physical_cols) st.cursor.y).1 := rfl
    have hnone : (st.perform_csi_edit (Edit.EraseInLine .EraseLine)).selection_range
        = none := by
      rw [hE]
      refine TerminalState.selection_none_clear_selection_if _ _ _ r ?_ hint
      exact hsel
    refine ⟨hnone, TerminalState.get_selection_text_of_none _ hnone, ?_⟩
    rw [hE, TerminalState.scr_clear_selection_if_eq, TerminalState.scr_mapScr]
    exact Screen.rowDirty_clear_line _ _ _ _ _ lc hlc
      (lt_min_iff.mpr ⟨by omega, by rw [hlcC]; omega⟩)
  · intro H
    have hE : st.perform_csi_edit (Edit.EraseInDisplay .EraseToEndOfDisplay) =
        ((st.erase_in_line_op .EraseToEndOfLine).mapScr (fun s =>
            (intRange (st.cursor.y + 1) (st.scr.physical_rows : Int)).foldl
              (fun s y => s.clear_line y 0 usizeMax st.pen.clone_sgr_only) s)).clearSelLoop
          (0, usizeMax) (intRange (st.cursor.y + 1) (st.scr.physical_rows : Int)) := rfl
    have hE1 : st.erase_in_line_op .EraseToEndOfLine =
        ((st.mapScr (fun s => s.clear_line st.cursor.y st.cursor.x st.scr.physical_cols
            st.pen.clone_sgr_only)).clear_selection_if_intersects
          (st.cursor.x, st.scr.physical_cols) st.cursor.y).1 := rfl
    have hscr1 : (st.erase_in_line_op .EraseToEndOfLine).scr =
        st.scr.clear_line st.cursor.y st.cursor.x st.scr.physical_cols
          st.pen.clone_sgr_only := by
      rw [hE1, TerminalState.scr_clear_selection_if_eq, TerminalState.scr_mapScr]
    have hnone : (st.perform_csi_edit
        (Edit.EraseInDisplay .EraseToEndOfDisplay)).selection_range = none := by
      rw [hE]
      by_cases hc : intersects_range (st.cursor.x, st.scr.physical_cols)
          (r.normalize.cols_for_row st.cursor.y) = true
      · apply TerminalState.clearSelLoop_of_none
        show (st.erase_in_line_op .EraseToEndOfLine).selection_range = none
        rw [hE1]
        refine TerminalState.selection_none_clear_selection_if _ _ _ r ?_ hc
        exact hsel
      · have H2 := H.resolve_left hc
        refine TerminalState.clearSelLoop_selection_none _ _ _ r.normalize ?_ ?_
        · show (st.erase_in_line_op .EraseToEndOfLine).selection_range = some r.normalize
          rw [hE1]
          refine TerminalState.selection_norm_clear_selection_if _ _ _ r ?_ hc
          exact hsel
        · rw [SelectionRange.normalize_idem]
          exact H2
    refine ⟨hnone, TerminalState.get_selection_text_of_none _ hnone, ?_, ?_⟩
    · rw [hE, TerminalState.scr_clearSelLoop, TerminalState.scr_mapScr, hscr1]
      apply Screen.rowDirty_foldl_clear_line_mono
      exact Screen.rowDirty_clear_line _ _ _ _ _ lc hlc
        (by rw [hlcC, Nat.min_self]; exact hxc)
    · intro y0 hy0mem
      obtain ⟨ha, hb⟩ := mem_intRange.mp hy0mem
      rw [hE, TerminalState.scr_clearSelLoop, TerminalState.scr_mapScr, hscr1]
      refine Screen.rowDirty_foldl_clear_line _ _ _ _ _ st.scr.physical_cols
        (Screen.cellsLen_clear_line _ _ _ _ _ _ (fun l hl => (hcells l hl).1)) ?_ y0 hy0mem ?_
      · exact lt_min_iff.mpr ⟨by decide, by omega⟩
      · rw [Screen.phys_row_clear_line, Screen.lines_length_clear_line]
        unfold Screen.phys_row
        omega
  · intro H
    have hE : st.perform_csi_edit (Edit.EraseInDisplay .EraseToStartOfDisplay) =
        ((st.erase_in_line_op .EraseToStartOfLine).mapScr (fun s =>
            (intRange 0 st.cursor.y).foldl
              (fun s y => s.clear_line y 0 usizeMax st.pen.clone_sgr_only) s)).clearSelLoop
          (0, usizeMax) (intRange 0 st.cursor.y) := rfl
    have hE1 : st.erase_in_line_op .EraseToStartOfLine =
        ((st.mapScr (fun s => s.clear_line st.cursor.y 0 st.cursor.x
            st.pen.clone_sgr_only)).clear_selection_if_intersects
          (0, st.cursor.x) st.cursor.y).1 := rfl
    have hscr1 : (st.erase_in_line_op .EraseToStartOfLine).scr =
        st.scr.clear_line st.cursor.y 0 st.cursor.x st.pen.clone_sgr_only := by
      rw [hE1, TerminalState.scr_clear_selection_if_eq, TerminalState.scr_mapScr]
    have hnone : (st.perform_csi_edit
        (Edit.EraseInDisplay .EraseToStartOfDisplay)).selection_range = none := by
      rw [hE]
      by_cases hc : intersects_range (0, st.cursor.x)
          (r.normalize.cols_for_row st.cursor.y) = true
      · apply TerminalState.clearSelLoop_of_none
        show (st.erase_in_line_op .EraseToStartOfLine).selection_range = none
        rw [hE1]
        refine TerminalState.selection_none_clear_selection_if _ _ _ r ?_ hc
        exact hsel
      · have H2 := H.resolve_left hc
        refine TerminalState.clearSelLoop_selection_none _ _ _ r.normalize ?_ ?_
        · show (st.erase_in_line_op .EraseToStartOfLine).selection_range = some r.normalize
          rw [hE1]
          refine TerminalState.selection_norm_clear_selection_if _ _ _ r ?_ hc
          exact hsel
        · rw [SelectionRange.normalize_idem]
          exact H2
    refine ⟨hnone, TerminalState.get_selection_text_of_none _ hnone, ?_, ?_⟩
    · intro hx0
      rw [hE, TerminalState.scr_clearSelLoop, TerminalState.scr_mapScr, hscr1]
      apply Screen.rowDirty_foldl_clear_line_mono
      exact Screen.rowDirty_clear_line _ _ _ _ _ lc hlc
        (lt_min_iff.mpr ⟨hx0, by rw [hlcC]; omega⟩)
    · intro y0 hy0mem
      obtain ⟨ha, hb⟩ := mem_intRange.mp hy0mem
      rw [hE, TerminalState.scr_clearSelLoop, TerminalState.scr_mapScr, hscr1]
      refine Screen.rowDirty_foldl_clear_line _ _ _ _ _ st.scr.physical_cols
        (Screen.cellsLen_clear_line _ _ _ _ _ _ (fun l hl => (hcells l hl).1)) ?_ y0 hy0mem ?_
      · exact lt_min_iff.mpr ⟨by decide, by omega⟩
      · rw [Screen.phys_row_clear_line, Screen.lines_length_clear_line]
        unfold Screen.phys_row
        omega
  · intro H
    have hE : st.perform_csi_edit (Edit.EraseInDisplay .EraseDisplay) =
        (st.mapScr (fun s =>
            (intRange 0 (st.scr.physical_rows : Int)).foldl
              (fun s y => s.clear_line y 0 usizeMax st.pen.clone_sgr_only) s)).clearSelLoop
          (0, usizeMax) (intRange 0 (st.scr.physical_rows : Int)) := rfl
    have hnone : (st.perform_csi_edit
        (Edit.EraseInDisplay .EraseDisplay)).selection_range = none := by
      rw [hE]
      refine TerminalState.clearSelLoop_selection_none _ _ _ r ?_ H
      exact hsel
    refine ⟨hnone, TerminalState.get_selection_text_of_none _ hnone, ?_⟩
    intro y0 hy0mem
    obtain ⟨ha, hb⟩ := mem_intRange.mp hy0mem
    rw [hE, TerminalState.scr_clearSelLoop, TerminalState.scr_mapScr]
    refine Screen.rowDirty_foldl_clear_line _ _ _ _ _ st.scr.physical_cols
      (fun l hl => (hcells l hl).1) ?_ y0 hy0mem ?_
    · exact lt_min_iff.mpr ⟨by decide, by omega⟩
    · unfold Screen.phys_row
      omega

/-- Concrete two-row, two-column state carrying a selection covering the
first row. -/
def c5wit_state : TerminalState :=
  { TerminalState.new 2 2 5 [] with
    selection_range := some ⟨⟨0, 0⟩, ⟨1, 0⟩⟩ }

/-- Witness for C5 at a concrete input: erase-to-end-of-line through the
selection clears it, empties the selection text, and dirties the row. -/
theorem c5_erase_clears_selection_witness :
    (c5wit_state.WF ∧ c5wit_state.selection_range = some ⟨⟨0, 0⟩, ⟨1, 0⟩⟩ ∧
      intersects_range (c5wit_state.cursor.x, c5wit_state.scr.physical_cols)
        ((⟨⟨0, 0⟩, ⟨1, 0⟩⟩ : SelectionRange).normalize.cols_for_row
          c5wit_state.cursor.y) = true) ∧
    ((c5wit_state.perform_csi_edit (Edit.EraseInLine .EraseToEndOfLine)).selection_range
        = none ∧
      (c5wit_state.perform_csi_edit (Edit.EraseInLine .EraseToEndOfLine)).get_selection_text
        = [] ∧
      (c5wit_state.perform_csi_edit (Edit.EraseInLine .EraseToEndOfLine)).scr.rowDirty
        c5wit_state.cursor.y) :=
  ⟨⟨by decide, by decide, by decide⟩,
    (c5_erase_clears_selection c5wit_state ⟨⟨0, 0⟩, ⟨1, 0⟩⟩
      (by decide) (by decide)).2.1 (by decide)⟩

/-! ## C9 support: cursor clamping and dirty rows -/

theorem Screen.phys_row_dirty_line (s : Screen) (y y' : Int) :
    (s.dirty_line y).phys_row y' = s.phys_row y' := by
  unfold Screen.phys_row
  simp

/-- Dirtying a visible row in range marks it dirty. -/
theorem Screen.rowDirty_dirty_line (s : Screen) (y : Int) (h0 : 0 ≤ y)
    (hidx : s.phys_row y < s.lines.length) : (s.dirty_line y).rowDirty y := by
  unfold Screen.rowDirty
  rw [Screen.phys_row_dirty_line]
  obtain ⟨l, hl⟩ : ∃ l, s.lines[s.phys_row y]? = some l :=
    ⟨_, List.getElem?_eq_getElem hidx⟩
  refine ⟨l.set_dirty, ?_, rfl⟩
  show (s.dirty_line y).lines[s.phys_row y]? = some l.set_dirty
  unfold Screen.dirty_line
  rw [if_pos h0]
  show (listModify s.lines (s.phys_row y) Line.set_dirty)[s.phys_row y]? = _
  exact listModify_getElem?_eq _ _ _ _ hl

/-- `dirty_line` preserves dirtiness of every row. -/
theorem Screen.rowDirty_mono_dirty_line (s : Screen) (y y' : Int) (h : s.rowDirty y') :
    (s.dirty_line y).rowDirty y' := by
  obtain ⟨l, hl, hd⟩ := h
  unfold Screen.rowDirty
  rw [Screen.phys_row_dirty_line]
  unfold Screen.dirty_line
  split
  · by_cases hij : s.phys_row y = s.phys_row y'
    · refine ⟨l.set_dirty, ?_, rfl⟩
      show (listModify s.lines (s.phys_row y) Line.set_dirty)[s.phys_row y']? = _
      rw [← hij]
      rw [← hij] at hl
      exact listModify_getElem?_eq _ _ _ _ hl
    · refine ⟨l, ?_, hd⟩
      show (listModify s.lines (s.phys_row y) Line.set_dirty)[s.phys_row y']? = _
      rw [listModify_getElem?_ne _ _ _ _ hij]
      exact hl
  · exact ⟨l, hl, hd⟩

/-- The screen effect of `set_cursor_pos`: dirty the old row, then the
clamped new row. -/
theorem TerminalState.scr_set_cursor_pos (st : TerminalState) (px py : Position) :
    (st.set_cursor_pos px py).scr =
      (st.scr.dirty_line st.cursor.y).dirty_line
        (min (match py with
          | .Relative dy => max (st.cursor.y + dy) 0
          | .Absolute ay => ay) ((st.scr.physical_rows : Int) - 1)) := by
  unfold TerminalState.set_cursor_pos
  simp [TerminalState.scr, TerminalState.mapScr]

/-- Core of the clamping argument, phrased over the already-computed
target coordinates. -/
theorem TerminalState.set_cursor_pos_dirty_core (st : TerminalState) (px py : Position)
    (X Y : Int) (hwf : st.WF) (hX0 : 0 ≤ X) (hY0 : 0 ≤ Y)
    (hcx : (st.set_cursor_pos px py).cursor.x =
      usizeCast (min X ((st.scr.physical_cols : Int) - 1)))
    (hcy : (st.set_cursor_pos px py).cursor.y = min Y ((st.scr.physical_rows : Int) - 1))
    (hscr : (st.set_cursor_pos px py).scr =
      (st.scr.dirty_line st.cursor.y).dirty_line (min Y ((st.scr.physical_rows : Int) - 1))) :
    ((st.set_cursor_pos px py).cursor.x < st.scr.physical_cols ∧
      0 ≤ (st.set_cursor_pos px py).cursor.y ∧
      (st.set_cursor_pos px py).cursor.y < (st.scr.physical_rows : Int)) ∧
    (st.set_cursor_pos px py).scr.rowDirty st.cursor.y ∧
    (st.set_cursor_pos px py).scr.rowDirty (st.set_cursor_pos px py).cursor.y := by
  obtain ⟨hr1, hc1, hrb, hcb, hlen, hcells, hy0, hyr, hxc, hs0, hs12, hs2r⟩ := hwf
  refine ⟨⟨?_, ?_, ?_⟩, ?_, ?_⟩
  · rw [hcx, usizeCast_of_nonneg (by omega) (by omega)]
    omega
  · rw [hcy]
    omega
  · rw [hcy]
    omega
  · rw [hscr]
    apply Screen.rowDirty_mono_dirty_line
    apply Screen.rowDirty_dirty_line _ _ hy0
    unfold Screen.phys_row
    omega
  · rw [hscr, hcy]
    apply Screen.rowDirty_dirty_line
    · omega
    · rw [Screen.phys_row_dirty_line, Screen.lines_length_dirty_line]
      unfold Screen.phys_row
      omega

/-- `set_cursor_pos` with a relative target, or an absolute target that
is not negative, clamps the cursor into the physical screen and dirties
the rows left and reached. -/
theorem TerminalState.set_cursor_pos_clamps (st : TerminalState) (px py : Position)
    (hwf : st.WF)
    (hx : ∀ ax, px = Position.Absolute ax → 0 ≤ ax)
    (hy : ∀ ay, py = Position.Absolute ay → 0 ≤ ay) :
    ((st.set_cursor_pos px py).cursor.x < st.scr.physical_cols ∧
      0 ≤ (st.set_cursor_pos px py).cursor.y ∧
      (st.set_cursor_pos px py).cursor.y < (st.scr.physical_rows : Int)) ∧
    (st.set_cursor_pos px py).scr.rowDirty st.cursor.y ∧
    (st.set_cursor_pos px py).scr.rowDirty (st.set_cursor_pos px py).cursor.y := by
  cases px with
  | Relative dx =>
    cases py with
    | Relative dy =>
      exact TerminalState.set_cursor_pos_dirty_core st _ _
        (max ((st.cursor.x : Int) + dx) 0) (max (st.cursor.y + dy) 0) hwf
        (le_max_right _ _) (le_max_right _ _)
        (by rw [TerminalState.cursor_set_cursor_pos])
        (by rw [TerminalState.cursor_set_cursor_pos])
        (by rw [TerminalState.scr_set_cursor_pos])
    | Absolute ay =>
      exact TerminalState.set_cursor_pos_dirty_core st _ _
        (max ((st.cursor.x : Int) + dx) 0) ay hwf
        (le_max_right _ _) (hy ay rfl)
        (by rw [TerminalState.cursor_set_cursor_pos])
        (by rw [TerminalState.cursor_set_cursor_pos])
        (by rw [TerminalState.scr_set_cursor_pos])
  | Absolute ax =>
    cases py with
    | Relative dy =>
      exact TerminalState.set_cursor_pos_dirty_core st _ _
        ax (max (st.cursor.y + dy) 0) hwf
        (hx ax rfl) (le_max_right _ _)
        (by rw [TerminalState.cursor_set_cursor_pos])
        (by rw [TerminalState.cursor_set_cursor_pos])
        (by rw [TerminalState.scr_set_cursor_pos])
    | Absolute ay =>
      exact TerminalState.set_cursor_pos_dirty_core st _ _
        ax ay hwf (hx ax rfl) (hy ay rfl)
        (by rw [TerminalState.cursor_set_cursor_pos])
        (by rw [TerminalState.cursor_set_cursor_pos])
        (by rw [TerminalState.scr_set_cursor_pos])

/-- Counterexample to C9: `LinePositionAbsolute 0` (VPA with parameter 0)
moves the cursor to row `-1`: the one-based-to-zero-based conversion
saturates on the `i64` side to `-1` and absolute targets are only clamped
from above. -/
theorem c9_counterexample :
    ((TerminalState.new 2 2 5 []).perform_csi_cursor
      (Cursor.LinePositionAbsolute 0)).1.cursor.y = -1 := by decide

/-- C9 (amended): every cursor movement that routes through
`set_cursor_pos` with a relative target, or with an absolute target that
is not negative, leaves the cursor inside the physical screen and marks
the rows left and reached dirty; the absolute line form requires a
one-based parameter of at least 1. -/
theorem c9_cursor_moves_clamped (st : TerminalState) (hwf : st.WF) :
    (∀ px py, (∀ ax, px = Position.Absolute ax → 0 ≤ ax) →
      (∀ ay, py = Position.Absolute ay → 0 ≤ ay) →
      ((st.set_cursor_pos px py).cursor.x < st.scr.physical_cols ∧
        0 ≤ (st.set_cursor_pos px py).cursor.y ∧
        (st.set_cursor_pos px py).cursor.y < (st.scr.physical_rows : Int)) ∧
      (st.set_cursor_pos px py).scr.rowDirty st.cursor.y ∧
      (st.set_cursor_pos px py).scr.rowDirty (st.set_cursor_pos px py).cursor.y) ∧
    (∀ c : Cursor,
      (∃ n, c = Cursor.Left n) ∨ (∃ n, c = Cursor.Right n) ∨
      (∃ n, c = Cursor.Up n) ∨ (∃ n, c = Cursor.Down n) ∨
      (∃ n, c = Cursor.CharacterPositionBackward n) ∨
      (∃ n, c = Cursor.CharacterPositionForward n) ∨
      (∃ n, c = Cursor.LinePositionBackward n) ∨
      (∃ n, c = Cursor.LinePositionForward n) ∨
      (∃ n, c = Cursor.PrecedingLine n) ∨
      (∃ line col, c = Cursor.Position line col) ∨
      (∃ line col, c = Cursor.CharacterAndLinePosition line col) ∨
      (∃ col, c = Cursor.CharacterAbsolute col) ∨
      (∃ col, c = Cursor.CharacterPositionAbsolute col) ∨
      (∃ line, 1 ≤ line ∧ c = Cursor.LinePositionAbsolute line) →
      ((st.perform_csi_cursor c).1.cursor.x < st.scr.physical_cols ∧
        0 ≤ (st.perform_csi_cursor c).1.cursor.y ∧
        (st.perform_csi_cursor c).1.cursor.y < (st.scr.physical_rows : Int)) ∧
      (st.perform_csi_cursor c).1.scr.rowDirty st.cursor.y ∧
      (st.perform_csi_cursor c).1.scr.rowDirty (st.perform_csi_cursor c).1.cursor.y) := by
  refine ⟨fun px py hx hy => TerminalState.set_cursor_pos_clamps st px py hwf hx hy, ?_⟩
  rintro c (⟨n, rfl⟩ | ⟨n, rfl⟩ | ⟨n, rfl⟩ | ⟨n, rfl⟩ | ⟨n, rfl⟩ | ⟨n, rfl⟩ | ⟨n, rfl⟩ |
    ⟨n, rfl⟩ | ⟨n, rfl⟩ | ⟨line, col, rfl⟩ | ⟨line, col, rfl⟩ | ⟨col, rfl⟩ | ⟨col, rfl⟩ |
    ⟨line, hline, rfl⟩)
  · have hE : (st.perform_csi_cursor (Cursor.Left n)).1 =
        st.set_cursor_pos (.Relative (-((n : Int)))) (.Relative 0) := rfl
    rw [hE]
    exact TerminalState.set_cursor_pos_clamps st _ _ hwf
      (fun ax h => nomatch h) (fun ay h => nomatch h)
  · have hE : (st.perform_csi_cursor (Cursor.Right n)).1 =
        st.set_cursor_pos (.Relative ((n : Int))) (.Relative 0) := rfl
    rw [hE]
    exact TerminalState.set_cursor_pos_clamps st _ _ hwf
      (fun ax h => nomatch h) (fun ay h => nomatch h)
  · have hE : (st.perform_csi_cursor (Cursor.Up n)).1 =
        st.set_cursor_pos (.Relative 0) (.Relative (-((n : Int)))) := rfl
    rw [hE]
    exact TerminalState.set_cursor_pos_clamps st _ _ hwf
      (fun ax h => nomatch h) (fun ay h => nomatch h)
  · have hE : (st.perform_csi_cursor (Cursor.Down n)).1 =
        st.set_cursor_pos (.Relative 0) (.Relative ((n : Int))) := rfl
    rw [hE]
    exact TerminalState.set_cursor_pos_clamps st _ _ hwf
      (fun ax h => nomatch h) (fun ay h => nomatch h)
  · have hE : (st.perform_csi_cursor (Cursor.CharacterPositionBackward n)).1 =
        st.set_cursor_pos (.Relative (-((n : Int)))) (.Relative 0) := rfl
    rw [hE]
    exact TerminalState.set_cursor_pos_clamps st _ _ hwf
      (fun ax h => nomatch h) (fun ay h => nomatch h)
  · have hE : (st.perform_csi_cursor (Cursor.CharacterPositionForward n)).1 =
        st.set_cursor_pos (.Relative ((n : Int))) (.Relative 0) := rfl
    rw [hE]
    exact TerminalState.set_cursor_pos_clamps st _ _ hwf
      (fun ax h => nomatch h) (fun ay h => nomatch h)
  · have hE : (st.perform_csi_cursor (Cursor.LinePositionBackward n)).1 =
        st.set_cursor_pos (.Relative 0) (.Relative (-((n : Int)))) := rfl
    rw [hE]
    exact TerminalState.set_cursor_pos_clamps st _ _ hwf
      (fun ax h => nomatch h) (fun ay h => nomatch h)
  · have hE : (st.perform_csi_cursor (Cursor.LinePositionForward n)).1 =
        st.set_cursor_pos (.Relative 0) (.Relative ((n : Int))) := rfl
    rw [hE]
    exact TerminalState.set_cursor_pos_clamps st _ _ hwf
      (fun ax h => nomatch h) (fun ay h => nomatch h)
  · have hE : (st.perform_csi_cursor (Cursor.PrecedingLine n)).1 =
        st.set_cursor_pos (.Absolute 0) (.Relative (-((n : Int)))) := rfl
    rw [hE]
    exact TerminalState.set_cursor_pos_clamps st _ _ hwf
      (fun ax h => by cases h; exact le_refl 0) (fun ay h => nomatch h)
  · have hE : (st.perform_csi_cursor (Cursor.Position line col)).1 =
        st.set_cursor_pos (.Absolute ((col.as_zero_based : Int)))
          (.Absolute ((line.as_zero_based : Int))) := rfl
    rw [hE]
    exact TerminalState.set_cursor_pos_clamps st _ _ hwf
      (fun ax h => by cases h; exact Int.natCast_nonneg _)
      (fun ay h => by cases h; exact Int.natCast_nonneg _)
  · have hE : (st.perform_csi_cursor (Cursor.CharacterAndLinePosition line col)).1 =
        st.set_cursor_pos (.Absolute ((col.as_zero_based : Int)))
          (.Absolute ((line.as_zero_based : Int))) := rfl
    rw [hE]
    exact TerminalState.set_cursor_pos_clamps st _ _ hwf
      (fun ax h => by cases h; exact Int.natCast_nonneg _)
      (fun ay h => by cases h; exact Int.natCast_nonneg _)
  · have hE : (st.perform_csi_cursor (Cursor.CharacterAbsolute col)).1 =
        st.set_cursor_pos (.Absolute ((col.as_zero_based : Int))) (.Relative 0) := rfl
    rw [hE]
    exact TerminalState.set_cursor_pos_clamps st _ _ hwf
      (fun ax h => by cases h; exact Int.natCast_nonneg _) (fun ay h => nomatch h)
  · have hE : (st.perform_csi_cursor (Cursor.CharacterPositionAbsolute col)).1 =
        st.set_cursor_pos (.Absolute ((col.as_zero_based : Int))) (.Relative 0) := rfl
    rw [hE]
    exact TerminalState.set_cursor_pos_clamps st _ _ hwf
      (fun ax h => by cases h; exact Int.natCast_nonneg _) (fun ay h => nomatch h)
  · have hE : (st.perform_csi_cursor (Cursor.LinePositionAbsolute line)).1 =
        st.set_cursor_pos (.Relative 0) (.Absolute ((line : Int) - 1)) := rfl
    rw [hE]
    exact TerminalState.set_cursor_pos_clamps st _ _ hwf
      (fun ax h => nomatch h) (fun ay h => by cases h; omega)

/-- Witness for C9 at a concrete input: cursor-left by 3 on a 2x2 screen
stays at column 0, row 0, and the row is dirty. -/
theorem c9_cursor_moves_clamped_witness :
    (TerminalState.new 2 2 5 []).WF ∧
    ((((TerminalState.new 2 2 5 []).perform_csi_cursor
        (Cursor.Left 3)).1.cursor.x < (TerminalState.new 2 2 5 []).scr.physical_cols ∧
      0 ≤ ((TerminalState.new 2 2 5 []).perform_csi_cursor (Cursor.Left 3)).1.cursor.y ∧
      ((TerminalState.new 2 2 5 []).perform_csi_cursor (Cursor.Left 3)).1.cursor.y <
        ((TerminalState.new 2 2 5 []).scr.physical_rows : Int)) ∧
    ((TerminalState.new 2 2 5 []).perform_csi_cursor (Cursor.Left 3)).1.scr.rowDirty
      (TerminalState.new 2 2 5 []).cursor.y ∧
    ((TerminalState.new 2 2 5 []).perform_csi_cursor (Cursor.Left 3)).1.scr.rowDirty
      ((TerminalState.new 2 2 5 []).perform_csi_cursor (Cursor.Left 3)).1.cursor.y) :=
  ⟨by decide,
    (c9_cursor_moves_clamped (TerminalState.new 2 2 5 []) (by decide)).2
      (Cursor.Left 3) (Or.inl ⟨3, rfl⟩)⟩

/-- Concrete two-row, two-column state with the cursor on the last column
of the first row. -/
def c2wit_state : TerminalState :=
  { TerminalState.new 2 2 5 [] with cursor := ⟨1, 0⟩ }

/-- Witness for C2 at a concrete input: printing `x` at the last column of
a 2x2 screen sets the pending wrap without moving the cursor, and printing
`y` afterwards wraps to row 1 and leaves the cursor after the new cell. -/
theorem c2_deferred_wrap_witness :
    (c2wit_state.WF ∧ c2wit_state.insert = false ∧ c2wit_state.wrap_next = false ∧
      graphemes [Char.ofNat 120] = [[Char.ofNat 120]] ∧
      c2wit_state.scr.physical_cols ≤
        c2wit_state.cursor.x + max (unicode_column_width [Char.ofNat 120]) 1) ∧
    ((c2wit_state.flush_print [Char.ofNat 120]).wrap_next = true ∧
      (c2wit_state.flush_print [Char.ofNat 120]).cursor = c2wit_state.cursor ∧
      ((c2wit_state.flush_print [Char.ofNat 120]).flush_print [Char.ofNat 121]).cursor.y =
        c2wit_state.cursor.y + 1 ∧
      ((c2wit_state.flush_print [Char.ofNat 120]).flush_print [Char.ofNat 121]).cursor.x =
        max (unicode_column_width [Char.ofNat 121]) 1) := by
  have h := c2_deferred_wrap c2wit_state [Char.ofNat 120] [Char.ofNat 120]
    (by decide) (by decide) (by decide) (by decide) (by decide)
  refine ⟨⟨by decide, by decide, by decide, by decide, by decide⟩,
    h.1.1, h.1.2.1,
    (h.2 [Char.ofNat 121] [Char.ofNat 121] (by decide) (by decide) (by decide) (by decide)).1,
    (h.2 [Char.ofNat 121] [Char.ofNat 121] (by decide) (by decide) (by decide) (by decide)).2⟩

/-! ## C1 and C6: streaming-boundary behavior of the parser -/

theorem parseStep_shift (ys : List Nat) (q : Parser) (acc : List Action) :
    ys.foldl parseStep (q, acc) =
      ((ys.foldl parseStep (q, [])).1, acc ++ (ys.foldl parseStep (q, [])).2) := by
  induction ys generalizing q acc with
  | nil => simp
  | cons b rest ih =>
    rw [List.foldl_cons, List.foldl_cons]
    have h1 : parseStep (q, acc) b =
        ((parseStep (q, []) b).1, acc ++ (parseStep (q, []) b).2) := by
      unfold parseStep
      simp
    rw [h1, ih (parseStep (q, []) b).1 (acc ++ (parseStep (q, []) b).2),
      ih (parseStep (q, []) b).1 (parseStep (q, []) b).2]
    simp

/-- `parse` distributes over concatenation: the second slice continues
from the parser state the first slice left behind, and the actions
concatenate. -/
theorem Parser.parse_append (p : Parser) (xs ys : List Nat) :
    p.parse (xs ++ ys) =
      (((p.parse xs).1.parse ys).1, (p.parse xs).2 ++ ((p.parse xs).1.parse ys).2) := by
  unfold Parser.parse
  rw [List.foldl_append]
  exact parseStep_shift ys (xs.foldl parseStep (p, [])).1 (xs.foldl parseStep (p, [])).2

/-- Computation of `parse` on a cons. -/
theorem Parser.parse_cons (p : Parser) (b : Nat) (rest : List Nat) :
    p.parse (b :: rest) =
      (((⟨(VTParser.parse_byte p.state_machine b).1⟩ : Parser).parse rest).1,
        ((VTParser.parse_byte p.state_machine b).2.map performEvent).flatten ++
          ((⟨(VTParser.parse_byte p.state_machine b).1⟩ : Parser).parse rest).2) := by
  show (b :: rest).foldl parseStep (p, []) = _
  rw [List.foldl_cons]
  have h1 : parseStep (p, []) b =
      ((⟨(VTParser.parse_byte p.state_machine b).1⟩ : Parser),
        ((VTParser.parse_byte p.state_machine b).2.map performEvent).flatten) := by
    unfold parseStep
    simp
  rw [h1]
  exact parseStep_shift rest _ _

/-- C1 (amended): splitting a byte sequence at any index and feeding the
two halves through two successive `parse` calls yields exactly the
actions and the parser state of one whole-sequence `parse` call.  (The
terminal states after `advance_bytes` can nevertheless differ, because
each call flushes its own print batch: see the counterexample.) -/
theorem c1_parse_split (p : Parser) (s : List Nat) (i : Nat) :
    (p.parse (s.take i)).2 ++ ((p.parse (s.take i)).1.parse (s.drop i)).2 = (p.parse s).2 ∧
    ((p.parse (s.take i)).1.parse (s.drop i)).1 = (p.parse s).1 := by
  have h := Parser.parse_append p (s.take i) (s.drop i)
  rw [List.take_append_drop] at h
  exact ⟨(congrArg Prod.snd h).symm, (congrArg Prod.fst h).symm⟩

/-- Counterexample to C1's terminal-state clause: the bytes of `"e"`
followed by a combining acute accent (U+0301) produce different terminal
states when split between two `advance_bytes` calls, because the first
call flushes `e` as its own grapheme cluster before the accent arrives:
split feeding ends with the cursor at column 2, whole feeding at
column 1. -/
theorem c1_counterexample :
    ((((Terminal.new 2 5 5 []).advance_bytes [0x65]).bind
        (fun t => t.advance_bytes [0xCC, 0x81])).map
      (fun t => t.state.cursor.x)) = some 2 ∧
    (((Terminal.new 2 5 5 []).advance_bytes [0x65, 0xCC, 0x81]).map
      (fun t => t.state.cursor.x)) = some 1 := by decide

theorem parseFirstGo_spec (bytes : List Nat) (m : VTParser) :
    (∀ a n, (parseFirstGo m bytes).2 = some (a, n) →
      0 < n ∧ n ≤ bytes.length ∧
      (Parser.parse ⟨m⟩ (bytes.take n)).2.head? = some a ∧
      (Parser.parse ⟨m⟩ (bytes.take (n - 1))).2 = []) ∧
    ((parseFirstGo m bytes).2 = none → (Parser.parse ⟨m⟩ bytes).2 = []) := by
  induction bytes generalizing m with
  | nil =>
    exact ⟨(fun a n h => nomatch h), (fun hx => rfl)⟩
  | cons b rest ih =>
    have hcons := Parser.parse_cons ⟨m⟩ b rest
    constructor
    · intro a n h
      unfold parseFirstGo at h
      dsimp only at h
      cases hacts : ((VTParser.parse_byte m b).2.map performEvent).flatten with
      | nil =>
        rw [hacts] at h
        dsimp only at h
        rcases Option.map_eq_some'.mp h with ⟨⟨a', n'⟩, hq, heq⟩
        cases heq
        obtain ⟨hn0, hnl, hhead, hprev⟩ := (ih (VTParser.parse_byte m b).1).1 a' n' hq
        refine ⟨by omega, by simpa using (by omega : n' + 1 ≤ rest.length + 1), ?_, ?_⟩
        · show (Parser.parse ⟨m⟩ (b :: rest.take n')).2.head? = some a'
          rw [Parser.parse_cons, hacts]
          simpa using hhead
        · have hsub : n' + 1 - 1 = n' := by omega
          rw [hsub]
          cases n' with
          | zero => omega
          | succ k =>
            show (Parser.parse ⟨m⟩ (b :: rest.take k)).2 = []
            rw [Parser.parse_cons, hacts]
            have hsub2 : k + 1 - 1 = k := by omega
            rw [hsub2] at hprev
            simpa using hprev
      | cons a0 more =>
        rw [hacts] at h
        dsimp only at h
        obtain ⟨ha, hn⟩ : a0 = a ∧ 1 = n := by
          have h2 := h
          simp only [Option.some.injEq, Prod.mk.injEq] at h2
          exact ⟨h2.1, h2.2⟩
        subst ha
        subst hn
        refine ⟨by omega, by simp, ?_, rfl⟩
        show (Parser.parse ⟨m⟩ [b]).2.head? = some a0
        rw [Parser.parse_cons, hacts]
        have hnil : ((⟨(VTParser.parse_byte m b).1⟩ : Parser).parse []).2 = [] := rfl
        rw [hnil]
        simp
    · intro h
      unfold parseFirstGo at h
      dsimp only at h
      cases hacts : ((VTParser.parse_byte m b).2.map performEvent).flatten with
      | nil =>
        rw [hacts] at h
        dsimp only at h
        have hq : (parseFirstGo (VTParser.parse_byte m b).1 rest).2 = none :=
          Option.map_eq_none'.mp h
        rw [Parser.parse_cons, hacts]
        simpa using (ih (VTParser.parse_byte m b).1).2 hq
      | cons a0 more =>
        rw [hacts] at h
        cases h

theorem parseFirstVecGo_spec (bytes : List Nat) (m : VTParser) :
    (∀ acts n, (parseFirstVecGo m bytes).2 = some (acts, n) →
      0 < n ∧ n ≤ bytes.length ∧ acts ≠ [] ∧
      (Parser.parse ⟨m⟩ (bytes.take n)).2 = acts ∧
      (Parser.parse ⟨m⟩ (bytes.take (n - 1))).2 = []) ∧
    ((parseFirstVecGo m bytes).2 = none → (Parser.parse ⟨m⟩ bytes).2 = []) := by
  induction bytes generalizing m with
  | nil =>
    exact ⟨(fun acts n h => nomatch h), (fun hx => rfl)⟩
  | cons b rest ih =>
    constructor
    · intro acts n h
      unfold parseFirstVecGo at h
      dsimp only at h
      cases hacts : ((VTParser.parse_byte m b).2.map performEvent).flatten with
      | nil =>
        rw [hacts] at h
        dsimp only at h
        rcases Option.map_eq_some'.mp h with ⟨⟨acts', n'⟩, hq, heq⟩
        cases heq
        obtain ⟨hn0, hnl, hne, hval, hprev⟩ := (ih (VTParser.parse_byte m b).1).1 acts' n' hq
        refine ⟨by omega, by simpa using (by omega : n' + 1 ≤ rest.length + 1), hne, ?_, ?_⟩
        · show (Parser.parse ⟨m⟩ (b :: rest.take n')).2 = acts'
          rw [Parser.parse_cons, hacts]
          simpa using hval
        · have hsub : n' + 1 - 1 = n' := by omega
          rw [hsub]
          cases n' with
          | zero => omega
          | succ k =>
            show (Parser.parse ⟨m⟩ (b :: rest.take k)).2 = []
            rw [Parser.parse_cons, hacts]
            have hsub2 : k + 1 - 1 = k := by omega
            rw [hsub2] at hprev
            simpa using hprev
      | cons a0 more =>
        rw [hacts] at h
        dsimp only at h
        obtain ⟨ha, hn⟩ : a0 :: more = acts ∧ 1 = n := by
          have h2 := h
          simp only [Option.some.injEq, Prod.mk.injEq] at h2
          exact ⟨h2.1, h2.2⟩
        subst hn
        rw [← ha]
        refine ⟨by omega, by simp, by simp, ?_, rfl⟩
        show (Parser.parse ⟨m⟩ [b]).2 = a0 :: more
        rw [Parser.parse_cons, hacts]
        have hnil : ((⟨(VTParser.parse_byte m b).1⟩ : Parser).parse []).2 = [] := rfl
        rw [hnil]
        simp
    · intro h
      unfold parseFirstVecGo at h
      dsimp only at h
      cases hacts : ((VTParser.parse_byte m b).2.map performEvent).flatten with
      | nil =>
        rw [hacts] at h
        dsimp only at h
        have hq : (parseFirstVecGo (VTParser.parse_byte m b).1 rest).2 = none :=
          Option.map_eq_none'.mp h
        rw [Parser.parse_cons, hacts]
        simpa using (ih (VTParser.parse_byte m b).1).2 hq
      | cons a0 more =>
        rw [hacts] at h
        cases h

/-- C6: `parse_as_vec` collects exactly the streaming actions;
`parse_first` and `parse_first_as_vec` agree with the streaming
recognition boundaries: a `some (action, n)` result means the first `n`
bytes are exactly the prefix whose last byte completed the first
recognized action (the first `n - 1` bytes emit nothing), the returned
action is the first streaming action, and when the streaming parse emits
no action for the whole slice both functions return `none`. -/
theorem c6_parse_first_refines (p : Parser) (bytes : List Nat) :
    (p.parse_as_vec bytes = p.parse bytes) ∧
    (∀ a n, (p.parse_first bytes).2 = some (a, n) →
      0 < n ∧ n ≤ bytes.length ∧
      (p.parse (bytes.take n)).2.head? = some a ∧
      (p.parse (bytes.take (n - 1))).2 = [] ∧
      (p.parse bytes).2.head? = some a) ∧
    (∀ acts n, (p.parse_first_as_vec bytes).2 = some (acts, n) →
      0 < n ∧ n ≤ bytes.length ∧ acts ≠ [] ∧
      (p.parse (bytes.take n)).2 = acts ∧
      (p.parse (bytes.take (n - 1))).2 = []) ∧
    ((p.parse bytes).2 = [] →
      (p.parse_first bytes).2 = none ∧ (p.parse_first_as_vec bytes).2 = none) := by
  refine ⟨rfl, ?_, ?_, ?_⟩
  · intro a n h
    obtain ⟨hn0, hnl, hhead, hprev⟩ := (parseFirstGo_spec bytes p.state_machine).1 a n h
    refine ⟨hn0, hnl, hhead, hprev, ?_⟩
    have hsplit := (c1_parse_split p bytes n).1
    rw [← hsplit]
    cases hcase : (p.parse (bytes.take n)).2 with
    | nil => rw [hcase] at hhead; cases hhead
    | cons x xs =>
      rw [hcase] at hhead
      simpa using hhead
  · intro acts n h
    exact (parseFirstVecGo_spec bytes p.state_machine).1 acts n h
  · intro hemp
    constructor
    · cases hgo : (p.parse_first bytes).2 with
      | none => rfl
      | some pr =>
        obtain ⟨hn0, hnl, hhead, hprev⟩ :=
          (parseFirstGo_spec bytes p.state_machine).1 pr.1 pr.2 (by exact hgo)
        have hsplit := (c1_parse_split p bytes pr.2).1
        rw [hemp] at hsplit
        rcases List.append_eq_nil.mp hsplit with ⟨h1, _⟩
        rw [h1] at hhead
        cases hhead
    · cases hgo : (p.parse_first_as_vec bytes).2 with
      | none => rfl
      | some pr =>
        obtain ⟨hn0, hnl, hne, hval, hprev⟩ :=
          (parseFirstVecGo_spec bytes p.state_machine).1 pr.1 pr.2 (by exact hgo)
        have hsplit := (c1_parse_split p bytes pr.2).1
        rw [hemp] at hsplit
        rcases List.append_eq_nil.mp hsplit with ⟨h1, _⟩
        exact absurd (h1 ▸ hval.symm) (by simpa using hne)

/-- Witness for C6 at a concrete input: one printable byte is recognized
after exactly one byte, with matching streaming boundary facts. -/
theorem c6_parse_first_refines_witness :
    (Parser.new.parse_first [0x41]).2 = some (Action.Print (Char.ofNat 0x41), 1) ∧
    (0 < 1 ∧ 1 ≤ [0x41].length ∧
      (Parser.new.parse ([0x41].take 1)).2.head? = some (Action.Print (Char.ofNat 0x41)) ∧
      (Parser.new.parse ([0x41].take (1 - 1))).2 = [] ∧
      (Parser.new.parse [0x41]).2.head? = some (Action.Print (Char.ofNat 0x41))) :=
  ⟨by decide,
    (c6_parse_first_refines Parser.new [0x41]).2.1 (Action.Print (Char.ofNat 0x41)) 1
      (by decide)⟩

end Miro
